import Mathlib

/-!
# docrecognizer: task state machine, recognition pipeline and response parsing

A shallow embedding of the Go packages `internal/domain`, `internal/usecase`,
`internal/adapter/llm`, `internal/adapter/repository`, `internal/adapter/queue`,
`internal/adapter/storage` and `internal/adapter/http/dto` of
`plastinin/docrecognizer`.

Conventions of the embedding:

* a Go `error` is a value of `GoError`; a `nil` error is `none`;
* a method with a pointer receiver that mutates its receiver and returns an
  `error` becomes a function returning the pair of the returned error and the
  receiver after the call;
* `time.Now()` and `uuid.New()` are inputs of the function that calls them;
* a `nil` map or a `nil` pointer is `none`;
* calls to the collaborators of the pipeline (repository, blob store,
  rasterizer, inference client) are answered by functions of the history of
  calls so far, and every call is appended to that history;
* a Go `int` is an integer of 64 bits: arithmetic that can overflow is
  followed by `wrapInt`.
-/

/-! ## Go values -/

/-- Go `error` values: `errorsNew msg` is `errors.New(msg)` (or `fmt.Errorf`
without `%w`), `wrap pre inner` is `fmt.Errorf(pre + "%w", inner)`. -/
inductive GoError where
  | errorsNew (msg : String)
  | wrap (pre : String) (inner : GoError)
  deriving DecidableEq, Repr

namespace GoError

/-- The text of an error, Go's `err.Error()`. -/
def Error : GoError → String
  | errorsNew msg => msg
  | wrap pre inner => pre ++ inner.Error

/-- The relation `Wraps e target` holds when `target` is on the `Unwrap` chain of `e`
(the identity comparison of `errors.Is`). -/
def Wraps : GoError → GoError → Prop
  | errorsNew msg, target => errorsNew msg = target
  | wrap pre inner, target => wrap pre inner = target ∨ Wraps inner target

end GoError

/-- A value of Go type `any` as produced by decoding JSON: `null` is the
`nil` interface, `number` carries the literal whose `float64` the value is. -/
inductive AnyValue where
  | null
  | bool (b : Bool)
  | number (literal : String)
  | string (s : String)
  | array (items : List AnyValue)
  | object (fields : List (String × AnyValue))

/-- A non-nil Go `map[string]any`, as an association list read by first match. -/
abbrev GoMap := List (String × AnyValue)

/-- A reading of the wall clock, `time.Time`. -/
abbrev Time := Nat

/-- A `uuid.UUID`. -/
abbrev UUID := Nat

/-- A byte slice. -/
abbrev Bytes := List Nat

/-! ## Package `domain` -/

namespace domain

/-- The Go type `TaskStatus` is a string type. -/
abbrev TaskStatus := String

def TaskStatusPending : TaskStatus := "pending"
def TaskStatusProcessing : TaskStatus := "processing"
def TaskStatusCompleted : TaskStatus := "completed"
def TaskStatusFailed : TaskStatus := "failed"

def ErrTaskNotFound : GoError := .errorsNew "task not found"
def ErrInvalidTaskStatus : GoError := .errorsNew "invalid task status"
def ErrEmptySchema : GoError := .errorsNew "schema cannot be empty"
def ErrEmptyFileKey : GoError := .errorsNew "file key cannot be empty"

/-- The method `TaskStatus.IsValid`. -/
def IsValid (s : TaskStatus) : Bool :=
  s == TaskStatusPending || s == TaskStatusProcessing ||
    s == TaskStatusCompleted || s == TaskStatusFailed

/-- The method `TaskStatus.IsFinal`. -/
def IsFinal (s : TaskStatus) : Bool :=
  s == TaskStatusCompleted || s == TaskStatusFailed

/-- The struct `Task`. -/
structure Task where
  ID : UUID
  Status : TaskStatus
  FileKey : String
  FileName : String
  ContentType : String
  Schema : List String
  Result : Option GoMap
  Error : String
  CreatedAt : Time
  UpdatedAt : Time
  CompletedAt : Option Time

/-- The constructor `NewTask`; `id` is the value of `uuid.New()` and `now` the
value of `time.Now()`. The zero values of the fields left out in the source
are a nil map, the empty string and a nil pointer. -/
def NewTask (id : UUID) (now : Time) (fileKey fileName contentType : String)
    (schema : List String) : Except GoError Task :=
  if fileKey = "" then .error ErrEmptyFileKey
  else if schema.length = 0 then .error ErrEmptySchema
  else .ok {
    ID := id
    Status := TaskStatusPending
    FileKey := fileKey
    FileName := fileName
    ContentType := contentType
    Schema := schema
    Result := none
    Error := ""
    CreatedAt := now
    UpdatedAt := now
    CompletedAt := none }

/-- The method `Task.MarkProcessing`: the returned error and the task after
the call. -/
def MarkProcessing (t : Task) (now : Time) : Option GoError × Task :=
  if t.Status ≠ TaskStatusPending then (some ErrInvalidTaskStatus, t)
  else (none, { t with Status := TaskStatusProcessing, UpdatedAt := now })

/-- The method `Task.MarkCompleted`. -/
def MarkCompleted (t : Task) (result : Option GoMap) (now : Time) :
    Option GoError × Task :=
  if t.Status ≠ TaskStatusProcessing then (some ErrInvalidTaskStatus, t)
  else (none, { t with
    Status := TaskStatusCompleted
    Result := result
    UpdatedAt := now
    CompletedAt := some now })

/-- The method `Task.MarkFailed`. -/
def MarkFailed (t : Task) (errMsg : String) (now : Time) : Option GoError × Task :=
  if t.Status ≠ TaskStatusProcessing ∧ t.Status ≠ TaskStatusPending then
    (some ErrInvalidTaskStatus, t)
  else (none, { t with
    Status := TaskStatusFailed
    Error := errMsg
    UpdatedAt := now
    CompletedAt := some now })

/-- The method `Task.CanRetry`. -/
def CanRetry (t : Task) : Bool := t.Status == TaskStatusFailed

/-- One call of a transition method, with its argument and the clock reading
it takes. -/
inductive Transition where
  | markProcessing (now : Time)
  | markCompleted (result : Option GoMap) (now : Time)
  | markFailed (errMsg : String) (now : Time)

/-- Run one transition method on a task. -/
def Transition.run (t : Task) : Transition → Option GoError × Task
  | .markProcessing now => MarkProcessing t now
  | .markCompleted result now => MarkCompleted t result now
  | .markFailed errMsg now => MarkFailed t errMsg now

/-- The task after a sequence of transition calls, each applied to the task
left by the one before, whether it succeeded or not. -/
def runAll (t : Task) : List Transition → Task
  | [] => t
  | op :: ops => runAll (op.run t).2 ops

/-- Tasks that exist: built by `NewTask` and then mutated only through the
transition methods. -/
def Reachable (t : Task) : Prop :=
  ∃ id now fileKey fileName contentType schema t0 ops,
    NewTask id now fileKey fileName contentType schema = .ok t0 ∧ runAll t0 ops = t

/-- The invariant of the tasks that exist: the status is one of the four, a
result is held only when completed, an error text only when failed, and
`CompletedAt` is set exactly in the terminal statuses. -/
def Invariant (t : Task) : Prop :=
  IsValid t.Status = true ∧
  (t.Result ≠ none → t.Status = TaskStatusCompleted) ∧
  (t.Error ≠ "" → t.Status = TaskStatusFailed) ∧
  (t.CompletedAt ≠ none ↔ IsFinal t.Status = true)

/-- The task after a successful `MarkProcessing`. -/
abbrev processingOf (t : Task) (now : Time) : Task :=
  { t with Status := TaskStatusProcessing, UpdatedAt := now }

/-- The task after a successful `MarkCompleted`. -/
abbrev completedOf (t : Task) (result : Option GoMap) (now : Time) : Task :=
  { t with
    Status := TaskStatusCompleted
    Result := result
    UpdatedAt := now
    CompletedAt := some now }

/-- The task after a successful `MarkFailed`. -/
abbrev failedOf (t : Task) (errMsg : String) (now : Time) : Task :=
  { t with
    Status := TaskStatusFailed
    Error := errMsg
    UpdatedAt := now
    CompletedAt := some now }

/-- The argument of a transition call is present: a non-nil result map for
`MarkCompleted`, a non-empty message for `MarkFailed`. -/
def Transition.argPresent : Transition → Bool
  | .markProcessing _ => true
  | .markCompleted result _ => result.isSome
  | .markFailed errMsg _ => errMsg != ""

/-- A task as `NewTask` builds it, used to instantiate the statements below. -/
def sampleTask : Task :=
  { ID := 7, Status := TaskStatusPending, FileKey := "2024/01/15/7/invoice.pdf",
    FileName := "invoice.pdf", ContentType := "application/pdf",
    Schema := ["invoice_number", "total_amount"], Result := none, Error := "",
    CreatedAt := 100, UpdatedAt := 100, CompletedAt := none }

end domain

/-! ## Package `strings` of the Go library

Go strings are modelled by Lean strings, read as their list of characters;
indices count characters. -/

namespace strings

/-- The predicate `unicode.IsSpace`. -/
def isSpace (c : Char) : Bool :=
  let n := c.toNat
  n == 0x20 || (0x09 ≤ n && n ≤ 0x0D) || n == 0x85 || n == 0xA0 || n == 0x1680 ||
    (0x2000 ≤ n && n ≤ 0x200A) || n == 0x2028 || n == 0x2029 || n == 0x202F ||
    n == 0x205F || n == 0x3000

/-- The function `strings.TrimSpace`. -/
def TrimSpace (s : String) : String :=
  ⟨(s.data.dropWhile isSpace).rdropWhile isSpace⟩

/-- The function `strings.HasPrefix`. -/
def HasPrefix (s start : String) : Bool := start.data.isPrefixOf s.data

/-- The function `strings.HasSuffix`. -/
def HasSuffix (s ending : String) : Bool :=
  ending.data.reverse.isPrefixOf s.data.reverse

/-- The function `strings.TrimPrefix`. -/
def TrimPrefix (s start : String) : String :=
  if HasPrefix s start then ⟨s.data.drop start.data.length⟩ else s

/-- The function `strings.TrimSuffix`. -/
def TrimSuffix (s ending : String) : String :=
  if HasSuffix s ending then ⟨s.data.take (s.data.length - ending.data.length)⟩ else s

/-- Index of the first occurrence of `sub` in `s` at or after position `i`,
where `s` is what remains of the string from position `i` on. -/
def indexFrom (sub : List Char) : List Char → Nat → Option Nat
  | [], i => if sub.isEmpty then some i else none
  | c :: s, i => if sub.isPrefixOf (c :: s) then some i else indexFrom sub s (i + 1)

/-- The function `strings.Index`: the index of the first instance of `substr`, or `-1`. -/
def Index (s substr : String) : Int :=
  match indexFrom substr.data s.data 0 with
  | some i => i
  | none => -1

/-- The function `strings.LastIndex`: the index of the last instance of `substr`, or `-1`;
the last instance is the first one of the reversed strings. -/
def LastIndex (s substr : String) : Int :=
  match indexFrom substr.data.reverse s.data.reverse 0 with
  | some i => (s.data.length : Int) - substr.data.length - i
  | none => -1

/-- The function `strings.Contains`. -/
def Contains (s substr : String) : Bool := (indexFrom substr.data s.data 0).isSome

/-- The lower case of a character, `unicode.ToLower`, on the characters whose
lower case is an ASCII letter: the letters `A` to `Z`, the dotted capital I
(U+0130, lower case `i`) and the Kelvin sign (U+212A, lower case `k`). The
other characters are left as they are: their lower case is not an ASCII
character, and the texts compared or searched for here are ASCII. -/
def toLowerRune (c : Char) : Char :=
  if c.toNat = 0x130 then 'i' else if c.toNat = 0x212A then 'k' else c.toLower

/-- The function `strings.ToLower`. -/
def ToLower (s : String) : String := ⟨s.data.map toLowerRune⟩

/-- The segments of `s` between the instances of the non-empty separator
`sep`: `skip` characters of a separator found remain to be passed over, and
`cur` holds the current segment, last character first. -/
def splitFrom (sep : List Char) : List Char → Nat → List Char → List (List Char)
  | [], _, cur => [cur.reverse]
  | _ :: s, skip + 1, cur => splitFrom sep s skip cur
  | c :: s, 0, cur =>
    if sep.isPrefixOf (c :: s) then cur.reverse :: splitFrom sep s (sep.length - 1) []
    else splitFrom sep s 0 (c :: cur)

/-- The function `strings.Split`; with an empty separator the string is
split after each character. -/
def Split (s sep : String) : List String :=
  if sep.data.isEmpty then s.data.map (fun c => String.mk [c])
  else (splitFrom sep.data s.data 0 []).map String.mk

/-- The slice expression `s[lo:hi]`. -/
def slice (s : String) (lo hi : Nat) : String := ⟨(s.data.take hi).drop lo⟩

end strings

/-! ## Package `usecase`: the recognition pipeline -/

namespace usecase

open domain

/-- A call to a collaborator of `RecognitionUseCase`, recorded with its
arguments and with what it returned. A `Download` returns an error or a
reader, and the reader is given by what `io.ReadAll` returns on it. -/
inductive Call where
  | GetByID (id : UUID) (ret : Except GoError Task)
  | Update (task : Task) (ret : Option GoError)
  | Download (fileKey : String) (ret : Except GoError (Except GoError Bytes))
  | ConvertFirstPage (pdfData : Bytes) (ret : Except GoError Bytes)
  | RecognizeDocument (imageData : Bytes) (contentType : String) (schema : List String)
      (ret : Except GoError (Option GoMap))

/-- The collaborators held by `RecognitionUseCase` and the clock. Each answers
as a function of its arguments and of the calls made before; `pdfConverter`
may be nil. -/
structure RecognitionUseCase where
  GetByID : List Call → UUID → Except GoError Task
  Update : List Call → Task → Option GoError
  Download : List Call → String → Except GoError (Except GoError Bytes)
  pdfConverter : Option (List Call → Bytes → Except GoError Bytes)
  RecognizeDocument :
    List Call → Bytes → String → List String → Except GoError (Option GoMap)
  Now : List Call → Time

/-- What one run of `ProcessTask` leaves: the error it returns, the calls it
made, in order, and the task struct it holds in memory when it returns (none
when the fetch failed). -/
structure Outcome where
  err : Option GoError
  calls : List Call
  task : Option Task

/-- The method `prepareImageData`, run after the calls of `h`: the result and
the calls made. -/
def prepareImageData (uc : RecognitionUseCase) (h : List Call) (fileData : Bytes)
    (contentType : String) : Except GoError Bytes × List Call :=
  if strings.Contains (strings.ToLower contentType) "pdf" then
    match uc.pdfConverter with
    | none => (.error (.errorsNew "PDF converter not available"), [])
    | some convertFirstPage =>
      match convertFirstPage h fileData with
      | .error err =>
        (.error (.wrap "failed to convert PDF: " err),
          [Call.ConvertFirstPage fileData (.error err)])
      | .ok imageData => (.ok imageData, [Call.ConvertFirstPage fileData (.ok imageData)])
  else (.ok fileData, [])

/-- The method `markTaskFailed`, run after the calls of `h`: the task after
the call and the calls made. Both error branches only log. -/
def markTaskFailed (uc : RecognitionUseCase) (h : List Call) (task : Task)
    (errMsg : String) : Task × List Call :=
  match MarkFailed task errMsg (uc.Now h) with
  | (some _, task) => (task, [])
  | (none, task) => (task, [Call.Update task (uc.Update h task)])

/-- The method `ProcessTask`, run after the calls of `h`. Each call is
recorded with what it returned before the method branches on it; the log
statements and the deferred `Close` of the reader are left out. -/
def ProcessTask (uc : RecognitionUseCase) (h : List Call) (taskID : UUID) : Outcome :=
  let c1 := [Call.GetByID taskID (uc.GetByID h taskID)]
  match uc.GetByID h taskID with
  | .error err => ⟨some (.wrap "failed to get task: " err), c1, none⟩
  | .ok task =>
    if IsFinal task.Status then ⟨none, c1, some task⟩
    else
      match MarkProcessing task (uc.Now (h ++ c1)) with
      | (some err, task) =>
        ⟨some (.wrap "failed to mark task as processing: " err), c1, some task⟩
      | (none, task) =>
        let c2 := c1 ++ [Call.Update task (uc.Update (h ++ c1) task)]
        match uc.Update (h ++ c1) task with
        | some err => ⟨some (.wrap "failed to update task status: " err), c2, some task⟩
        | none =>
          let c3 := c2 ++ [Call.Download task.FileKey (uc.Download (h ++ c2) task.FileKey)]
          match uc.Download (h ++ c2) task.FileKey with
          | .error err =>
            let r := markTaskFailed uc (h ++ c3) task ("failed to download file: " ++ err.Error)
            ⟨some (.wrap "failed to download file: " err), c3 ++ r.2, some r.1⟩
          | .ok (.error err) =>
            let r := markTaskFailed uc (h ++ c3) task ("failed to read file: " ++ err.Error)
            ⟨some (.wrap "failed to read file: " err), c3 ++ r.2, some r.1⟩
          | .ok (.ok fileData) =>
            match prepareImageData uc (h ++ c3) fileData task.ContentType with
            | (.error err, made) =>
              let c4 := c3 ++ made
              let r := markTaskFailed uc (h ++ c4) task
                ("failed to prepare image: " ++ err.Error)
              ⟨some (.wrap "failed to prepare image: " err), c4 ++ r.2, some r.1⟩
            | (.ok imageData, made) =>
              let c4 := c3 ++ made
              let c5 := c4 ++ [Call.RecognizeDocument imageData "image/png" task.Schema
                (uc.RecognizeDocument (h ++ c4) imageData "image/png" task.Schema)]
              match uc.RecognizeDocument (h ++ c4) imageData "image/png" task.Schema with
              | .error err =>
                let r := markTaskFailed uc (h ++ c5) task
                  ("LLM recognition failed: " ++ err.Error)
                ⟨some (.wrap "LLM recognition failed: " err), c5 ++ r.2, some r.1⟩
              | .ok result =>
                match MarkCompleted task result (uc.Now (h ++ c5)) with
                | (some err, task) =>
                  ⟨some (.wrap "failed to mark task as completed: " err), c5, some task⟩
                | (none, task) =>
                  let c6 := c5 ++ [Call.Update task (uc.Update (h ++ c5) task)]
                  match uc.Update (h ++ c5) task with
                  | some err => ⟨some (.wrap "failed to update task: " err), c6, some task⟩
                  | none => ⟨none, c6, some task⟩

/-- The records handed to the repository's `Update`, in order. -/
def updates : List Call → List Task
  | [] => []
  | Call.Update task _ :: cs => task :: updates cs
  | _ :: cs => updates cs

/-- The records the repository has stored: those of the `Update` calls that
returned no error, in order. -/
def persisted : List Call → List Task
  | [] => []
  | Call.Update task none :: cs => task :: persisted cs
  | _ :: cs => persisted cs

/-- A call to the blob store. -/
def Call.isDownload : Call → Bool
  | Call.Download _ _ => true
  | _ => false

/-- A call to the rasterizer. -/
def Call.isConvertFirstPage : Call → Bool
  | Call.ConvertFirstPage _ _ => true
  | _ => false

/-- A call to the inference client. -/
def Call.isRecognizeDocument : Call → Bool
  | Call.RecognizeDocument _ _ _ _ => true
  | _ => false

/-- A call to the repository's `Update`. -/
def Call.isUpdate : Call → Bool
  | Call.Update _ _ => true
  | _ => false

/-- The call returned without error (for a `Download`, the read of the
returned reader included). -/
def Call.succeeded : Call → Bool
  | Call.GetByID _ (.ok _) => true
  | Call.Update _ none => true
  | Call.Download _ (.ok (.ok _)) => true
  | Call.ConvertFirstPage _ (.ok _) => true
  | Call.RecognizeDocument _ _ _ (.ok _) => true
  | _ => false

/-- The calls of the normalization step that made image `imageData` out of
the file `fileData`: none when the content type has no `pdf` in it, and then
the image is the file; one successful `ConvertFirstPage` otherwise. -/
def Prepared (contentType : String) (fileData imageData : Bytes) (made : List Call) : Prop :=
  (strings.Contains (strings.ToLower contentType) "pdf" = false ∧
    imageData = fileData ∧ made = []) ∨
  (strings.Contains (strings.ToLower contentType) "pdf" = true ∧
    made = [Call.ConvertFirstPage fileData (.ok imageData)])

/-- The runs of `ProcessTask taskID`, one rule for each way through the
method: `Run uc taskID fetched out` relates what `GetByID` returned to what the
run leaves. `ProcessTask_run` below shows that every run follows one of the
rules. -/
inductive Run (uc : RecognitionUseCase) (taskID : UUID) :
    Except GoError Task → Outcome → Prop where
  | fetchFailed (e : GoError) :
    Run uc taskID (.error e) ⟨some (.wrap "failed to get task: " e), [Call.GetByID taskID (.error e)], none⟩
  | skipped (task : Task) (hfinal : IsFinal task.Status = true) :
    Run uc taskID (.ok task) ⟨none, [Call.GetByID taskID (.ok task)], some task⟩
  | notPending (task : Task) (hfinal : ¬ IsFinal task.Status = true)
      (hstatus : task.Status ≠ TaskStatusPending) :
    Run uc taskID (.ok task) ⟨some (.wrap "failed to mark task as processing: " ErrInvalidTaskStatus),
      [Call.GetByID taskID (.ok task)], some task⟩
  | firstUpdateFailed (task : Task) (now1 : Time) (e : GoError)
      (hstatus : task.Status = TaskStatusPending) :
    Run uc taskID (.ok task) ⟨some (.wrap "failed to update task status: " e),
      [Call.GetByID taskID (.ok task), Call.Update (processingOf task now1) (some e)],
      some (processingOf task now1)⟩
  | downloadFailed (task : Task) (now1 now2 : Time) (e : GoError) (ret : Option GoError)
      (hstatus : task.Status = TaskStatusPending) :
    Run uc taskID (.ok task) ⟨some (.wrap "failed to download file: " e),
      [Call.GetByID taskID (.ok task), Call.Update (processingOf task now1) none,
        Call.Download task.FileKey (.error e),
        Call.Update (failedOf (processingOf task now1)
          ("failed to download file: " ++ e.Error) now2) ret],
      some (failedOf (processingOf task now1) ("failed to download file: " ++ e.Error) now2)⟩
  | readFailed (task : Task) (now1 now2 : Time) (e : GoError) (ret : Option GoError)
      (hstatus : task.Status = TaskStatusPending) :
    Run uc taskID (.ok task) ⟨some (.wrap "failed to read file: " e),
      [Call.GetByID taskID (.ok task), Call.Update (processingOf task now1) none,
        Call.Download task.FileKey (.ok (.error e)),
        Call.Update (failedOf (processingOf task now1)
          ("failed to read file: " ++ e.Error) now2) ret],
      some (failedOf (processingOf task now1) ("failed to read file: " ++ e.Error) now2)⟩
  | noConverter (task : Task) (now1 now2 : Time) (fileData : Bytes) (ret : Option GoError)
      (hstatus : task.Status = TaskStatusPending)
      (hpdf : strings.Contains (strings.ToLower task.ContentType) "pdf" = true)
      (hnil : uc.pdfConverter = none) :
    Run uc taskID (.ok task) ⟨some (.wrap "failed to prepare image: "
        (.errorsNew "PDF converter not available")),
      [Call.GetByID taskID (.ok task), Call.Update (processingOf task now1) none,
        Call.Download task.FileKey (.ok (.ok fileData)),
        Call.Update (failedOf (processingOf task now1)
          ("failed to prepare image: " ++ "PDF converter not available") now2) ret],
      some (failedOf (processingOf task now1)
        ("failed to prepare image: " ++ "PDF converter not available") now2)⟩
  | convertFailed (task : Task) (now1 now2 : Time) (fileData : Bytes) (e : GoError)
      (ret : Option GoError) (hstatus : task.Status = TaskStatusPending)
      (hpdf : strings.Contains (strings.ToLower task.ContentType) "pdf" = true) :
    Run uc taskID (.ok task) ⟨some (.wrap "failed to prepare image: " (.wrap "failed to convert PDF: " e)),
      [Call.GetByID taskID (.ok task), Call.Update (processingOf task now1) none,
        Call.Download task.FileKey (.ok (.ok fileData)),
        Call.ConvertFirstPage fileData (.error e),
        Call.Update (failedOf (processingOf task now1)
          ("failed to prepare image: " ++ ("failed to convert PDF: " ++ e.Error)) now2) ret],
      some (failedOf (processingOf task now1)
        ("failed to prepare image: " ++ ("failed to convert PDF: " ++ e.Error)) now2)⟩
  | recognizeFailed (task : Task) (now1 now2 : Time) (fileData imageData : Bytes)
      (made : List Call) (e : GoError) (ret : Option GoError)
      (hstatus : task.Status = TaskStatusPending)
      (hmade : Prepared task.ContentType fileData imageData made) :
    Run uc taskID (.ok task) ⟨some (.wrap "LLM recognition failed: " e),
      [Call.GetByID taskID (.ok task), Call.Update (processingOf task now1) none,
        Call.Download task.FileKey (.ok (.ok fileData))] ++ (made ++
      [Call.RecognizeDocument imageData "image/png" task.Schema (.error e),
        Call.Update (failedOf (processingOf task now1)
          ("LLM recognition failed: " ++ e.Error) now2) ret]),
      some (failedOf (processingOf task now1) ("LLM recognition failed: " ++ e.Error) now2)⟩
  | lastUpdateFailed (task : Task) (now1 now2 : Time) (fileData imageData : Bytes)
      (made : List Call) (result : Option GoMap) (e : GoError)
      (hstatus : task.Status = TaskStatusPending)
      (hmade : Prepared task.ContentType fileData imageData made) :
    Run uc taskID (.ok task) ⟨some (.wrap "failed to update task: " e),
      [Call.GetByID taskID (.ok task), Call.Update (processingOf task now1) none,
        Call.Download task.FileKey (.ok (.ok fileData))] ++ (made ++
      [Call.RecognizeDocument imageData "image/png" task.Schema (.ok result),
        Call.Update (completedOf (processingOf task now1) result now2) (some e)]),
      some (completedOf (processingOf task now1) result now2)⟩
  | completed (task : Task) (now1 now2 : Time) (fileData imageData : Bytes)
      (made : List Call) (result : Option GoMap)
      (hstatus : task.Status = TaskStatusPending)
      (hmade : Prepared task.ContentType fileData imageData made) :
    Run uc taskID (.ok task) ⟨none,
      [Call.GetByID taskID (.ok task), Call.Update (processingOf task now1) none,
        Call.Download task.FileKey (.ok (.ok fileData))] ++ (made ++
      [Call.RecognizeDocument imageData "image/png" task.Schema (.ok result),
        Call.Update (completedOf (processingOf task now1) result now2) none]),
      some (completedOf (processingOf task now1) result now2)⟩

/-- The run `out` ended by recording the failure `e` of a collaborator under
the text `text`: it returns an error that wraps `e`, and its last call is an
`Update` of a record with status failed, error text `text` followed by the
text of `e`, `CompletedAt` set and no result; that record is the last one
handed to the repository, and the last one stored when this `Update` returned
no error. -/
def EndsFailed (out : Outcome) (text : String) (e : GoError) : Prop :=
  (∃ err, out.err = some err ∧ err.Wraps e) ∧
  ∃ rec ret, out.calls.getLast? = some (Call.Update rec ret) ∧
    (updates out.calls).getLast? = some rec ∧
    (ret = none → (persisted out.calls).getLast? = some rec) ∧
    rec.Status = TaskStatusFailed ∧ rec.Error = text ++ e.Error ∧ rec.Error ≠ "" ∧
    rec.CompletedAt ≠ none ∧ rec.Result = none

/-- Collaborators with fixed answers: the repository holds `stored` under
every id and answers an `Update` of record `t` with `updateRet t`; the blob
store, the rasterizer and the inference client return `download`, `convert`
and `recognize`; the clock reads 200 plus the number of calls made. -/
def scripted (stored : Task) (updateRet : Task → Option GoError)
    (download : Except GoError (Except GoError Bytes)) (convert : Except GoError Bytes)
    (recognize : Except GoError (Option GoMap)) : RecognitionUseCase :=
  { GetByID := fun _ _ => .ok stored
    Update := fun _ t => updateRet t
    Download := fun _ _ => download
    pdfConverter := some (fun _ _ => convert)
    RecognizeDocument := fun _ _ _ _ => recognize
    Now := fun h => 200 + h.length }

/-- Collaborators for which the download fails and the repository refuses the
`Update` of a failed record. -/
def lostUpdate : RecognitionUseCase :=
  scripted sampleTask
    (fun t => if t.Status = TaskStatusFailed then some (.errorsNew "connection refused")
      else none)
    (.error (.errorsNew "NoSuchKey")) (.ok []) (.ok none)

/-- Collaborators for which the download fails and the repository accepts
every `Update`. -/
def missingBlob : RecognitionUseCase :=
  scripted sampleTask (fun _ => none) (.error (.errorsNew "NoSuchKey")) (.ok []) (.ok none)

/-- Collaborators that all succeed: the rasterizer returns the image `[1, 2]`
and the inference client the map with `invoice_number` and `total_amount`. -/
def allSucceed : RecognitionUseCase :=
  scripted sampleTask (fun _ => none) (.ok (.ok [37, 80, 68, 70])) (.ok [1, 2])
    (.ok (some [("invoice_number", .string "INV-1"), ("total_amount", .null)]))

/-- Collaborators whose repository holds the sample task, completed. -/
def alreadyDone : RecognitionUseCase :=
  scripted (completedOf (processingOf sampleTask 200) (some []) 300) (fun _ => none)
    (.ok (.ok [])) (.ok []) (.ok none)

end usecase

/-! ## Go maps -/

namespace GoMap

/-- The read `v, ok := m[key]`: none when the key is absent. -/
def get? : GoMap → String → Option AnyValue
  | [], _ => none
  | (k, v) :: m, key => if k = key then some v else get? m key

/-- The assignment `m[key] = v`. -/
def set : GoMap → String → AnyValue → GoMap
  | [], key, v => [(key, v)]
  | (k, w) :: m, key, v => if k = key then (key, v) :: m else (k, w) :: set m key v

/-- The keys of a map. -/
def keys (m : GoMap) : List String := m.map Prod.fst

end GoMap

/-! ## Package `json`: a decoder for a fragment of JSON

The pipeline decodes the model output with `json.Unmarshal` of the Go library,
which `parseResponse` below takes as an argument. `json.Unmarshal` here is a
decoder of that shape for the objects whose members are strings without escape
sequences, `null`, `true` and `false`; it is used for concrete model outputs
only. -/

namespace json

/-- White space of the JSON grammar. -/
def isWhite (c : Char) : Bool := c == ' ' || c == '\t' || c == '\n' || c == '\r'

/-- Skip white space. -/
def skipWhite (s : List Char) : List Char := s.dropWhile isWhite

/-- Read a string after its opening quote: its characters and what follows
the closing quote. Escapes and control characters are outside the fragment. -/
def readString : List Char → Option (List Char × List Char)
  | [] => none
  | c :: cs =>
    if c = '"' then some ([], cs)
    else if c = '\\' ∨ c.toNat < 0x20 then none
    else
      match readString cs with
      | none => none
      | some (str, rest) => some (c :: str, rest)

/-- Read a value: a string, `null`, `true` or `false`. -/
def readValue : List Char → Option (AnyValue × List Char)
  | 'n' :: 'u' :: 'l' :: 'l' :: rest => some (.null, rest)
  | 't' :: 'r' :: 'u' :: 'e' :: rest => some (.bool true, rest)
  | 'f' :: 'a' :: 'l' :: 's' :: 'e' :: rest => some (.bool false, rest)
  | c :: cs =>
    if c = '"' then
      match readString cs with
      | none => none
      | some (str, rest) => some (.string ⟨str⟩, rest)
    else none
  | [] => none

/-- Read the members of an object up to its closing brace, starting at the
quote of a key; a key met again takes the later value. -/
def readMembers : Nat → List Char → GoMap → Option (GoMap × List Char)
  | 0, _, _ => none
  | fuel + 1, s, acc =>
    match s with
    | [] => none
    | c :: cs =>
      if c = '"' then
        match readString cs with
        | none => none
        | some (key, afterKey) =>
          match skipWhite afterKey with
          | [] => none
          | colon :: afterColon =>
            if colon = ':' then
              match readValue (skipWhite afterColon) with
              | none => none
              | some (v, afterValue) =>
                match skipWhite afterValue with
                | [] => none
                | sep :: afterSep =>
                  if sep = ',' then readMembers fuel (skipWhite afterSep) (acc.set ⟨key⟩ v)
                  else if sep = '\x7d' then some (acc.set ⟨key⟩ v, afterSep)
                  else none
            else none
      else none

/-- Decode a JSON text into a `map[string]any`. -/
def Unmarshal (data : String) : Except GoError GoMap :=
  match skipWhite data.data with
  | [] => .error (.errorsNew "unexpected end of JSON input")
  | c :: cs =>
    if c = '\x7b' then
      match skipWhite cs with
      | [] => .error (.errorsNew "unexpected end of JSON input")
      | d :: ds =>
        if d = '\x7d' then
          (if skipWhite ds = [] then .ok []
            else .error (.errorsNew "invalid character after top-level value"))
        else
          match readMembers data.data.length (d :: ds) [] with
          | none => .error (.errorsNew "invalid character")
          | some (m, rest) =>
            if skipWhite rest = [] then .ok m
            else .error (.errorsNew "invalid character after top-level value")
    else .error (.errorsNew "invalid character looking for beginning of value")

end json

/-! ## Package `llm`: parsing the model output -/

namespace llm

/-- The loop of `parseResponse` over the schema: a requested field that the
map lacks is set to nil. -/
def backfill (result : GoMap) : List String → GoMap
  | [] => result
  | field :: schema =>
    backfill (if (result.get? field).isSome then result else result.set field .null) schema

/-- The method `OllamaClient.parseResponse`; `Unmarshal` is `json.Unmarshal`
into a `map[string]any`. -/
def parseResponse (Unmarshal : String → Except GoError GoMap) (response : String)
    (schema : List String) : Except GoError GoMap :=
  let response := strings.TrimSpace response
  let response := strings.TrimPrefix response "```json"
  let response := strings.TrimPrefix response "```"
  let response := strings.TrimSuffix response "```"
  let response := strings.TrimSpace response
  let startIdx := strings.Index response "\x7b"
  let endIdx := strings.LastIndex response "\x7d"
  if startIdx = -1 ∨ endIdx = -1 ∨ startIdx > endIdx then
    .error (.errorsNew "no valid JSON found in response")
  else
    let jsonStr := strings.slice response startIdx.toNat (endIdx + 1).toNat
    match Unmarshal jsonStr with
    | .error err => .error (.wrap "failed to parse JSON: " err)
    | .ok result => .ok (backfill result schema)

end llm

/-! ## Package `repository`: fetching a task -/

namespace GoError

/-- The function `errors.Is`: `target` is on the `Unwrap` chain of the error.
Sentinel errors are told apart by their text. -/
def Is : GoError → GoError → Bool
  | errorsNew msg, target => decide (errorsNew msg = target)
  | wrap pre inner, target => decide (wrap pre inner = target) || Is inner target

end GoError

namespace repository

open domain

/-- The sentinel `pgx.ErrNoRows`. -/
def ErrNoRows : GoError := .errorsNew "no rows in result set"

/-- The method `TaskRepository.GetByID`, given what the scan of the queried
row returned: an error, or the scanned struct together with the nullable
`error` column, which is copied into the struct when it is not NULL. -/
def GetByID (scan : Except GoError (Task × Option String)) : Except GoError Task :=
  match scan with
  | .error err =>
    if err.Is ErrNoRows then .error ErrTaskNotFound
    else .error (.wrap "failed to get task: " err)
  | .ok (task, errorMsg) =>
    match errorMsg with
    | some msg => .ok { task with Error := msg }
    | none => .ok task

end repository

/-! ## Further sample collaborators -/

namespace usecase

open domain

/-- Collaborators whose repository finds no row for the task. -/
def unknownTask : RecognitionUseCase :=
  { scripted sampleTask (fun _ => none) (.ok (.ok [])) (.ok []) (.ok none) with
    GetByID := fun _ _ => repository.GetByID (.error repository.ErrNoRows) }

/-- Collaborators that all succeed, except that the repository refuses the
`Update` of a completed record. -/
def lastUpdateRefused : RecognitionUseCase :=
  scripted sampleTask
    (fun t => if t.Status = TaskStatusCompleted then some (.errorsNew "connection refused")
      else none)
    (.ok (.ok [37, 80, 68, 70])) (.ok [1, 2])
    (.ok (some [("invoice_number", .string "INV-1"), ("total_amount", .null)]))

/-- Collaborators whose repository holds the sample task already in
processing. -/
def alreadyProcessing : RecognitionUseCase :=
  scripted (processingOf sampleTask 150) (fun _ => none) (.ok (.ok [])) (.ok []) (.ok none)

/-- Collaborators whose repository refuses every `Update`. -/
def updateRefused : RecognitionUseCase :=
  scripted sampleTask (fun _ => some (.errorsNew "connection refused")) (.ok (.ok []))
    (.ok []) (.ok none)

end usecase

/-! ## The repository as a store -/

namespace usecase

open domain

/-- The record stored under `id` after the calls of `hist`, in a repository
that held `initial` before them: the record of the last accepted `Update`
carrying that id, or else the initial one. -/
def stored (initial : UUID → Option Task) (hist : List Call) (id : UUID) : Option Task :=
  match (persisted hist).reverse.find? (fun t => t.ID == id) with
  | some t => some t
  | none => initial id

/-- The repository of `uc` is a store that held `initial` before any call:
`GetByID` returns the record stored under the id, or the not-found error. -/
def ReadsStore (uc : RecognitionUseCase) (initial : UUID → Option Task) : Prop :=
  ∀ hist id, uc.GetByID hist id =
    match stored initial hist id with
    | some t => .ok t
    | none => .error ErrTaskNotFound

/-- The initial content of the sample store: the sample task under id 7. -/
def sampleStore (id : UUID) : Option Task := if id = 7 then some sampleTask else none

/-- Collaborators over the sample store: the repository accepts every
`Update` and the download fails. -/
def storeBacked : RecognitionUseCase :=
  { GetByID := fun hist id =>
      match stored sampleStore hist id with
      | some t => .ok t
      | none => .error ErrTaskNotFound
    Update := fun _ _ => none
    Download := fun _ _ => .error (.errorsNew "NoSuchKey")
    pdfConverter := none
    RecognizeDocument := fun _ _ _ _ => .ok none
    Now := fun h => 200 + h.length }

end usecase

/-! ## The text searched by `parseResponse` -/

namespace llm

/-- The text `parseResponse` searches for braces: the response after its five
trimming steps (white space, a leading "```json", a leading "```", a trailing
"```", white space again). -/
def cleaned (response : String) : String :=
  strings.TrimSpace
    (strings.TrimSuffix
      (strings.TrimPrefix (strings.TrimPrefix (strings.TrimSpace response) "```json") "```")
      "```")

/-- The text that `parseResponse` hands to the decoder when it finds braces:
the cleaned response from its first opening brace to its last closing brace. -/
def jsonText (response : String) : String :=
  strings.slice (cleaned response) (strings.Index (cleaned response) "\x7b").toNat
    (strings.LastIndex (cleaned response) "\x7d" + 1).toNat

end llm

/-! ## The fields of a task that no transition writes -/

namespace domain

/-- The records `a` and `b` agree on the fields set at creation: id, file key,
file name, content type, schema and creation time. -/
def sameIdentity (a b : Task) : Prop :=
  a.ID = b.ID ∧ a.FileKey = b.FileKey ∧ a.FileName = b.FileName ∧
    a.ContentType = b.ContentType ∧ a.Schema = b.Schema ∧ a.CreatedAt = b.CreatedAt

end domain

/-! ## Machine integers

A Go `int` is taken to be 64 bits wide, in two's complement: an `Int` between
`MinInt` and `MaxInt`. Arithmetic that can leave the range wraps. -/

/-- The largest `int`, `math.MaxInt64`. -/
def MaxInt : Int := 9223372036854775807

/-- The smallest `int`, `math.MinInt64`. -/
def MinInt : Int := -9223372036854775808

/-- The integer is the value of a Go `int`. -/
def isInt (x : Int) : Prop := MinInt ≤ x ∧ x ≤ MaxInt

instance (x : Int) : Decidable (isInt x) :=
  inferInstanceAs (Decidable (MinInt ≤ x ∧ x ≤ MaxInt))

/-- The `int` that the result `x` of an arithmetic operation is stored as:
`x` reduced modulo `2^64` into the range of `int`. -/
def wrapInt (x : Int) : Int :=
  (x + 9223372036854775808) % 18446744073709551616 - 9223372036854775808

/-- The lower-case hexadecimal digit of a number below 16. -/
def hexDigit (n : Nat) : Char :=
  if n < 10 then Char.ofNat (48 + n) else Char.ofNat (87 + n)

/-- The `k` low hexadecimal digits of `n`, most significant first. -/
def hexDigits : Nat → Nat → List Char
  | 0, _ => []
  | k + 1, n => hexDigits k (n / 16) ++ [hexDigit (n % 16)]

/-- The method `UUID.String`: the 32 hexadecimal digits of the 128 bits of the
identifier, in groups of 8, 4, 4, 4 and 12 separated by hyphens. -/
def UUID.String (u : UUID) : String :=
  ⟨(hexDigits 32 u).take 8 ++ '-' :: ((hexDigits 32 u).drop 8).take 4 ++
    '-' :: ((hexDigits 32 u).drop 12).take 4 ++ '-' :: ((hexDigits 32 u).drop 16).take 4 ++
    '-' :: (hexDigits 32 u).drop 20⟩

/-! ## Package `domain`: pagination -/

namespace domain

def DefaultPageSize : Int := 20
def MaxPageSize : Int := 100

/-- The struct `Pagination`. -/
structure Pagination where
  Page : Int
  PageSize : Int
  deriving DecidableEq

/-- The constructor `NewPagination`. -/
def NewPagination (page pageSize : Int) : Pagination :=
  let page := if page < 1 then 1 else page
  let pageSize := if pageSize < 1 then DefaultPageSize else pageSize
  let pageSize := if pageSize > MaxPageSize then MaxPageSize else pageSize
  { Page := page, PageSize := pageSize }

/-- The method `Pagination.Offset`: the subtraction and the multiplication
are those of `int`. -/
def Pagination.Offset (p : Pagination) : Int := wrapInt (wrapInt (p.Page - 1) * p.PageSize)

/-- The method `Pagination.Limit`. -/
def Pagination.Limit (p : Pagination) : Int := p.PageSize

/-- The struct `TaskListResult`. -/
structure TaskListResult where
  Tasks : List Task
  Total : Int
  Pagination : Pagination

end domain

/-! ## Package `dto`: the list response -/

namespace dto

open domain

/-- The struct `TaskResponse`. -/
structure TaskResponse where
  ID : String
  Status : String
  FileName : String
  ContentType : String
  Schema : List String
  Result : Option GoMap
  Error : String
  CreatedAt : Time
  UpdatedAt : Time
  CompletedAt : Option Time

/-- The function `TaskFromDomain`. -/
def TaskFromDomain (task : Task) : TaskResponse :=
  { ID := UUID.String task.ID
    Status := task.Status
    FileName := task.FileName
    ContentType := task.ContentType
    Schema := task.Schema
    Result := task.Result
    Error := task.Error
    CreatedAt := task.CreatedAt
    UpdatedAt := task.UpdatedAt
    CompletedAt := task.CompletedAt }

/-- The struct `TaskListResponse`. -/
structure TaskListResponse where
  Tasks : List TaskResponse
  Total : Int
  Page : Int
  PageSize : Int
  TotalPages : Int

/-- The function `TaskListFromDomain`. The integer division of Go truncates
toward zero and panics on a zero divisor: the function then returns nothing. -/
def TaskListFromDomain (result : TaskListResult) : Option TaskListResponse :=
  let tasks := result.Tasks.map TaskFromDomain
  if result.Pagination.PageSize = 0 then none
  else
    let totalPages := wrapInt (Int.tdiv result.Total result.Pagination.PageSize)
    let totalPages :=
      if Int.tmod result.Total result.Pagination.PageSize > 0 then wrapInt (totalPages + 1)
      else totalPages
    some {
      Tasks := tasks
      Total := result.Total
      Page := result.Pagination.Page
      PageSize := result.Pagination.PageSize
      TotalPages := totalPages }

/-- The response `r` shows the task `t`: the identifier as its text, and the
status, file name, content type, schema, result, error text and the three
times of the task. -/
def Renders (r : TaskResponse) (t : Task) : Prop :=
  r.ID = UUID.String t.ID ∧ r.Status = t.Status ∧ r.FileName = t.FileName ∧
    r.ContentType = t.ContentType ∧ r.Schema = t.Schema ∧ r.Result = t.Result ∧
    r.Error = t.Error ∧ r.CreatedAt = t.CreatedAt ∧ r.UpdatedAt = t.UpdatedAt ∧
    r.CompletedAt = t.CompletedAt

end dto

/-! ## Package `domain`: content types -/

namespace domain

def ErrUnsupportedFileType : GoError := .errorsNew "unsupported file type"

/-- The map `supportedContentTypes`, read at a key: a key that is absent
reads as false. -/
def supportedContentTypes (ct : String) : Bool :=
  ct == "image/png" || ct == "image/jpeg" || ct == "image/jpg" || ct == "image/webp" ||
    ct == "image/tiff" || ct == "application/pdf"

/-- The expression `strings.Split(contentType, ";")[0]`, followed by the
lower-casing and the trimming that the three functions below share. The
result of `Split` with a non-empty separator has a first element. -/
def mediaType (contentType : String) : String :=
  strings.TrimSpace (strings.ToLower ((strings.Split contentType ";").headD ""))

/-- The function `ValidateContentType`. -/
def ValidateContentType (contentType : String) : Option GoError :=
  if !supportedContentTypes (mediaType contentType) then some ErrUnsupportedFileType
  else none

/-- The function `IsImage`. -/
def IsImage (contentType : String) : Bool :=
  strings.HasPrefix (mediaType contentType) "image/"

/-- The function `IsPDF`. -/
def IsPDF (contentType : String) : Bool :=
  mediaType contentType == "application/pdf"

end domain

/-! ## Package `usecase`: creating and deleting tasks -/

namespace usecase

open domain

/-- The struct `CreateTaskInput`; the reader is given by the bytes it
yields. -/
structure CreateTaskInput where
  FileName : String
  ContentType : String
  FileSize : Int
  FileReader : Bytes
  Schema : List String

/-- A call to a collaborator of `TaskUseCase`, recorded with its arguments
and with what it returned: `Upload` and `DeleteFile` are the blob store's
`Upload` and `Delete`, `Create`, `GetByID` and `Delete` the repository's, and
`Enqueue` the queue's. -/
inductive TaskCall where
  | Upload (fileName contentType : String) (reader : Bytes) (size : Int)
      (ret : Except GoError String)
  | DeleteFile (fileKey : String) (ret : Option GoError)
  | Create (task : Task) (ret : Option GoError)
  | GetByID (id : UUID) (ret : Except GoError Task)
  | Delete (id : UUID) (ret : Option GoError)
  | Enqueue (taskID : UUID) (ret : Option GoError)

/-- The interface `TaskRepository`, as far as `TaskUseCase` calls it; each
method answers as a function of the calls made before and of its arguments. -/
structure TaskRepository where
  Create : List TaskCall → Task → Option GoError
  GetByID : List TaskCall → UUID → Except GoError Task
  Delete : List TaskCall → UUID → Option GoError

/-- The interface `FileStorage`, as far as `TaskUseCase` calls it. -/
structure FileStorage where
  Upload : List TaskCall → String → String → Bytes → Int → Except GoError String
  Delete : List TaskCall → String → Option GoError

/-- The interface `TaskQueue`. -/
structure TaskQueue where
  Enqueue : List TaskCall → UUID → Option GoError

/-- The struct `TaskUseCase`, with the two sources read by `NewTask`: the
identifier generator and the clock. -/
structure TaskUseCase where
  taskRepo : TaskRepository
  fileStorage : FileStorage
  taskQueue : TaskQueue
  NewUUID : List TaskCall → UUID
  Now : List TaskCall → Time

/-- What one call of `TaskUseCase.Create` leaves: the returned task and
error, and the calls made, in order. -/
structure CreateOutcome where
  task : Option Task
  err : Option GoError
  calls : List TaskCall

/-- The method `TaskUseCase.Create`, run after the calls of `h`; the log
statements are left out. -/
def TaskUseCase.Create (uc : TaskUseCase) (h : List TaskCall) (input : CreateTaskInput) :
    CreateOutcome :=
  match ValidateContentType input.ContentType with
  | some err => ⟨none, some (.wrap "validation error: " err), []⟩
  | none =>
    let c1 := [TaskCall.Upload input.FileName input.ContentType input.FileReader
      input.FileSize
      (uc.fileStorage.Upload h input.FileName input.ContentType input.FileReader
        input.FileSize)]
    match uc.fileStorage.Upload h input.FileName input.ContentType input.FileReader
        input.FileSize with
    | .error err => ⟨none, some (.wrap "failed to upload file: " err), c1⟩
    | .ok fileKey =>
      match NewTask (uc.NewUUID (h ++ c1)) (uc.Now (h ++ c1)) fileKey input.FileName
          input.ContentType input.Schema with
      | .error err =>
        ⟨none, some (.wrap "failed to create task: " err),
          c1 ++ [TaskCall.DeleteFile fileKey (uc.fileStorage.Delete (h ++ c1) fileKey)]⟩
      | .ok task =>
        let c2 := c1 ++ [TaskCall.Create task (uc.taskRepo.Create (h ++ c1) task)]
        match uc.taskRepo.Create (h ++ c1) task with
        | some err =>
          ⟨none, some (.wrap "failed to save task: " err),
            c2 ++ [TaskCall.DeleteFile fileKey (uc.fileStorage.Delete (h ++ c2) fileKey)]⟩
        | none =>
          ⟨some task, none,
            c2 ++ [TaskCall.Enqueue task.ID (uc.taskQueue.Enqueue (h ++ c2) task.ID)]⟩

/-- The method `TaskUseCase.Delete`, run after the calls of `h`: the returned
error and the calls made. -/
def TaskUseCase.Delete (uc : TaskUseCase) (h : List TaskCall) (id : UUID) :
    Option GoError × List TaskCall :=
  let c1 := [TaskCall.GetByID id (uc.taskRepo.GetByID h id)]
  match uc.taskRepo.GetByID h id with
  | .error err => (some err, c1)
  | .ok task =>
    let c2 := c1 ++ [TaskCall.DeleteFile task.FileKey
      (uc.fileStorage.Delete (h ++ c1) task.FileKey)]
    let c3 := c2 ++ [TaskCall.Delete id (uc.taskRepo.Delete (h ++ c2) id)]
    match uc.taskRepo.Delete (h ++ c2) id with
    | some err => (some (.wrap "failed to delete task: " err), c3)
    | none => (none, c3)

/-- A call to the repository's `Create`. -/
def TaskCall.isCreate : TaskCall → Bool
  | TaskCall.Create _ _ => true
  | _ => false

/-- A call to the queue's `Enqueue`. -/
def TaskCall.isEnqueue : TaskCall → Bool
  | TaskCall.Enqueue _ _ => true
  | _ => false

/-- A call to the repository's `Delete` or to the blob store's `Delete`. -/
def TaskCall.isDelete : TaskCall → Bool
  | TaskCall.Delete _ _ => true
  | TaskCall.DeleteFile _ _ => true
  | _ => false

/-- Collaborators of `TaskUseCase` with fixed answers: the blob store returns
`upload` and deletes without error, the repository answers `Create` with
`create`, `GetByID` with `fetch` and `Delete` with `delete`, the queue answers
with `enqueue`; new identifiers are 7 and the clock reads 100. -/
def scriptedTasks (upload : Except GoError String) (create : Option GoError)
    (enqueue : Option GoError) (fetch : Except GoError Task) (deleteFile delete : Option GoError) :
    TaskUseCase :=
  { taskRepo :=
      { Create := fun _ _ => create, GetByID := fun _ _ => fetch, Delete := fun _ _ => delete }
    fileStorage := { Upload := fun _ _ _ _ _ => upload, Delete := fun _ _ => deleteFile }
    taskQueue := { Enqueue := fun _ _ => enqueue }
    NewUUID := fun _ => 7
    Now := fun _ => 100 }

/-- The upload of `invoice.pdf` with two fields asked for. -/
def sampleInput : CreateTaskInput :=
  { FileName := "invoice.pdf", ContentType := "application/pdf", FileSize := 4,
    FileReader := [37, 80, 68, 70], Schema := ["invoice_number", "total_amount"] }

/-- Collaborators for which the upload and the record creation succeed and
the queue refuses the identifier. -/
def queueDown : TaskUseCase :=
  scriptedTasks (.ok "2024/01/15/7/invoice.pdf") none (some (.errorsNew "redis: connection refused"))
    (.ok sampleTask) none none

/-- Collaborators whose repository holds the sample task and whose blob store
fails to delete. -/
def blobDeleteFails : TaskUseCase :=
  scriptedTasks (.ok "2024/01/15/7/invoice.pdf") none none (.ok sampleTask)
    (some (.errorsNew "failed to delete object: timeout")) none

/-- Collaborators whose repository knows no task. -/
def emptyRepository : TaskUseCase :=
  scriptedTasks (.ok "2024/01/15/7/invoice.pdf") none none (.error ErrTaskNotFound) none
    (some ErrTaskNotFound)

/-- Collaborators whose repository holds the sample task and fails to delete
it. -/
def recordDeleteFails : TaskUseCase :=
  scriptedTasks (.ok "2024/01/15/7/invoice.pdf") none none (.ok sampleTask) none
    (some (.errorsNew "connection refused"))

/-- The sample task as created for a PNG upload whose content type carries a
parameter with the text `pdf` in it. -/
def pngTask : Task :=
  { sampleTask with
    FileKey := "2024/01/15/7/x.png", FileName := "x.png",
    ContentType := "image/png; name=x.pdf" }

/-- Collaborators that all succeed on the PNG task: the blob store returns
the bytes `[137, 80, 78, 71]`, the rasterizer the image `[1, 2]`. -/
def pngWithPdfParameter : RecognitionUseCase :=
  scripted pngTask (fun _ => none) (.ok (.ok [137, 80, 78, 71])) (.ok [1, 2])
    (.ok (some [("invoice_number", .string "INV-1"), ("total_amount", .null)]))

end usecase

/-! ## Package `queue`: the consumer

The queue library `asynq` is outside the repository. Its server hands each
delivered task to the handler and decides on the returned error what to do
with the task; that decision is modelled here as its documentation states
it. -/

namespace asynq

/-- The sentinel `asynq.SkipRetry`: a handler returns an error wrapping it to
say that the task is not to be retried. -/
def SkipRetry : GoError := .errorsNew "skip retry for the task"

/-- What the server does with a delivered task once the handler has
returned. -/
inductive Disposition where
  | done
  | retry
  | archive
  deriving DecidableEq, Repr

/-- The decision of the server on the error `ret` returned by the handler,
for a task already retried `retried` times with retry ceiling `maxRetry`: no
error completes the task; an error that wraps `SkipRetry`, or any error once
the ceiling is reached, archives it without redelivery; every other error has
the task redelivered and counts as one more retry. -/
def dispose (ret : Option GoError) (retried maxRetry : Nat) : Disposition :=
  match ret with
  | none => .done
  | some err => if retried ≥ maxRetry || err.Is SkipRetry then .archive else .retry

end asynq

namespace queue

open domain usecase

/-- The struct `DocumentRecognitionPayload`. -/
structure DocumentRecognitionPayload where
  TaskID : String

/-- The retry ceiling set by the producer, `asynq.MaxRetry(3)`. -/
def MaxRetry : Nat := 3

/-- The method `TaskConsumer.handleDocumentRecognition` on the payload of a
delivered task, run after the calls of `h`: the returned error and the calls
made. The decoder of the payload (`json.Unmarshal` into the payload struct)
and `uuid.Parse` are arguments; the log statements are left out. -/
def handleDocumentRecognition
    (Unmarshal : String → Except GoError DocumentRecognitionPayload)
    (Parse : String → Except GoError UUID) (uc : RecognitionUseCase) (h : List Call)
    (payload : String) : Option GoError × List Call :=
  match Unmarshal payload with
  | .error err => (some (.wrap "failed to unmarshal payload: " err), [])
  | .ok decoded =>
    match Parse decoded.TaskID with
    | .error err => (some (.wrap "invalid task ID: " err), [])
    | .ok taskID =>
      match (ProcessTask uc h taskID).err with
      | some err => (some err, (ProcessTask uc h taskID).calls)
      | none => (none, (ProcessTask uc h taskID).calls)

/-- A decoder of payloads built on the decoder of flat JSON objects: the
member `task_id` when it is a string, the empty string when it is absent or
null. -/
def decodePayload (payload : String) : Except GoError DocumentRecognitionPayload :=
  match json.Unmarshal payload with
  | .error err => .error err
  | .ok fields =>
    match GoMap.get? fields "task_id" with
    | some (.string s) => .ok ⟨s⟩
    | some .null => .ok ⟨""⟩
    | none => .ok ⟨""⟩
    | some _ => .error (.errorsNew "json: cannot unmarshal into Go struct field")

/-- The value of a hexadecimal digit. -/
def hexValue (c : Char) : Option Nat :=
  if '0' ≤ c ∧ c ≤ '9' then some (c.toNat - 48)
  else if 'a' ≤ c ∧ c ≤ 'f' then some (c.toNat - 87)
  else if 'A' ≤ c ∧ c ≤ 'F' then some (c.toNat - 55)
  else none

/-- The number written by hexadecimal digits, after the digits read so far
with value `acc`. -/
def hexNumber : List Char → Nat → Option Nat
  | [], acc => some acc
  | c :: cs, acc =>
    match hexValue c with
    | some d => hexNumber cs (16 * acc + d)
    | none => none

/-- A parser of identifiers in the canonical form of 36 characters, hyphens
at positions 8, 13, 18 and 23; the other forms that `uuid.Parse` reads are
refused. -/
def parseCanonical (s : String) : Except GoError UUID :=
  if s.data.length = 36 ∧ s.data.get? 8 = some '-' ∧ s.data.get? 13 = some '-' ∧
      s.data.get? 18 = some '-' ∧ s.data.get? 23 = some '-' then
    match hexNumber (s.data.filter (fun c => c != '-')) 0 with
    | some n => .ok n
    | none => .error (.errorsNew "invalid UUID format")
  else .error (.errorsNew "invalid UUID length")

end queue

/-! ## Package `path` of the Go library -/

namespace path

/-- The elements of a path kept by `Clean`, read left to right with the
elements kept so far in `out`, last first: an empty element and `.` are
dropped; `..` removes the element before it, unless there is none or it is
itself `..`, in which case `..` is dropped at the root of a rooted path and
kept otherwise. -/
def cleanElems (rooted : Bool) : List String → List String → List String
  | [], out => out.reverse
  | e :: es, out =>
    if e = "" ∨ e = "." then cleanElems rooted es out
    else if e = ".." then
      match out with
      | top :: below =>
        if top = ".." then cleanElems rooted es (e :: out) else cleanElems rooted es below
      | [] => if rooted then cleanElems rooted es [] else cleanElems rooted es [e]
    else cleanElems rooted es (e :: out)

/-- The function `path.Clean`: the shortest path name equivalent to `p` by
lexical processing; the empty path becomes `.`. -/
def Clean (p : String) : String :=
  if p = "" then "."
  else
    let rooted := strings.HasPrefix p "/"
    let out := "/".intercalate (cleanElems rooted (strings.Split p "/") [])
    if rooted then "/" ++ out else if out = "" then "." else out

/-- The buffer that `path.Join` fills: the elements separated by slashes,
the empty elements before the first non-empty one left out. -/
def joinElems : List String → List Char → List Char
  | [], buf => buf
  | e :: es, buf =>
    if buf.length > 0 ∨ e ≠ "" then
      joinElems es ((if buf.length > 0 then buf ++ ['/'] else buf) ++ e.data)
    else joinElems es buf

/-- The function `path.Join`. -/
def Join (elem : List String) : String :=
  if (elem.map String.length).sum = 0 then "" else Clean ⟨joinElems elem []⟩

end path

/-! ## Package `storage`: the key of an uploaded file -/

namespace time

/-- The calendar date of a `time.Time`, as `Format` reads it. -/
structure Date where
  Year : Nat
  Month : Nat
  Day : Nat

/-- The decimal digits of `n`, padded with zeros on the left to `width`
digits. -/
def padded (width n : Nat) : String :=
  ⟨List.replicate (width - (Nat.toDigits 10 n).length) '0' ++ Nat.toDigits 10 n⟩

/-- The method `Time.Format` on the three layouts that `Upload` uses: the
year in four digits, the month and the day in two. -/
def Date.Format (t : Date) (layout : String) : String :=
  if layout = "2006" then padded 4 t.Year
  else if layout = "01" then padded 2 t.Month
  else if layout = "02" then padded 2 t.Day
  else layout

end time

namespace storage

/-- The method `S3Storage.Upload`; `now` is the value of `time.Now()`, `id`
that of `uuid.New()`, and `PutObject` the call of the client, answering for
a key, a content type, the bytes of the reader and the size. -/
def Upload (PutObject : String → String → Bytes → Int → Option GoError) (now : time.Date)
    (id : UUID) (fileName contentType : String) (reader : Bytes) (size : Int) :
    Except GoError String :=
  let fileKey := path.Join [now.Format "2006", now.Format "01", now.Format "02",
    UUID.String id, fileName]
  match PutObject fileKey contentType reader size with
  | some err => .error (.wrap "failed to upload file: " err)
  | none => .ok fileKey

end storage

/-! ## The task state machine -/

namespace domain

theorem status_distinct :
    TaskStatusPending ≠ TaskStatusProcessing ∧ TaskStatusPending ≠ TaskStatusCompleted ∧
    TaskStatusPending ≠ TaskStatusFailed ∧ TaskStatusProcessing ≠ TaskStatusCompleted ∧
    TaskStatusProcessing ≠ TaskStatusFailed ∧ TaskStatusCompleted ≠ TaskStatusFailed := by
  decide

theorem status_facts :
    IsValid TaskStatusPending = true ∧ IsValid TaskStatusProcessing = true ∧
    IsValid TaskStatusCompleted = true ∧ IsValid TaskStatusFailed = true ∧
    IsFinal TaskStatusPending = false ∧ IsFinal TaskStatusProcessing = false ∧
    IsFinal TaskStatusCompleted = true ∧ IsFinal TaskStatusFailed = true := by
  decide

theorem isFinal_iff (s : TaskStatus) :
    IsFinal s = true ↔ s = TaskStatusCompleted ∨ s = TaskStatusFailed := by
  simp [IsFinal]

theorem markProcessing_of_pending (t : Task) (now : Time) (h : t.Status = TaskStatusPending) :
    MarkProcessing t now =
      (none, { t with Status := TaskStatusProcessing, UpdatedAt := now }) := by
  simp [MarkProcessing, h]

theorem markProcessing_of_not_pending (t : Task) (now : Time)
    (h : t.Status ≠ TaskStatusPending) :
    MarkProcessing t now = (some ErrInvalidTaskStatus, t) := by
  simp [MarkProcessing, h]

theorem markCompleted_of_processing (t : Task) (result : Option GoMap) (now : Time)
    (h : t.Status = TaskStatusProcessing) :
    MarkCompleted t result now =
      (none, { t with
        Status := TaskStatusCompleted
        Result := result
        UpdatedAt := now
        CompletedAt := some now }) := by
  simp [MarkCompleted, h]

theorem markCompleted_of_not_processing (t : Task) (result : Option GoMap) (now : Time)
    (h : t.Status ≠ TaskStatusProcessing) :
    MarkCompleted t result now = (some ErrInvalidTaskStatus, t) := by
  simp [MarkCompleted, h]

theorem markFailed_of_active (t : Task) (errMsg : String) (now : Time)
    (h : t.Status = TaskStatusPending ∨ t.Status = TaskStatusProcessing) :
    MarkFailed t errMsg now =
      (none, { t with
        Status := TaskStatusFailed
        Error := errMsg
        UpdatedAt := now
        CompletedAt := some now }) := by
  have hd := status_distinct
  rcases h with h | h <;> simp [MarkFailed, h, hd.1]

theorem markFailed_of_not_active (t : Task) (errMsg : String) (now : Time)
    (h1 : t.Status ≠ TaskStatusPending) (h2 : t.Status ≠ TaskStatusProcessing) :
    MarkFailed t errMsg now = (some ErrInvalidTaskStatus, t) := by
  simp [MarkFailed, h1, h2]

/-- A transition from a terminal status fails and leaves the task as it was. -/
theorem run_of_final (t : Task) (op : Transition) (h : IsFinal t.Status = true) :
    op.run t = (some ErrInvalidTaskStatus, t) := by
  have hd := status_distinct
  rw [isFinal_iff] at h
  cases op with
  | markProcessing now =>
    apply markProcessing_of_not_pending
    rcases h with h | h <;> rw [h]
    · exact fun e => hd.2.1 e.symm
    · exact fun e => hd.2.2.1 e.symm
  | markCompleted result now =>
    apply markCompleted_of_not_processing
    rcases h with h | h <;> rw [h]
    · exact fun e => hd.2.2.2.1 e.symm
    · exact fun e => hd.2.2.2.2.1 e.symm
  | markFailed errMsg now =>
    apply markFailed_of_not_active <;> rcases h with h | h <;> rw [h]
    · exact fun e => hd.2.1 e.symm
    · exact fun e => hd.2.2.1 e.symm
    · exact fun e => hd.2.2.2.1 e.symm
    · exact fun e => hd.2.2.2.2.1 e.symm

theorem runAll_of_final (t : Task) (ops : List Transition) (h : IsFinal t.Status = true) :
    runAll t ops = t := by
  induction ops with
  | nil => rfl
  | cons op ops ih => simp [runAll, run_of_final t op h, ih]

theorem runAll_append (t : Task) (ops1 ops2 : List Transition) :
    runAll t (ops1 ++ ops2) = runAll (runAll t ops1) ops2 := by
  induction ops1 generalizing t with
  | nil => rfl
  | cons op ops ih => simp [runAll, ih]

/-- Induction over the tasks that exist. -/
theorem Reachable.induction (P : Task → Prop)
    (hnew : ∀ id now fileKey fileName contentType schema t0,
      NewTask id now fileKey fileName contentType schema = .ok t0 → P t0)
    (hstep : ∀ t op, P t → P (Transition.run t op).2)
    (t : Task) (h : Reachable t) : P t := by
  obtain ⟨id, now, fileKey, fileName, contentType, schema, t0, ops, h0, hrun⟩ := h
  have key : ∀ (ops : List Transition) (u : Task), P u → P (runAll u ops) := by
    intro ops
    induction ops with
    | nil => intro u hu; exact hu
    | cons op ops ih => intro u hu; exact ih _ (hstep u op hu)
  rw [← hrun]
  exact key ops t0 (hnew _ _ _ _ _ _ _ h0)

theorem newTask_ok (id : UUID) (now : Time) (fileKey fileName contentType : String)
    (schema : List String) (t0 : Task)
    (h : NewTask id now fileKey fileName contentType schema = .ok t0) :
    t0 = { ID := id, Status := TaskStatusPending, FileKey := fileKey, FileName := fileName,
           ContentType := contentType, Schema := schema, Result := none, Error := "",
           CreatedAt := now, UpdatedAt := now, CompletedAt := none } := by
  unfold NewTask at h
  split_ifs at h
  injection h with h
  exact h.symm

/-- What a transition does, by cases on whether it succeeds. -/
theorem run_cases (t : Task) (op : Transition) :
    (Transition.run t op).2 = t ∨
    (∃ now, t.Status = TaskStatusPending ∧
      (Transition.run t op).2 = { t with Status := TaskStatusProcessing, UpdatedAt := now }) ∨
    (∃ result now, op = .markCompleted result now ∧ t.Status = TaskStatusProcessing ∧
      (Transition.run t op).2 = { t with
        Status := TaskStatusCompleted, Result := result, UpdatedAt := now,
        CompletedAt := some now }) ∨
    (∃ errMsg now, op = .markFailed errMsg now ∧
      (t.Status = TaskStatusPending ∨ t.Status = TaskStatusProcessing) ∧
      (Transition.run t op).2 = { t with
        Status := TaskStatusFailed, Error := errMsg, UpdatedAt := now,
        CompletedAt := some now }) := by
  cases op with
  | markProcessing now =>
    by_cases h : t.Status = TaskStatusPending
    · right; left
      exact ⟨now, h, by simp [Transition.run, markProcessing_of_pending t now h]⟩
    · left; simp [Transition.run, markProcessing_of_not_pending t now h]
  | markCompleted result now =>
    by_cases h : t.Status = TaskStatusProcessing
    · right; right; left
      exact ⟨result, now, rfl, h, by simp [Transition.run, markCompleted_of_processing t result now h]⟩
    · left; simp [Transition.run, markCompleted_of_not_processing t result now h]
  | markFailed errMsg now =>
    by_cases h1 : t.Status = TaskStatusPending
    · right; right; right
      exact ⟨errMsg, now, rfl, Or.inl h1,
        by simp [Transition.run, markFailed_of_active t errMsg now (Or.inl h1)]⟩
    · by_cases h2 : t.Status = TaskStatusProcessing
      · right; right; right
        exact ⟨errMsg, now, rfl, Or.inr h2,
          by simp [Transition.run, markFailed_of_active t errMsg now (Or.inr h2)]⟩
      · left; simp [Transition.run, markFailed_of_not_active t errMsg now h1 h2]

theorem invariant_of_reachable (t : Task) (h : Reachable t) : Invariant t := by
  have hd := status_distinct
  obtain ⟨v1, v2, v3, v4, f1, f2, f3, f4⟩ := status_facts
  refine Reachable.induction Invariant ?_ ?_ t h
  · intro id now fileKey fileName contentType schema t0 h0
    rw [newTask_ok _ _ _ _ _ _ _ h0]
    refine ⟨v1, by simp, by simp, ?_⟩
    simp only [ne_eq, not_true_eq_false, false_iff]
    rw [f1]
    exact Bool.false_ne_true
  · intro t op ⟨hv, hr, he, hc⟩
    rcases run_cases t op with h | ⟨now, hs, h⟩ | ⟨result, now, -, hs, h⟩ | ⟨errMsg, now, -, hs, h⟩
    · rw [h]; exact ⟨hv, hr, he, hc⟩
    · rw [h]
      refine ⟨v2, ?_, ?_, ?_⟩
      · intro hres; exact absurd (hs.symm.trans (hr hres)) hd.2.1
      · intro herr; exact absurd (hs.symm.trans (he herr)) hd.2.2.1
      · have hnone : t.CompletedAt = none := by
          by_contra hne
          have hfin := hc.mp hne
          rw [hs, f1] at hfin
          exact Bool.false_ne_true hfin
        simp only [hnone, ne_eq, not_true_eq_false, false_iff]
        rw [f2]
        exact Bool.false_ne_true
    · rw [h]
      exact ⟨v3, fun _ => rfl, fun herr => absurd (hs.symm.trans (he herr)) hd.2.2.2.2.1,
        ⟨fun _ => f3, fun _ => by simp⟩⟩
    · rw [h]
      refine ⟨v4, ?_, fun _ => rfl, ⟨fun _ => f4, fun _ => by simp⟩⟩
      intro hres
      have hcomp := hr hres
      rcases hs with hs | hs
      · exact absurd (hs.symm.trans hcomp) hd.2.1
      · exact absurd (hs.symm.trans hcomp) hd.2.2.2.1

end domain

/-! ### Claims on the transition methods -/

namespace domain

/-- C2: a transition called when its guard is not met returns
`ErrInvalidTaskStatus` and leaves every field of the task as it was; and a
transition that has just succeeded fails in that way when called again. -/
theorem C2_unmet_guard_fails_without_mutation (t : Task) (result result2 : Option GoMap)
    (errMsg errMsg2 : String) (now now2 : Time) :
    (t.Status ≠ TaskStatusPending →
      MarkProcessing t now = (some ErrInvalidTaskStatus, t)) ∧
    (t.Status ≠ TaskStatusProcessing →
      MarkCompleted t result now = (some ErrInvalidTaskStatus, t)) ∧
    (t.Status ≠ TaskStatusProcessing ∧ t.Status ≠ TaskStatusPending →
      MarkFailed t errMsg now = (some ErrInvalidTaskStatus, t)) ∧
    ((MarkProcessing t now).1 = none →
      MarkProcessing (MarkProcessing t now).2 now2 =
        (some ErrInvalidTaskStatus, (MarkProcessing t now).2)) ∧
    ((MarkCompleted t result now).1 = none →
      MarkCompleted (MarkCompleted t result now).2 result2 now2 =
        (some ErrInvalidTaskStatus, (MarkCompleted t result now).2)) ∧
    ((MarkFailed t errMsg now).1 = none →
      MarkFailed (MarkFailed t errMsg now).2 errMsg2 now2 =
        (some ErrInvalidTaskStatus, (MarkFailed t errMsg now).2)) := by
  have hd := status_distinct
  refine ⟨markProcessing_of_not_pending t now, markCompleted_of_not_processing t result now,
    fun h => markFailed_of_not_active t errMsg now h.2 h.1, ?_, ?_, ?_⟩
  · intro h
    by_cases hs : t.Status = TaskStatusPending
    · rw [markProcessing_of_pending t now hs]
      exact markProcessing_of_not_pending _ _ (fun e => hd.1 e.symm)
    · rw [markProcessing_of_not_pending t now hs] at h
      exact absurd h (by simp)
  · intro h
    by_cases hs : t.Status = TaskStatusProcessing
    · rw [markCompleted_of_processing t result now hs]
      exact markCompleted_of_not_processing _ _ _ (fun e => hd.2.2.2.1 e.symm)
    · rw [markCompleted_of_not_processing t result now hs] at h
      exact absurd h (by simp)
  · intro h
    by_cases hs : t.Status = TaskStatusPending ∨ t.Status = TaskStatusProcessing
    · rw [markFailed_of_active t errMsg now hs]
      exact markFailed_of_not_active _ _ _ (fun e => hd.2.2.1 e.symm)
        (fun e => hd.2.2.2.2.1 e.symm)
    · rw [markFailed_of_not_active t errMsg now (fun e => hs (Or.inl e))
        (fun e => hs (Or.inr e))] at h
      exact absurd h (by simp)

/-- A completed task rejects all three transitions unchanged, and a pending
task rejects a second `MarkProcessing`. -/
theorem C2_unmet_guard_witness :
    MarkProcessing { sampleTask with Status := TaskStatusCompleted } 200 =
      (some ErrInvalidTaskStatus, { sampleTask with Status := TaskStatusCompleted }) ∧
    MarkCompleted { sampleTask with Status := TaskStatusCompleted } none 200 =
      (some ErrInvalidTaskStatus, { sampleTask with Status := TaskStatusCompleted }) ∧
    MarkFailed { sampleTask with Status := TaskStatusCompleted } "boom" 200 =
      (some ErrInvalidTaskStatus, { sampleTask with Status := TaskStatusCompleted }) ∧
    MarkProcessing (MarkProcessing sampleTask 200).2 300 =
      (some ErrInvalidTaskStatus, (MarkProcessing sampleTask 200).2) :=
  ⟨(C2_unmet_guard_fails_without_mutation
      { sampleTask with Status := TaskStatusCompleted } none none "boom" "" 200 300).1
      (by decide),
   (C2_unmet_guard_fails_without_mutation
      { sampleTask with Status := TaskStatusCompleted } none none "boom" "" 200 300).2.1
      (by decide),
   (C2_unmet_guard_fails_without_mutation
      { sampleTask with Status := TaskStatusCompleted } none none "boom" "" 200 300).2.2.1
      (by decide),
   (C2_unmet_guard_fails_without_mutation sampleTask none none "boom" "" 200 300).2.2.2.1
      (by decide)⟩

/-- C3: `MarkProcessing` succeeds exactly when the status is pending; on
success the status is processing, `UpdatedAt` is the clock reading, and
`Result`, `Error` and `CompletedAt` are as before. -/
theorem C3_markProcessing (t : Task) (now : Time) :
    ((MarkProcessing t now).1 = none ↔ t.Status = TaskStatusPending) ∧
    ((MarkProcessing t now).1 = none →
      (MarkProcessing t now).2.Status = TaskStatusProcessing ∧
      (MarkProcessing t now).2.UpdatedAt = now ∧
      (MarkProcessing t now).2.Result = t.Result ∧
      (MarkProcessing t now).2.Error = t.Error ∧
      (MarkProcessing t now).2.CompletedAt = t.CompletedAt) := by
  by_cases hs : t.Status = TaskStatusPending
  · rw [markProcessing_of_pending t now hs]
    exact ⟨⟨fun _ => hs, fun _ => rfl⟩, fun _ => ⟨rfl, rfl, rfl, rfl, rfl⟩⟩
  · rw [markProcessing_of_not_pending t now hs]
    exact ⟨⟨fun h => absurd h (by simp), fun h => absurd h hs⟩, fun h => absurd h (by simp)⟩

/-- The call of `MarkProcessing` on a pending task. -/
theorem C3_markProcessing_witness :
    (MarkProcessing sampleTask 200).1 = none ∧
    (MarkProcessing sampleTask 200).2.Status = TaskStatusProcessing ∧
    (MarkProcessing sampleTask 200).2.UpdatedAt = 200 ∧
    (MarkProcessing sampleTask 200).2.Result = sampleTask.Result ∧
    (MarkProcessing sampleTask 200).2.Error = sampleTask.Error ∧
    (MarkProcessing sampleTask 200).2.CompletedAt = sampleTask.CompletedAt :=
  ⟨by decide, (C3_markProcessing sampleTask 200).2 (by decide)⟩

/-- C4: `MarkCompleted` succeeds exactly when the status is processing; on
success the status is completed, `Result` is the given map, `CompletedAt` is
set to the clock reading, which is also the new `UpdatedAt`, and `Error` is as
before. -/
theorem C4_markCompleted (t : Task) (result : Option GoMap) (now : Time) :
    ((MarkCompleted t result now).1 = none ↔ t.Status = TaskStatusProcessing) ∧
    ((MarkCompleted t result now).1 = none →
      (MarkCompleted t result now).2.Status = TaskStatusCompleted ∧
      (MarkCompleted t result now).2.Result = result ∧
      (MarkCompleted t result now).2.UpdatedAt = now ∧
      (MarkCompleted t result now).2.CompletedAt =
        some (MarkCompleted t result now).2.UpdatedAt ∧
      (MarkCompleted t result now).2.Error = t.Error) := by
  by_cases hs : t.Status = TaskStatusProcessing
  · rw [markCompleted_of_processing t result now hs]
    exact ⟨⟨fun _ => hs, fun _ => rfl⟩, fun _ => ⟨rfl, rfl, rfl, rfl, rfl⟩⟩
  · rw [markCompleted_of_not_processing t result now hs]
    exact ⟨⟨fun h => absurd h (by simp), fun h => absurd h hs⟩, fun h => absurd h (by simp)⟩

/-- The call of `MarkCompleted` on a processing task. -/
theorem C4_markCompleted_witness :
    (MarkCompleted { sampleTask with Status := TaskStatusProcessing }
      (some [("invoice_number", AnyValue.string "INV-1")]) 300).1 = none ∧
    (MarkCompleted { sampleTask with Status := TaskStatusProcessing }
      (some [("invoice_number", AnyValue.string "INV-1")]) 300).2.Status =
        TaskStatusCompleted ∧
    (MarkCompleted { sampleTask with Status := TaskStatusProcessing }
      (some [("invoice_number", AnyValue.string "INV-1")]) 300).2.Result =
        some [("invoice_number", AnyValue.string "INV-1")] ∧
    (MarkCompleted { sampleTask with Status := TaskStatusProcessing }
      (some [("invoice_number", AnyValue.string "INV-1")]) 300).2.UpdatedAt = 300 ∧
    (MarkCompleted { sampleTask with Status := TaskStatusProcessing }
      (some [("invoice_number", AnyValue.string "INV-1")]) 300).2.CompletedAt =
        some (MarkCompleted { sampleTask with Status := TaskStatusProcessing }
          (some [("invoice_number", AnyValue.string "INV-1")]) 300).2.UpdatedAt ∧
    (MarkCompleted { sampleTask with Status := TaskStatusProcessing }
      (some [("invoice_number", AnyValue.string "INV-1")]) 300).2.Error = "" :=
  ⟨by decide, (C4_markCompleted { sampleTask with Status := TaskStatusProcessing }
    (some [("invoice_number", AnyValue.string "INV-1")]) 300).2 (by decide)⟩

/-- C5: `MarkFailed` succeeds exactly when the status is pending or
processing; on success the status is failed, `Error` is the given message,
`CompletedAt` is set to the clock reading, which is also the new `UpdatedAt`,
and `Result` is as before. -/
theorem C5_markFailed (t : Task) (errMsg : String) (now : Time) :
    ((MarkFailed t errMsg now).1 = none ↔
      (t.Status = TaskStatusPending ∨ t.Status = TaskStatusProcessing)) ∧
    ((MarkFailed t errMsg now).1 = none →
      (MarkFailed t errMsg now).2.Status = TaskStatusFailed ∧
      (MarkFailed t errMsg now).2.Error = errMsg ∧
      (MarkFailed t errMsg now).2.UpdatedAt = now ∧
      (MarkFailed t errMsg now).2.CompletedAt = some (MarkFailed t errMsg now).2.UpdatedAt ∧
      (MarkFailed t errMsg now).2.Result = t.Result) := by
  by_cases hs : t.Status = TaskStatusPending ∨ t.Status = TaskStatusProcessing
  · rw [markFailed_of_active t errMsg now hs]
    exact ⟨⟨fun _ => hs, fun _ => rfl⟩, fun _ => ⟨rfl, rfl, rfl, rfl, rfl⟩⟩
  · rw [markFailed_of_not_active t errMsg now (fun e => hs (Or.inl e))
      (fun e => hs (Or.inr e))]
    exact ⟨⟨fun h => absurd h (by simp), fun h => absurd h hs⟩, fun h => absurd h (by simp)⟩

/-- The call of `MarkFailed` on a pending task. -/
theorem C5_markFailed_witness :
    (MarkFailed sampleTask "failed to download file: not found" 300).1 = none ∧
    (MarkFailed sampleTask "failed to download file: not found" 300).2.Status =
      TaskStatusFailed ∧
    (MarkFailed sampleTask "failed to download file: not found" 300).2.Error =
      "failed to download file: not found" ∧
    (MarkFailed sampleTask "failed to download file: not found" 300).2.UpdatedAt = 300 ∧
    (MarkFailed sampleTask "failed to download file: not found" 300).2.CompletedAt =
      some (MarkFailed sampleTask "failed to download file: not found" 300).2.UpdatedAt ∧
    (MarkFailed sampleTask "failed to download file: not found" 300).2.Result = none :=
  ⟨by decide,
    (C5_markFailed sampleTask "failed to download file: not found" 300).2 (by decide)⟩

end domain

namespace domain

theorem sampleTask_new :
    NewTask 7 100 "2024/01/15/7/invoice.pdf" "invoice.pdf" "application/pdf"
      ["invoice_number", "total_amount"] = .ok sampleTask := by
  rfl

theorem reachable_runAll_sampleTask (ops : List Transition) :
    Reachable (runAll sampleTask ops) :=
  ⟨7, 100, "2024/01/15/7/invoice.pdf", "invoice.pdf", "application/pdf",
    ["invoice_number", "total_amount"], sampleTask, ops, sampleTask_new, rfl⟩

/-- C6: terminal statuses are absorbing. On a completed or failed task each
of the three transitions fails, so any sequence of transition calls leaves the
task as it is and its status never becomes pending or processing again; and on
a task that exists, a `CompletedAt` that is set keeps its value under any
sequence of transition calls. -/
theorem C6_terminal_absorbing (t : Task) (ops : List Transition) :
    (t.Status = TaskStatusCompleted ∨ t.Status = TaskStatusFailed →
      (∀ op : Transition, (op.run t).1 = some ErrInvalidTaskStatus ∧ (op.run t).2 = t) ∧
      runAll t ops = t ∧
      (runAll t ops).Status ≠ TaskStatusPending ∧
      (runAll t ops).Status ≠ TaskStatusProcessing) ∧
    (Reachable t → t.CompletedAt ≠ none →
      (runAll t ops).CompletedAt = t.CompletedAt ∧ (runAll t ops).Status = t.Status) := by
  have hd := status_distinct
  constructor
  · intro hfinal
    have hf : IsFinal t.Status = true := (isFinal_iff _).mpr hfinal
    refine ⟨fun op => by rw [run_of_final t op hf]; exact ⟨rfl, rfl⟩, runAll_of_final t ops hf,
      ?_, ?_⟩
    · rw [runAll_of_final t ops hf]
      rcases hfinal with h | h <;> rw [h]
      · exact fun e => hd.2.1 e.symm
      · exact fun e => hd.2.2.1 e.symm
    · rw [runAll_of_final t ops hf]
      rcases hfinal with h | h <;> rw [h]
      · exact fun e => hd.2.2.2.1 e.symm
      · exact fun e => hd.2.2.2.2.1 e.symm
  · intro hreach hset
    have hf : IsFinal t.Status = true := (invariant_of_reachable t hreach).2.2.2.mp hset
    rw [runAll_of_final t ops hf]
    exact ⟨rfl, rfl⟩

/-- A task failed at time 300 stays as it is under `MarkProcessing`,
`MarkCompleted` and `MarkFailed`. -/
theorem C6_terminal_absorbing_witness :
    runAll (runAll sampleTask [.markFailed "boom" 300])
        [.markProcessing 400, .markCompleted (some []) 500, .markFailed "again" 600] =
      runAll sampleTask [.markFailed "boom" 300] ∧
    (runAll (runAll sampleTask [.markFailed "boom" 300])
        [.markProcessing 400, .markCompleted (some []) 500, .markFailed "again" 600]).CompletedAt =
      some 300 :=
  ⟨((C6_terminal_absorbing (runAll sampleTask [.markFailed "boom" 300])
      [.markProcessing 400, .markCompleted (some []) 500, .markFailed "again" 600]).1
      (Or.inr (by decide))).2.1,
   ((C6_terminal_absorbing (runAll sampleTask [.markFailed "boom" 300])
      [.markProcessing 400, .markCompleted (some []) 500, .markFailed "again" 600]).2
      (reachable_runAll_sampleTask _) (by decide)).1⟩

/-- C10, as stated, fails: `MarkFailed` with an empty message leaves a failed
task whose error text is empty. -/
theorem C10_counterexample :
    ¬ (∀ t : Task, Reachable t →
        ((t.Result ≠ none ↔ t.Status = TaskStatusCompleted) ∧
         (t.Error ≠ "" ↔ t.Status = TaskStatusFailed))) := by
  intro h
  have h1 := (h (runAll sampleTask [.markFailed "" 300]) (reachable_runAll_sampleTask _)).2
  exact absurd (h1.mpr (by decide)) (by decide)

/-- C10, amended: on every task built by `NewTask` and a sequence of
transition calls, a result is present only if the status is completed and the
error text is non-empty only if the status is failed; when every
`MarkCompleted` of the sequence was given a non-nil result and every
`MarkFailed` a non-empty message, the converses hold too. -/
theorem C10_result_error_presence (id : UUID) (now : Time)
    (fileKey fileName contentType : String) (schema : List String) (t0 : Task)
    (ops : List Transition)
    (h0 : NewTask id now fileKey fileName contentType schema = .ok t0) :
    ((runAll t0 ops).Result ≠ none → (runAll t0 ops).Status = TaskStatusCompleted) ∧
    ((runAll t0 ops).Error ≠ "" → (runAll t0 ops).Status = TaskStatusFailed) ∧
    ((∀ op ∈ ops, Transition.argPresent op = true) →
      ((runAll t0 ops).Status = TaskStatusCompleted → (runAll t0 ops).Result ≠ none) ∧
      ((runAll t0 ops).Status = TaskStatusFailed → (runAll t0 ops).Error ≠ "")) := by
  have hd := status_distinct
  have hinv := invariant_of_reachable (runAll t0 ops)
    ⟨id, now, fileKey, fileName, contentType, schema, t0, ops, h0, rfl⟩
  refine ⟨hinv.2.1, hinv.2.2.1, ?_⟩
  intro hargs
  have key : ∀ (ops : List Transition) (u : Task),
      (∀ op ∈ ops, Transition.argPresent op = true) →
      ((u.Status = TaskStatusCompleted → u.Result ≠ none) ∧
        (u.Status = TaskStatusFailed → u.Error ≠ "")) →
      (((runAll u ops).Status = TaskStatusCompleted → (runAll u ops).Result ≠ none) ∧
        ((runAll u ops).Status = TaskStatusFailed → (runAll u ops).Error ≠ "")) := by
    intro ops
    induction ops with
    | nil => intro u _ hu; exact hu
    | cons op ops ih =>
      intro u hall hu
      refine ih _ (fun o ho => hall o (List.mem_cons_of_mem _ ho)) ?_
      have hop := hall op (List.mem_cons_self _ _)
      rcases run_cases u op with h | ⟨n, -, h⟩ | ⟨result, n, hop2, -, h⟩ | ⟨errMsg, n, hop2, -, h⟩
      · rw [h]; exact hu
      · rw [h]
        exact ⟨fun e => absurd e hd.2.2.2.1, fun e => absurd e hd.2.2.2.2.1⟩
      · rw [h]
        refine ⟨fun _ => ?_, fun e => absurd e hd.2.2.2.2.2⟩
        rw [hop2] at hop
        intro hnone
        simp only at hnone
        rw [hnone] at hop
        exact Bool.false_ne_true hop
      · rw [h]
        refine ⟨fun e => absurd e.symm hd.2.2.2.2.2, fun _ => ?_⟩
        rw [hop2] at hop
        simpa [Transition.argPresent] using hop
  refine key ops t0 hargs ?_
  rw [newTask_ok _ _ _ _ _ _ _ h0]
  exact ⟨fun e => absurd e hd.2.1, fun e => absurd e hd.2.2.1⟩

/-- The sample task, marked processing and then completed with a result map,
holds a result and no error text. -/
theorem C10_result_error_presence_witness :
    (runAll sampleTask [.markProcessing 200, .markCompleted (some []) 300]).Status =
      TaskStatusCompleted ∧
    (runAll sampleTask [.markProcessing 200, .markCompleted (some []) 300]).Result ≠ none :=
  ⟨by decide,
   ((C10_result_error_presence 7 100 "2024/01/15/7/invoice.pdf" "invoice.pdf"
      "application/pdf" ["invoice_number", "total_amount"] sampleTask
      [.markProcessing 200, .markCompleted (some []) 300] sampleTask_new).2.2
      (by decide)).1 (by decide)⟩

end domain

/-! ## The recognition pipeline -/

namespace usecase

open domain

theorem markProcessing_pending (t : Task) (now : Time) (h : t.Status = TaskStatusPending) :
    MarkProcessing t now = (none, processingOf t now) :=
  markProcessing_of_pending t now h

theorem markFailed_processingOf (t : Task) (now : Time) (errMsg : String) (now2 : Time) :
    MarkFailed (processingOf t now) errMsg now2 =
      (none, failedOf (processingOf t now) errMsg now2) :=
  markFailed_of_active _ _ _ (Or.inr rfl)

theorem markCompleted_processingOf (t : Task) (now : Time) (result : Option GoMap)
    (now2 : Time) :
    MarkCompleted (processingOf t now) result now2 =
      (none, completedOf (processingOf t now) result now2) :=
  markCompleted_of_processing _ _ _ rfl

theorem markTaskFailed_processingOf (uc : RecognitionUseCase) (h : List Call) (t : Task)
    (now : Time) (errMsg : String) :
    markTaskFailed uc h (processingOf t now) errMsg =
      (failedOf (processingOf t now) errMsg (uc.Now h),
        [Call.Update (failedOf (processingOf t now) errMsg (uc.Now h))
          (uc.Update h (failedOf (processingOf t now) errMsg (uc.Now h)))]) := by
  simp only [markTaskFailed, markFailed_processingOf]

theorem prepareImageData_ok (uc : RecognitionUseCase) (h : List Call) (fileData : Bytes)
    (contentType : String) (imageData : Bytes) (made : List Call)
    (hprep : prepareImageData uc h fileData contentType = (.ok imageData, made)) :
    Prepared contentType fileData imageData made := by
  unfold prepareImageData at hprep
  split at hprep
  · rename_i hpdf
    split at hprep
    · simp at hprep
    · split at hprep
      · simp at hprep
      · simp only [Prod.mk.injEq, Except.ok.injEq] at hprep
        obtain ⟨h1, h2⟩ := hprep
        subst h1
        exact Or.inr ⟨hpdf, h2.symm⟩
  · rename_i hpdf
    simp only [Prod.mk.injEq, Except.ok.injEq] at hprep
    obtain ⟨h1, h2⟩ := hprep
    exact Or.inl ⟨by simpa using hpdf, h1.symm, h2.symm⟩

theorem prepareImageData_error (uc : RecognitionUseCase) (h : List Call) (fileData : Bytes)
    (contentType : String) (err : GoError) (made : List Call)
    (hprep : prepareImageData uc h fileData contentType = (.error err, made)) :
    strings.Contains (strings.ToLower contentType) "pdf" = true ∧
    ((err = .errorsNew "PDF converter not available" ∧ made = [] ∧ uc.pdfConverter = none) ∨
      ∃ e, err = .wrap "failed to convert PDF: " e ∧
        made = [Call.ConvertFirstPage fileData (.error e)]) := by
  unfold prepareImageData at hprep
  split at hprep
  · rename_i hpdf
    refine ⟨hpdf, ?_⟩
    split at hprep
    · rename_i hnil
      simp only [Prod.mk.injEq, Except.error.injEq] at hprep
      exact Or.inl ⟨hprep.1.symm, hprep.2.symm, hnil⟩
    · split at hprep
      · rename_i e _
        simp only [Prod.mk.injEq, Except.error.injEq] at hprep
        exact Or.inr ⟨e, hprep.1.symm, hprep.2.symm⟩
      · simp at hprep
  · simp at hprep

/-- Every run of `ProcessTask` follows one of the rules of `Run`. -/
theorem ProcessTask_run (uc : RecognitionUseCase) (h : List Call) (taskID : UUID) :
    Run uc taskID (uc.GetByID h taskID) (ProcessTask uc h taskID) := by
  simp only [ProcessTask]
  split
  next e hget =>
    rw [hget]
    exact Run.fetchFailed e
  next task hget =>
    rw [hget]
    split
    next hf => exact Run.skipped task hf
    next hf =>
      by_cases hp : task.Status = TaskStatusPending
      swap
      · simp only [markProcessing_of_not_pending task _ hp]
        exact Run.notPending task hf hp
      simp only [markProcessing_pending task _ hp, markTaskFailed_processingOf,
        markCompleted_processingOf]
      split
      next e hu1 =>
        rw [hu1]
        exact Run.firstUpdateFailed task _ e hp
      next hu1 =>
        rw [hu1]
        split
        next e hd =>
          rw [hd]
          exact Run.downloadFailed task _ _ e _ hp
        next e hd =>
          rw [hd]
          exact Run.readFailed task _ _ e _ hp
        next fileData hd =>
          rw [hd]
          split
          next err made hprep =>
            obtain ⟨hpdf, ⟨herr, hmade, hnil⟩ | ⟨e, herr, hmade⟩⟩ :=
              prepareImageData_error _ _ _ _ _ _ hprep
            · subst herr hmade
              exact Run.noConverter task _ _ fileData _ hp hpdf hnil
            · subst herr hmade
              exact Run.convertFailed task _ _ fileData e _ hp hpdf
          next imageData made hprep =>
            have hmade := prepareImageData_ok _ _ _ _ _ _ hprep
            split
            next e hr =>
              rw [hr]
              simp only [List.append_assoc, List.cons_append, List.nil_append]
              exact Run.recognizeFailed task _ _ fileData imageData made e _ hp hmade
            next result hr =>
              rw [hr]
              split
              next e hu2 =>
                rw [hu2]
                simp only [List.append_assoc, List.cons_append, List.nil_append]
                exact Run.lastUpdateFailed task _ _ fileData imageData made result e hp hmade
              next hu2 =>
                rw [hu2]
                simp only [List.append_assoc, List.cons_append, List.nil_append]
                exact Run.completed task _ _ fileData imageData made result hp hmade

end usecase

namespace usecase

open domain

/-- C1: when the fetched record is completed or failed, `ProcessTask` returns
success, its only call is the fetch (no `Download`, `ConvertFirstPage`,
`RecognizeDocument` or `Update`), nothing is stored, and the record it holds
is the fetched one, unchanged. -/
theorem C1_terminal_task_is_skipped (uc : RecognitionUseCase) (h : List Call) (taskID : UUID)
    (task : Task) (hget : uc.GetByID h taskID = .ok task)
    (hfinal : task.Status = TaskStatusCompleted ∨ task.Status = TaskStatusFailed) :
    (ProcessTask uc h taskID).err = none ∧
    (ProcessTask uc h taskID).calls = [Call.GetByID taskID (.ok task)] ∧
    (∀ c ∈ (ProcessTask uc h taskID).calls,
      c.isDownload = false ∧ c.isConvertFirstPage = false ∧
      c.isRecognizeDocument = false ∧ c.isUpdate = false) ∧
    updates (ProcessTask uc h taskID).calls = [] ∧
    (ProcessTask uc h taskID).task = some task := by
  have hf : IsFinal task.Status = true := (isFinal_iff _).mpr hfinal
  have hrun : ProcessTask uc h taskID = ⟨none, [Call.GetByID taskID (.ok task)], some task⟩ := by
    simp [ProcessTask, hget, hf]
  rw [hrun]
  refine ⟨rfl, rfl, ?_, rfl, rfl⟩
  intro c hc
  simp only [List.mem_singleton] at hc
  subst hc
  exact ⟨rfl, rfl, rfl, rfl⟩

/-- A second delivery of a completed task: one fetch, nothing else. -/
theorem C1_terminal_task_witness :
    (ProcessTask alreadyDone [] 7).err = none ∧
    (ProcessTask alreadyDone [] 7).calls =
      [Call.GetByID 7 (.ok (completedOf (processingOf sampleTask 200) (some []) 300))] ∧
    (∀ c ∈ (ProcessTask alreadyDone [] 7).calls,
      c.isDownload = false ∧ c.isConvertFirstPage = false ∧
      c.isRecognizeDocument = false ∧ c.isUpdate = false) ∧
    updates (ProcessTask alreadyDone [] 7).calls = [] ∧
    (ProcessTask alreadyDone [] 7).task =
      some (completedOf (processingOf sampleTask 200) (some []) 300) :=
  C1_terminal_task_is_skipped alreadyDone [] 7
    (completedOf (processingOf sampleTask 200) (some []) 300) rfl (Or.inl rfl)

end usecase

namespace usecase

open domain

theorem updates_append (a b : List Call) : updates (a ++ b) = updates a ++ updates b := by
  induction a with
  | nil => rfl
  | cons c cs ih => cases c <;> simp [updates, ih]

theorem persisted_append (a b : List Call) : persisted (a ++ b) = persisted a ++ persisted b := by
  induction a with
  | nil => rfl
  | cons c cs ih =>
    cases c with
    | Update t ret => cases ret <;> simp [persisted, ih]
    | _ => simp [persisted, ih]

theorem wraps_refl (e : GoError) : e.Wraps e := by
  cases e with
  | errorsNew msg => exact rfl
  | wrap pre inner => exact Or.inl rfl

theorem append_ne_empty (s t : String) (hs : s ≠ "") : s ++ t ≠ "" := by
  intro h
  apply hs
  have hdata := congrArg String.data h
  rw [String.data_append] at hdata
  exact String.ext (List.append_eq_nil.mp hdata).1

theorem contains_download (msg : String) :
    strings.Contains ("failed to download file: " ++ msg) "download" = true := by
  unfold strings.Contains
  rw [String.data_append]
  rfl

/-- A pending task that exists holds no result and no error text. -/
theorem pending_fields (task : Task) (hexists : Reachable task)
    (hstatus : task.Status = TaskStatusPending) : task.Result = none ∧ task.Error = "" := by
  have hd := status_distinct
  obtain ⟨-, hr, he, -⟩ := invariant_of_reachable task hexists
  constructor
  · by_contra hne
    exact hd.2.1 (hstatus.symm.trans (hr hne))
  · by_contra hne
    exact hd.2.2.1 (hstatus.symm.trans (he hne))

theorem endsFailed_of_calls (front : List Call) (t1 : Task) (text : String) (e err : GoError)
    (now2 : Time) (ret : Option GoError) (seen : Option Task) (hwrap : err.Wraps e)
    (htext : text ≠ "") (hres : t1.Result = none) :
    EndsFailed ⟨some err, front ++ [Call.Update (failedOf t1 (text ++ e.Error) now2) ret], seen⟩
      text e := by
  refine ⟨⟨err, rfl, hwrap⟩, failedOf t1 (text ++ e.Error) now2, ret, ?_, ?_, ?_, rfl, rfl,
    append_ne_empty _ _ htext, by simp, hres⟩
  · simp
  · simp [updates_append, updates]
  · intro hret
    subst hret
    simp [persisted_append, persisted]

end usecase

namespace usecase

open domain

theorem wraps_wrap (pre : String) (e target : GoError) (h : e.Wraps target) :
    (GoError.wrap pre e).Wraps target :=
  Or.inr h

/-- C7, amended: when the download, the rasterization or the inference call of
a run fails with `e`, the run returns an error wrapping `e` and its last call
is an `Update` of a record with status failed, a non-empty error text made of
the text of the failing stage and the text of `e` (so it contains "download"
when the download failed), `CompletedAt` set and no result; this is the record
last stored when that `Update` succeeds; and no collaborator of a later step
is called. -/
theorem C7_dependency_failure_recorded (uc : RecognitionUseCase) (h : List Call)
    (taskID : UUID) (task : Task) (e : GoError)
    (hget : uc.GetByID h taskID = .ok task) (hexists : Reachable task) :
    (∀ fileKey, Call.Download fileKey (.error e) ∈ (ProcessTask uc h taskID).calls →
      EndsFailed (ProcessTask uc h taskID) "failed to download file: " e ∧
      (∀ rec, (updates (ProcessTask uc h taskID).calls).getLast? = some rec →
        strings.Contains rec.Error "download" = true) ∧
      (∀ c ∈ (ProcessTask uc h taskID).calls,
        c.isConvertFirstPage = false ∧ c.isRecognizeDocument = false)) ∧
    (∀ pdfData, Call.ConvertFirstPage pdfData (.error e) ∈ (ProcessTask uc h taskID).calls →
      EndsFailed (ProcessTask uc h taskID)
        "failed to prepare image: failed to convert PDF: " e ∧
      (∀ c ∈ (ProcessTask uc h taskID).calls, c.isRecognizeDocument = false)) ∧
    (∀ imageData contentType schema,
      Call.RecognizeDocument imageData contentType schema (.error e) ∈
        (ProcessTask uc h taskID).calls →
      EndsFailed (ProcessTask uc h taskID) "LLM recognition failed: " e) := by
  have hrun := ProcessTask_run uc h taskID
  rw [hget] at hrun
  generalize ProcessTask uc h taskID = out at hrun ⊢
  cases hrun with
  | skipped _ hfinal => simp
  | notPending _ hfinal hstatus => simp
  | firstUpdateFailed _ now1 e1 hstatus => simp
  | downloadFailed _ now1 now2 e1 ret hstatus =>
    have hres := (pending_fields task hexists hstatus).1
    refine ⟨?_, by simp, by simp⟩
    intro key hmem
    simp at hmem
    obtain ⟨-, h2⟩ := hmem
    subst h2
    refine ⟨endsFailed_of_calls [_, _, _] (processingOf task now1)
      "failed to download file: " e _ now2 ret _
      (wraps_wrap _ _ _ (wraps_refl e)) (by decide) hres, ?_, ?_⟩
    · intro rec hrec
      simp [updates] at hrec
      subst hrec
      exact contains_download _
    · simp [Call.isConvertFirstPage, Call.isRecognizeDocument]
  | readFailed _ now1 now2 e1 ret hstatus => simp
  | noConverter _ now1 now2 fileData ret hstatus hpdf hnil => simp
  | convertFailed _ now1 now2 fileData e1 ret hstatus hpdf =>
    have hres := (pending_fields task hexists hstatus).1
    refine ⟨by simp, ?_, by simp⟩
    intro pdfData hmem
    simp at hmem
    obtain ⟨-, h2⟩ := hmem
    subst h2
    have htext : "failed to prepare image: " ++ ("failed to convert PDF: " ++ e.Error) =
        "failed to prepare image: failed to convert PDF: " ++ e.Error := by
      rw [← String.append_assoc]
      rfl
    rw [htext]
    refine ⟨endsFailed_of_calls [_, _, _, _] (processingOf task now1)
      "failed to prepare image: failed to convert PDF: " e _ now2 ret _
      (wraps_wrap _ _ _ (wraps_wrap _ _ _ (wraps_refl e))) (by decide) hres, ?_⟩
    simp [Call.isRecognizeDocument]
  | recognizeFailed _ now1 now2 fileData imageData made e1 ret hstatus hmade =>
    have hres := (pending_fields task hexists hstatus).1
    rcases hmade with ⟨-, rfl, rfl⟩ | ⟨-, rfl⟩
    · refine ⟨by simp, by simp, ?_⟩
      intro img ct schema hmem
      simp at hmem
      obtain ⟨-, -, -, h2⟩ := hmem
      subst h2
      exact endsFailed_of_calls [_, _, _, _] (processingOf task now1)
        "LLM recognition failed: " e _ now2 ret _
        (wraps_wrap _ _ _ (wraps_refl e)) (by decide) hres
    · refine ⟨by simp, by simp, ?_⟩
      intro img ct schema hmem
      simp at hmem
      obtain ⟨-, -, -, h2⟩ := hmem
      subst h2
      exact endsFailed_of_calls [_, _, _, _, _] (processingOf task now1)
        "LLM recognition failed: " e _ now2 ret _
        (wraps_wrap _ _ _ (wraps_refl e)) (by decide) hres
  | lastUpdateFailed _ now1 now2 fileData imageData made result e1 hstatus hmade =>
    rcases hmade with ⟨-, rfl, rfl⟩ | ⟨-, rfl⟩ <;> simp
  | completed _ now1 now2 fileData imageData made result hstatus hmade =>
    rcases hmade with ⟨-, rfl, rfl⟩ | ⟨-, rfl⟩ <;> simp

end usecase

namespace usecase

open domain

theorem lostUpdate_calls :
    (ProcessTask lostUpdate [] 7).calls =
      [Call.GetByID 7 (.ok sampleTask),
        Call.Update (processingOf sampleTask 201) none,
        Call.Download "2024/01/15/7/invoice.pdf" (.error (.errorsNew "NoSuchKey")),
        Call.Update (failedOf (processingOf sampleTask 201)
          "failed to download file: NoSuchKey" 203) (some (.errorsNew "connection refused"))] := by
  rfl

/-- C7, as stated, fails: when the download fails and the repository then
refuses the `Update` of the failed record, the record last stored by the run
is the processing one. -/
theorem C7_counterexample :
    Call.Download "2024/01/15/7/invoice.pdf" (.error (.errorsNew "NoSuchKey")) ∈
      (ProcessTask lostUpdate [] 7).calls ∧
    (persisted (ProcessTask lostUpdate [] 7).calls).getLast? =
      some (processingOf sampleTask 201) ∧
    ¬ ∃ rec, (persisted (ProcessTask lostUpdate [] 7).calls).getLast? = some rec ∧
      rec.Status = TaskStatusFailed := by
  rw [lostUpdate_calls]
  refine ⟨by simp, rfl, ?_⟩
  rintro ⟨rec, hrec, hstatus⟩
  simp only [persisted, List.getLast?_singleton, Option.some.injEq] at hrec
  subst hrec
  exact absurd hstatus (by decide)

theorem missingBlob_calls :
    (ProcessTask missingBlob [] 7).calls =
      [Call.GetByID 7 (.ok sampleTask),
        Call.Update (processingOf sampleTask 201) none,
        Call.Download "2024/01/15/7/invoice.pdf" (.error (.errorsNew "NoSuchKey")),
        Call.Update (failedOf (processingOf sampleTask 201)
          "failed to download file: NoSuchKey" 203) none] := by
  rfl

/-- A download that fails with `NoSuchKey` is recorded under
"failed to download file: ". -/
theorem C7_dependency_failure_witness :
    EndsFailed (ProcessTask missingBlob [] 7) "failed to download file: "
      (.errorsNew "NoSuchKey") :=
  ((C7_dependency_failure_recorded missingBlob [] 7 sampleTask (.errorsNew "NoSuchKey") rfl
      (reachable_runAll_sampleTask [])).1 "2024/01/15/7/invoice.pdf"
      (by rw [missingBlob_calls]; simp)).1

/-- C8: when the fetched task is pending, a rasterizer is there if the content
type asks for one, and every call of the run succeeds, `ProcessTask` returns
success; the repository sees exactly two updates, both
stored, the first with status processing and the second, the record last
stored, with status completed, the field map returned by the inference client
as result, `CompletedAt` set and an empty error text. -/
theorem C8_successful_run (uc : RecognitionUseCase) (h : List Call) (taskID : UUID)
    (task : Task) (hget : uc.GetByID h taskID = .ok task) (hexists : Reachable task)
    (hpending : task.Status = TaskStatusPending)
    (hconv : strings.Contains (strings.ToLower task.ContentType) "pdf" = true →
      uc.pdfConverter ≠ none)
    (hok : ∀ c ∈ (ProcessTask uc h taskID).calls, c.succeeded = true) :
    (ProcessTask uc h taskID).err = none ∧
    ∃ imageData result rec1 rec2,
      Call.RecognizeDocument imageData "image/png" task.Schema (.ok result) ∈
        (ProcessTask uc h taskID).calls ∧
      updates (ProcessTask uc h taskID).calls = [rec1, rec2] ∧
      persisted (ProcessTask uc h taskID).calls = [rec1, rec2] ∧
      (persisted (ProcessTask uc h taskID).calls).getLast? = some rec2 ∧
      rec1.Status = TaskStatusProcessing ∧
      rec2.Status = TaskStatusCompleted ∧
      rec2.Result = result ∧
      rec2.CompletedAt ≠ none ∧
      rec2.Error = "" := by
  have hrun := ProcessTask_run uc h taskID
  rw [hget] at hrun
  generalize ProcessTask uc h taskID = out at hrun hok ⊢
  have herr := (pending_fields task hexists hpending).2
  cases hrun with
  | skipped _ hfinal =>
    rw [hpending] at hfinal
    exact absurd hfinal (by decide)
  | notPending _ hfinal hstatus => exact absurd hpending hstatus
  | firstUpdateFailed _ now1 e1 hstatus => simp [Call.succeeded] at hok
  | downloadFailed _ now1 now2 e1 ret hstatus => simp [Call.succeeded] at hok
  | readFailed _ now1 now2 e1 ret hstatus => simp [Call.succeeded] at hok
  | noConverter _ now1 now2 fileData ret hstatus hpdf hnil => exact absurd hnil (hconv hpdf)
  | convertFailed _ now1 now2 fileData e1 ret hstatus hpdf => simp [Call.succeeded] at hok
  | recognizeFailed _ now1 now2 fileData imageData made e1 ret hstatus hmade =>
    rcases hmade with ⟨-, rfl, rfl⟩ | ⟨-, rfl⟩ <;> simp [Call.succeeded] at hok
  | lastUpdateFailed _ now1 now2 fileData imageData made result e1 hstatus hmade =>
    rcases hmade with ⟨-, rfl, rfl⟩ | ⟨-, rfl⟩ <;> simp [Call.succeeded] at hok
  | completed _ now1 now2 fileData imageData made result hstatus hmade =>
    refine ⟨rfl, imageData, result, processingOf task now1,
      completedOf (processingOf task now1) result now2, ?_, ?_, ?_, ?_, rfl, rfl, rfl,
      by simp, herr⟩
    · simp
    · rcases hmade with ⟨-, rfl, rfl⟩ | ⟨-, rfl⟩ <;> simp [updates]
    · rcases hmade with ⟨-, rfl, rfl⟩ | ⟨-, rfl⟩ <;> simp [persisted]
    · rcases hmade with ⟨-, rfl, rfl⟩ | ⟨-, rfl⟩ <;> simp [persisted]

theorem allSucceed_calls :
    (ProcessTask allSucceed [] 7).calls =
      [Call.GetByID 7 (.ok sampleTask),
        Call.Update (processingOf sampleTask 201) none,
        Call.Download "2024/01/15/7/invoice.pdf" (.ok (.ok [37, 80, 68, 70])),
        Call.ConvertFirstPage [37, 80, 68, 70] (.ok [1, 2]),
        Call.RecognizeDocument [1, 2] "image/png" ["invoice_number", "total_amount"]
          (.ok (some [("invoice_number", .string "INV-1"), ("total_amount", .null)])),
        Call.Update (completedOf (processingOf sampleTask 201)
          (some [("invoice_number", .string "INV-1"), ("total_amount", .null)]) 205) none] := by
  rfl

/-- The run on the sample PDF task with collaborators that all succeed. -/
theorem C8_successful_run_witness :
    (ProcessTask allSucceed [] 7).err = none ∧
    ∃ imageData result rec1 rec2,
      Call.RecognizeDocument imageData "image/png" sampleTask.Schema (.ok result) ∈
        (ProcessTask allSucceed [] 7).calls ∧
      updates (ProcessTask allSucceed [] 7).calls = [rec1, rec2] ∧
      persisted (ProcessTask allSucceed [] 7).calls = [rec1, rec2] ∧
      (persisted (ProcessTask allSucceed [] 7).calls).getLast? = some rec2 ∧
      rec1.Status = TaskStatusProcessing ∧
      rec2.Status = TaskStatusCompleted ∧
      rec2.Result = result ∧
      rec2.CompletedAt ≠ none ∧
      rec2.Error = "" :=
  C8_successful_run allSucceed [] 7 sampleTask rfl (reachable_runAll_sampleTask []) rfl
    (fun _ => by simp [allSucceed, scripted])
    (by rw [allSucceed_calls]; simp [Call.succeeded])

end usecase

/-! ## Parsing the model output -/

namespace GoMap

theorem get?_set (m : GoMap) (key k : String) (v : AnyValue) :
    (m.set key v).get? k = if k = key then some v else m.get? k := by
  induction m with
  | nil =>
    by_cases hk : k = key
    · simp [set, get?, hk]
    · have hk2 : ¬ key = k := fun e => hk e.symm
      simp [set, get?, hk, hk2]
  | cons p m ih =>
    obtain ⟨k1, w⟩ := p
    by_cases h1 : k1 = key
    · by_cases hk : k = key
      · simp [set, get?, h1, hk]
      · have hk2 : ¬ key = k := fun e => hk e.symm
        simp [set, get?, h1, hk, hk2]
    · by_cases hk1 : k1 = k
      · have hk : ¬ k = key := fun e => h1 (hk1.trans e)
        simp [set, get?, h1, hk1, hk]
      · simp [set, get?, h1, hk1, ih]

theorem mem_keys_set (m : GoMap) (key k : String) (v : AnyValue) :
    k ∈ (m.set key v).keys ↔ k = key ∨ k ∈ m.keys := by
  induction m with
  | nil => simp [set, keys]
  | cons p m ih =>
    obtain ⟨k1, w⟩ := p
    unfold keys at ih ⊢
    by_cases h1 : k1 = key
    · simp [set, h1]
    · simp only [set, h1, if_false, List.map_cons, List.mem_cons, ih]
      tauto

theorem get?_isSome_iff (m : GoMap) (k : String) : (m.get? k).isSome = true ↔ k ∈ m.keys := by
  induction m with
  | nil => simp [get?, keys]
  | cons p m ih =>
    obtain ⟨k1, w⟩ := p
    unfold keys at ih ⊢
    by_cases hk : k1 = k
    · simp [get?, hk]
    · have hk2 : ¬ k = k1 := fun e => hk e.symm
      simp [get?, hk, hk2, ih]

end GoMap

namespace llm

theorem mem_keys_backfill (schema : List String) (m : GoMap) (k : String) :
    k ∈ (backfill m schema).keys ↔ k ∈ m.keys ∨ k ∈ schema := by
  induction schema generalizing m with
  | nil => simp [backfill]
  | cons field rest ih =>
    rw [backfill, ih]
    by_cases hf : (m.get? field).isSome = true
    · have hmem := (GoMap.get?_isSome_iff m field).mp hf
      simp only [hf, if_true, List.mem_cons]
      constructor
      · rintro (h | h)
        · exact Or.inl h
        · exact Or.inr (Or.inr h)
      · rintro (h | h | h)
        · exact Or.inl h
        · exact Or.inl (h ▸ hmem)
        · exact Or.inr h
    · simp only [hf, Bool.false_eq_true, if_false, GoMap.mem_keys_set, List.mem_cons]
      tauto

theorem get?_backfill_of_some (schema : List String) (m : GoMap) (k : String) (v : AnyValue)
    (h : m.get? k = some v) : (backfill m schema).get? k = some v := by
  induction schema generalizing m with
  | nil => exact h
  | cons field rest ih =>
    rw [backfill]
    apply ih
    by_cases hf : (m.get? field).isSome = true
    · simp only [hf, if_true]
      exact h
    · simp only [hf, Bool.false_eq_true, if_false, GoMap.get?_set]
      have hne : k ≠ field := by
        rintro rfl
        rw [h] at hf
        exact hf rfl
      simp [hne, h]

theorem get?_backfill_of_none (schema : List String) (m : GoMap) (k : String)
    (h : m.get? k = none) (hk : k ∈ schema) : (backfill m schema).get? k = some .null := by
  induction schema generalizing m with
  | nil => simp at hk
  | cons field rest ih =>
    rw [backfill]
    by_cases hkf : k = field
    · subst hkf
      apply get?_backfill_of_some
      simp [h, GoMap.get?_set]
    · have hrest : k ∈ rest := by
        rcases List.mem_cons.mp hk with h1 | h1
        · exact absurd h1 hkf
        · exact h1
      apply ih _ _ hrest
      by_cases hf : (m.get? field).isSome = true
      · simp only [hf, if_true]
        exact h
      · simp only [hf, Bool.false_eq_true, if_false, GoMap.get?_set, hkf]
        exact h

theorem indexFrom_head (c : Char) (rest : List Char) (i : Nat) :
    strings.indexFrom [c] (c :: rest) i = some i := by
  simp [strings.indexFrom]

theorem reverse_object (body : List Char) :
    ('\x7b' :: (body ++ ['\x7d'])).reverse = '\x7d' :: (body.reverse ++ ['\x7b']) := by
  simp

/-- On a text that is `{`, a body and `}`, the trimming and slicing steps of
`parseResponse` hand the whole text to the decoder. -/
theorem parseResponse_of_object (Unmarshal : String → Except GoError GoMap)
    (response : String) (schema : List String) (body : List Char)
    (hobject : (strings.TrimSpace response).data = '\x7b' :: (body ++ ['\x7d'])) :
    parseResponse Unmarshal response schema =
      match Unmarshal (strings.TrimSpace response) with
      | .error err => .error (.wrap "failed to parse JSON: " err)
      | .ok result => .ok (backfill result schema) := by
  have hpre1 : strings.TrimPrefix (strings.TrimSpace response) "```json" =
      strings.TrimSpace response := by
    have hno : strings.HasPrefix (strings.TrimSpace response) "```json" = false := by
      unfold strings.HasPrefix
      rw [hobject]
      rfl
    simp [strings.TrimPrefix, hno]
  have hpre2 : strings.TrimPrefix (strings.TrimSpace response) "```" =
      strings.TrimSpace response := by
    have hno : strings.HasPrefix (strings.TrimSpace response) "```" = false := by
      unfold strings.HasPrefix
      rw [hobject]
      rfl
    simp [strings.TrimPrefix, hno]
  have hsuf : strings.TrimSuffix (strings.TrimSpace response) "```" =
      strings.TrimSpace response := by
    have hno : strings.HasSuffix (strings.TrimSpace response) "```" = false := by
      unfold strings.HasSuffix
      rw [hobject, reverse_object]
      rfl
    simp [strings.TrimSuffix, hno]
  have htrim : strings.TrimSpace (strings.TrimSpace response) = strings.TrimSpace response := by
    apply String.ext
    show ((strings.TrimSpace response).data.dropWhile strings.isSpace).rdropWhile
      strings.isSpace = (strings.TrimSpace response).data
    rw [hobject]
    have h1 : strings.isSpace '\x7b' = false := by decide
    have h2 : ¬ strings.isSpace '\x7d' = true := by decide
    rw [List.dropWhile_cons_of_neg (by simp [h1])]
    have := List.rdropWhile_concat_neg strings.isSpace ('\x7b' :: body) '\x7d' h2
    simpa using this
  have hopen : "\x7b".data = ['\x7b'] := rfl
  have hclose : "\x7d".data = ['\x7d'] := rfl
  have hidx : strings.Index (strings.TrimSpace response) "\x7b" = 0 := by
    unfold strings.Index
    rw [hobject, hopen, indexFrom_head]
    rfl
  have hlast : strings.LastIndex (strings.TrimSpace response) "\x7d" =
      ((strings.TrimSpace response).data.length : Int) - 1 := by
    unfold strings.LastIndex
    rw [hclose, List.reverse_singleton]
    have hrev : (strings.TrimSpace response).data.reverse =
        '\x7d' :: (body.reverse ++ ['\x7b']) := by
      rw [hobject, reverse_object]
    rw [hrev, indexFrom_head]
    simp
  have hlen : (strings.TrimSpace response).data.length = body.length + 2 := by
    rw [hobject]
    simp
  have hslice : strings.slice (strings.TrimSpace response) 0
      (strings.TrimSpace response).data.length = strings.TrimSpace response := by
    apply String.ext
    simp [strings.slice]
  unfold parseResponse
  simp only [hpre1, hpre2, hsuf, htrim, hidx, hlast]
  have hcond : ¬ ((0 : Int) = -1 ∨
      ((strings.TrimSpace response).data.length : Int) - 1 = -1 ∨
      (0 : Int) > ((strings.TrimSpace response).data.length : Int) - 1) := by
    have hge : (2 : Int) ≤ ((strings.TrimSpace response).data.length : Int) := by
      rw [hlen]
      push_cast
      omega
    intro hor
    rcases hor with hor | hor | hor <;> omega
  rw [if_neg hcond]
  have hend : (((strings.TrimSpace response).data.length : Int) - 1 + 1).toNat =
      (strings.TrimSpace response).data.length := by
    simp
  rw [hend, Int.toNat_zero, hslice]

end llm

namespace llm

/-- C9: when the model output, white space around it trimmed, is a JSON
object text (`{`, a body, `}`) that the decoder decodes to a map whose keys all
belong to the schema, `parseResponse` succeeds with a map whose key set is
exactly the schema, in which every key of the output keeps its decoded value
and every field of the schema missing from the output maps to null. The
inclusion of the keys need not be strict. -/
theorem C9_missing_fields_backfilled (Unmarshal : String → Except GoError GoMap)
    (response : String) (schema : List String) (body : List Char) (m : GoMap)
    (hobject : (strings.TrimSpace response).data = '\x7b' :: (body ++ ['\x7d']))
    (hdecode : Unmarshal (strings.TrimSpace response) = .ok m)
    (hsubset : ∀ k ∈ m.keys, k ∈ schema) :
    ∃ result, parseResponse Unmarshal response schema = .ok result ∧
      (∀ k, k ∈ result.keys ↔ k ∈ schema) ∧
      (∀ k v, m.get? k = some v → result.get? k = some v) ∧
      (∀ k ∈ schema, k ∉ m.keys → result.get? k = some .null) := by
  rw [parseResponse_of_object Unmarshal response schema body hobject, hdecode]
  refine ⟨backfill m schema, rfl, ?_, ?_, ?_⟩
  · intro k
    rw [mem_keys_backfill]
    constructor
    · rintro (hk | hk)
      · exact hsubset k hk
      · exact hk
    · exact fun hk => Or.inr hk
  · intro k v hk
    exact get?_backfill_of_some schema m k v hk
  · intro k hk hmiss
    apply get?_backfill_of_none schema m k _ hk
    cases hget : m.get? k with
    | none => rfl
    | some v =>
      exact absurd ((GoMap.get?_isSome_iff m k).mp (by rw [hget]; rfl)) hmiss

/-- The scenario of the specification: schema `invoice_number`,
`total_amount` and an output with `invoice_number` only. -/
theorem C9_missing_fields_witness :
    parseResponse json.Unmarshal "\x7b\"invoice_number\": \"INV-1\"\x7d"
        ["invoice_number", "total_amount"] =
      .ok [("invoice_number", .string "INV-1"), ("total_amount", .null)] ∧
    ∃ result, parseResponse json.Unmarshal "\x7b\"invoice_number\": \"INV-1\"\x7d"
        ["invoice_number", "total_amount"] = .ok result ∧
      (∀ k, k ∈ result.keys ↔ k ∈ ["invoice_number", "total_amount"]) ∧
      (∀ k v, GoMap.get? [("invoice_number", AnyValue.string "INV-1")] k = some v →
        result.get? k = some v) ∧
      (∀ k ∈ ["invoice_number", "total_amount"],
        k ∉ GoMap.keys [("invoice_number", AnyValue.string "INV-1")] →
        result.get? k = some .null) :=
  ⟨rfl, C9_missing_fields_backfilled json.Unmarshal "\x7b\"invoice_number\": \"INV-1\"\x7d"
    ["invoice_number", "total_amount"] "\"invoice_number\": \"INV-1\"".data
    [("invoice_number", .string "INV-1")] (by decide) rfl (by decide)⟩

end llm

/-! ## Further claims on the task record -/

namespace domain

/-- C11: on every task built by `NewTask` and a sequence of transition calls,
`CompletedAt` is set exactly when the status is completed or failed. -/
theorem C11_completedAt_iff_terminal (t : Task) (h : Reachable t) :
    t.CompletedAt ≠ none ↔ (t.Status = TaskStatusCompleted ∨ t.Status = TaskStatusFailed) := by
  rw [← isFinal_iff]
  exact (invariant_of_reachable t h).2.2.2

/-- The sample task has no `CompletedAt` while pending and has one once failed. -/
theorem C11_completedAt_witness :
    (sampleTask.CompletedAt ≠ none ↔
      (sampleTask.Status = TaskStatusCompleted ∨ sampleTask.Status = TaskStatusFailed)) ∧
    ((runAll sampleTask [.markProcessing 200, .markFailed "boom" 300]).CompletedAt ≠ none ↔
      ((runAll sampleTask [.markProcessing 200, .markFailed "boom" 300]).Status =
          TaskStatusCompleted ∨
        (runAll sampleTask [.markProcessing 200, .markFailed "boom" 300]).Status =
          TaskStatusFailed)) :=
  ⟨C11_completedAt_iff_terminal sampleTask (reachable_runAll_sampleTask []),
   C11_completedAt_iff_terminal _ (reachable_runAll_sampleTask _)⟩

/-- C12: `NewTask` returns `ErrEmptyFileKey` when the file key is empty
(whatever the schema), `ErrEmptySchema` when the file key is not empty and the
schema is, and otherwise a pending task with the given file key, file name,
content type and schema, no result, an empty error text, no `CompletedAt`, and
`CreatedAt` equal to `UpdatedAt`; so it fails exactly when the file key or
the schema is empty. -/
theorem C12_newTask (id : UUID) (now : Time) (fileKey fileName contentType : String)
    (schema : List String) :
    (fileKey = "" →
      NewTask id now fileKey fileName contentType schema = .error ErrEmptyFileKey) ∧
    (fileKey ≠ "" → schema = [] →
      NewTask id now fileKey fileName contentType schema = .error ErrEmptySchema) ∧
    (fileKey ≠ "" → schema ≠ [] →
      ∃ t, NewTask id now fileKey fileName contentType schema = .ok t ∧
        t.Status = TaskStatusPending ∧ t.FileKey = fileKey ∧ t.FileName = fileName ∧
        t.ContentType = contentType ∧ t.Schema = schema ∧ t.Result = none ∧ t.Error = "" ∧
        t.CompletedAt = none ∧ t.CreatedAt = t.UpdatedAt ∧ t.ID = id ∧ t.CreatedAt = now) ∧
    ((∃ err, NewTask id now fileKey fileName contentType schema = .error err) ↔
      (fileKey = "" ∨ schema = [])) := by
  by_cases hk : fileKey = ""
  · simp [NewTask, hk]
  · by_cases hs : schema = []
    · simp [NewTask, hk, hs]
    · have hlen : ¬ schema.length = 0 := fun h => hs (List.length_eq_zero.mp h)
      simp [NewTask, hk, hs, hlen]

/-- The three outcomes of `NewTask`: an empty file key with an empty schema,
an empty schema alone, and valid arguments. -/
theorem C12_newTask_witness :
    NewTask 7 100 "" "invoice.pdf" "application/pdf" [] = .error ErrEmptyFileKey ∧
    NewTask 7 100 "2024/01/15/7/invoice.pdf" "invoice.pdf" "application/pdf" [] =
      .error ErrEmptySchema ∧
    ∃ t, NewTask 7 100 "2024/01/15/7/invoice.pdf" "invoice.pdf" "application/pdf"
        ["invoice_number", "total_amount"] = .ok t ∧
      t.Status = TaskStatusPending ∧ t.FileKey = "2024/01/15/7/invoice.pdf" ∧
      t.FileName = "invoice.pdf" ∧ t.ContentType = "application/pdf" ∧
      t.Schema = ["invoice_number", "total_amount"] ∧ t.Result = none ∧ t.Error = "" ∧
      t.CompletedAt = none ∧ t.CreatedAt = t.UpdatedAt ∧ t.ID = 7 ∧ t.CreatedAt = 100 :=
  ⟨(C12_newTask 7 100 "" "invoice.pdf" "application/pdf" []).1 rfl,
   (C12_newTask 7 100 "2024/01/15/7/invoice.pdf" "invoice.pdf" "application/pdf" []).2.1
     (by decide) rfl,
   (C12_newTask 7 100 "2024/01/15/7/invoice.pdf" "invoice.pdf" "application/pdf"
     ["invoice_number", "total_amount"]).2.2.1 (by decide) (by decide)⟩

end domain

/-! ## Further claims on the recognition pipeline -/

namespace usecase

open domain

/-- C15: when the repository's `GetByID` fails with the not-found error (what
`TaskRepository.GetByID` returns when the row scan reports no rows),
`ProcessTask` returns an error that wraps it, and the fetch is the only call of
the run: no `Update`, `Download`, `ConvertFirstPage` or `RecognizeDocument`. -/
theorem C15_unknown_task (uc : RecognitionUseCase) (h : List Call) (taskID : UUID)
    (hget : uc.GetByID h taskID = .error ErrTaskNotFound) :
    (∀ err, err.Is repository.ErrNoRows = true →
      repository.GetByID (.error err) = .error ErrTaskNotFound) ∧
    (ProcessTask uc h taskID).err = some (.wrap "failed to get task: " ErrTaskNotFound) ∧
    (∃ err, (ProcessTask uc h taskID).err = some err ∧ err.Wraps ErrTaskNotFound) ∧
    (ProcessTask uc h taskID).calls = [Call.GetByID taskID (.error ErrTaskNotFound)] ∧
    (∀ c ∈ (ProcessTask uc h taskID).calls,
      c.isUpdate = false ∧ c.isDownload = false ∧ c.isConvertFirstPage = false ∧
      c.isRecognizeDocument = false) := by
  have hrun : ProcessTask uc h taskID =
      ⟨some (.wrap "failed to get task: " ErrTaskNotFound),
        [Call.GetByID taskID (.error ErrTaskNotFound)], none⟩ := by
    simp [ProcessTask, hget]
  rw [hrun]
  refine ⟨?_, rfl, ⟨_, rfl, wraps_wrap _ _ _ (wraps_refl _)⟩, rfl, ?_⟩
  · intro err herr
    simp [repository.GetByID, herr]
  · intro c hc
    simp only [List.mem_singleton] at hc
    subst hc
    exact ⟨rfl, rfl, rfl, rfl⟩

/-- A delivery for a task whose row is not there. -/
theorem C15_unknown_task_witness :
    (ProcessTask unknownTask [] 7).err =
      some (.wrap "failed to get task: " ErrTaskNotFound) ∧
    (ProcessTask unknownTask [] 7).calls = [Call.GetByID 7 (.error ErrTaskNotFound)] :=
  ⟨(C15_unknown_task unknownTask [] 7 rfl).2.1, (C15_unknown_task unknownTask [] 7 rfl).2.2.2.1⟩

end usecase

namespace usecase

open domain

theorem lastUpdateRefused_calls :
    (ProcessTask lastUpdateRefused [] 7).calls =
      [Call.GetByID 7 (.ok sampleTask),
        Call.Update (processingOf sampleTask 201) none,
        Call.Download "2024/01/15/7/invoice.pdf" (.ok (.ok [37, 80, 68, 70])),
        Call.ConvertFirstPage [37, 80, 68, 70] (.ok [1, 2]),
        Call.RecognizeDocument [1, 2] "image/png" ["invoice_number", "total_amount"]
          (.ok (some [("invoice_number", .string "INV-1"), ("total_amount", .null)])),
        Call.Update (completedOf (processingOf sampleTask 201)
          (some [("invoice_number", .string "INV-1"), ("total_amount", .null)]) 205)
          (some (.errorsNew "connection refused"))] := by
  rfl

/-- C13, as stated, fails: when every step succeeds up to the `Update` of the
completed record and the repository refuses that `Update`, `ProcessTask`
returns an error after the processing record was stored, and no `Update`
carrying status failed is attempted. -/
theorem C13_counterexample :
    (ProcessTask lastUpdateRefused [] 7).err =
      some (.wrap "failed to update task: " (.errorsNew "connection refused")) ∧
    (∃ t, Call.Update t none ∈ (ProcessTask lastUpdateRefused [] 7).calls ∧
      t.Status = TaskStatusProcessing) ∧
    ¬ ∃ rec ret, Call.Update rec ret ∈ (ProcessTask lastUpdateRefused [] 7).calls ∧
      rec.Status = TaskStatusFailed := by
  refine ⟨rfl, ?_, ?_⟩
  · rw [lastUpdateRefused_calls]
    exact ⟨processingOf sampleTask 201, by simp, rfl⟩
  · rw [lastUpdateRefused_calls]
    rintro ⟨rec, ret, hmem, hstatus⟩
    simp at hmem
    rcases hmem with ⟨hrec, -⟩ | ⟨hrec, -⟩
    · rw [hrec] at hstatus
      exact absurd hstatus (by decide)
    · rw [hrec] at hstatus
      exact absurd hstatus (by decide)

/-- C13, amended: in every run that returns an error after the processing
record was stored, either the last call is an `Update` carrying status failed,
or the error is that of the repository refusing the `Update` of the completed
record, which is then the last call, and no `Update` of the run carries
status failed. -/
theorem C13_failed_update_attempted (uc : RecognitionUseCase) (h : List Call)
    (taskID : UUID)
    (hstored : ∃ t, Call.Update t none ∈ (ProcessTask uc h taskID).calls ∧
      t.Status = TaskStatusProcessing)
    (herr : (ProcessTask uc h taskID).err ≠ none) :
    (∃ rec ret, (ProcessTask uc h taskID).calls.getLast? = some (Call.Update rec ret) ∧
      rec.Status = TaskStatusFailed) ∨
    (∃ rec e, (ProcessTask uc h taskID).calls.getLast? = some (Call.Update rec (some e)) ∧
      rec.Status = TaskStatusCompleted ∧
      (ProcessTask uc h taskID).err = some (.wrap "failed to update task: " e) ∧
      ∀ t ∈ updates (ProcessTask uc h taskID).calls, t.Status ≠ TaskStatusFailed) := by
  have hrun := ProcessTask_run uc h taskID
  generalize uc.GetByID h taskID = fetched at hrun
  generalize ProcessTask uc h taskID = out at hrun hstored herr ⊢
  obtain ⟨t, hmem, -⟩ := hstored
  have hd := status_distinct
  cases hrun with
  | fetchFailed e => simp at hmem
  | skipped task hfinal => simp at hmem
  | notPending task hfinal hstatus => simp at hmem
  | firstUpdateFailed task now1 e1 hstatus => simp at hmem
  | downloadFailed task now1 now2 e1 ret hstatus => exact Or.inl ⟨_, ret, rfl, rfl⟩
  | readFailed task now1 now2 e1 ret hstatus => exact Or.inl ⟨_, ret, rfl, rfl⟩
  | noConverter task now1 now2 fileData ret hstatus hpdf hnil =>
    exact Or.inl ⟨_, ret, rfl, rfl⟩
  | convertFailed task now1 now2 fileData e1 ret hstatus hpdf =>
    exact Or.inl ⟨_, ret, rfl, rfl⟩
  | recognizeFailed task now1 now2 fileData imageData made e1 ret hstatus hmade =>
    rcases hmade with ⟨-, rfl, rfl⟩ | ⟨-, rfl⟩ <;> exact Or.inl ⟨_, ret, rfl, rfl⟩
  | lastUpdateFailed task now1 now2 fileData imageData made result e1 hstatus hmade =>
    rcases hmade with ⟨-, rfl, rfl⟩ | ⟨-, rfl⟩ <;>
      exact Or.inr ⟨_, e1, rfl, rfl, rfl, by
        intro t2 ht2
        simp [updates] at ht2
        rcases ht2 with rfl | rfl
        · exact hd.2.2.2.2.1
        · exact hd.2.2.2.2.2⟩
  | completed task now1 now2 fileData imageData made result hstatus hmade =>
    exact absurd rfl herr

/-- After a failed download the last call of the run is the `Update` of the
failed record. -/
theorem C13_failed_update_witness :
    (∃ rec ret, (ProcessTask missingBlob [] 7).calls.getLast? = some (Call.Update rec ret) ∧
      rec.Status = TaskStatusFailed) ∨
    (∃ rec e, (ProcessTask missingBlob [] 7).calls.getLast? =
        some (Call.Update rec (some e)) ∧
      rec.Status = TaskStatusCompleted ∧
      (ProcessTask missingBlob [] 7).err = some (.wrap "failed to update task: " e) ∧
      ∀ t ∈ updates (ProcessTask missingBlob [] 7).calls, t.Status ≠ TaskStatusFailed) :=
  C13_failed_update_attempted missingBlob [] 7
    ⟨processingOf sampleTask 201, by rw [missingBlob_calls]; simp, rfl⟩
    (by
      have herr : (ProcessTask missingBlob [] 7).err =
          some (.wrap "failed to download file: " (.errorsNew "NoSuchKey")) := rfl
      rw [herr]
      simp)

/-- C14: when the download, the rasterization or the inference fails with `e`
and the `Update` of the failed record is refused with `e2`, `ProcessTask`
returns the error built from `e` alone, the refused `Update` is its last call
(two `Update` calls in all, nothing after the refused one), and the only record
stored by the run is the processing one. -/
theorem C14_failed_update_refused (uc : RecognitionUseCase) (h : List Call) (taskID : UUID)
    (e e2 : GoError) (rec : Task)
    (hfail : (∃ fileKey, Call.Download fileKey (.error e) ∈ (ProcessTask uc h taskID).calls) ∨
      (∃ pdfData,
        Call.ConvertFirstPage pdfData (.error e) ∈ (ProcessTask uc h taskID).calls) ∨
      (∃ imageData contentType schema,
        Call.RecognizeDocument imageData contentType schema (.error e) ∈
          (ProcessTask uc h taskID).calls))
    (hrefused : Call.Update rec (some e2) ∈ (ProcessTask uc h taskID).calls)
    (hrec : rec.Status = TaskStatusFailed) :
    ((ProcessTask uc h taskID).err = some (.wrap "failed to download file: " e) ∨
      (ProcessTask uc h taskID).err =
        some (.wrap "failed to prepare image: " (.wrap "failed to convert PDF: " e)) ∨
      (ProcessTask uc h taskID).err = some (.wrap "LLM recognition failed: " e)) ∧
    (∃ err, (ProcessTask uc h taskID).err = some err ∧ err.Wraps e) ∧
    (ProcessTask uc h taskID).calls.getLast? = some (Call.Update rec (some e2)) ∧
    (∃ stored, updates (ProcessTask uc h taskID).calls = [stored, rec] ∧
      persisted (ProcessTask uc h taskID).calls = [stored] ∧
      (persisted (ProcessTask uc h taskID).calls).getLast? = some stored ∧
      stored.Status = TaskStatusProcessing) := by
  have hrun := ProcessTask_run uc h taskID
  generalize uc.GetByID h taskID = fetched at hrun
  generalize ProcessTask uc h taskID = out at hrun hfail hrefused ⊢
  cases hrun with
  | fetchFailed e1 => simp at hrefused
  | skipped task hfinal => simp at hrefused
  | notPending task hfinal hstatus => simp at hrefused
  | firstUpdateFailed task now1 e1 hstatus =>
    simp at hfail
  | downloadFailed task now1 now2 e1 ret hstatus =>
    simp at hfail hrefused
    obtain ⟨hr, hret⟩ := hrefused
    subst hfail hr hret
    refine ⟨Or.inl rfl, ⟨_, rfl, wraps_wrap _ _ _ (wraps_refl _)⟩, by simp,
      processingOf task now1, ?_, ?_, ?_, rfl⟩
    · simp [updates]
    · simp [persisted]
    · simp [persisted]
  | readFailed task now1 now2 e1 ret hstatus => simp at hfail
  | noConverter task now1 now2 fileData ret hstatus hpdf hnil => simp at hfail
  | convertFailed task now1 now2 fileData e1 ret hstatus hpdf =>
    simp at hfail hrefused
    obtain ⟨hr, hret⟩ := hrefused
    subst hfail hr hret
    refine ⟨Or.inr (Or.inl rfl),
      ⟨_, rfl, wraps_wrap _ _ _ (wraps_wrap _ _ _ (wraps_refl _))⟩, by simp,
      processingOf task now1, ?_, ?_, ?_, rfl⟩
    · simp [updates]
    · simp [persisted]
    · simp [persisted]
  | recognizeFailed task now1 now2 fileData imageData made e1 ret hstatus hmade =>
    rcases hmade with ⟨-, rfl, rfl⟩ | ⟨-, rfl⟩
    · simp at hfail hrefused
      obtain ⟨hr, hret⟩ := hrefused
      subst hfail hr hret
      refine ⟨Or.inr (Or.inr rfl), ⟨_, rfl, wraps_wrap _ _ _ (wraps_refl _)⟩, by simp,
        processingOf task now1, ?_, ?_, ?_, rfl⟩
      · simp [updates]
      · simp [persisted]
      · simp [persisted]
    · simp at hfail hrefused
      obtain ⟨hr, hret⟩ := hrefused
      subst hfail hr hret
      refine ⟨Or.inr (Or.inr rfl), ⟨_, rfl, wraps_wrap _ _ _ (wraps_refl _)⟩, by simp,
        processingOf task now1, ?_, ?_, ?_, rfl⟩
      · simp [updates]
      · simp [persisted]
      · simp [persisted]
  | lastUpdateFailed task now1 now2 fileData imageData made result e1 hstatus hmade =>
    rcases hmade with ⟨-, rfl, rfl⟩ | ⟨-, rfl⟩ <;> simp at hfail
  | completed task now1 now2 fileData imageData made result hstatus hmade =>
    rcases hmade with ⟨-, rfl, rfl⟩ | ⟨-, rfl⟩ <;> simp at hfail

end usecase

namespace usecase

open domain

/-- The run in which the download fails and the repository refuses the
`Update` of the failed record. -/
theorem C14_failed_update_witness :
    (ProcessTask lostUpdate [] 7).calls.getLast? =
      some (Call.Update (failedOf (processingOf sampleTask 201)
        "failed to download file: NoSuchKey" 203) (some (.errorsNew "connection refused"))) ∧
    (∃ stored, updates (ProcessTask lostUpdate [] 7).calls =
        [stored, failedOf (processingOf sampleTask 201)
          "failed to download file: NoSuchKey" 203] ∧
      persisted (ProcessTask lostUpdate [] 7).calls = [stored] ∧
      (persisted (ProcessTask lostUpdate [] 7).calls).getLast? = some stored ∧
      stored.Status = TaskStatusProcessing) :=
  (C14_failed_update_refused lostUpdate [] 7 (.errorsNew "NoSuchKey")
    (.errorsNew "connection refused")
    (failedOf (processingOf sampleTask 201) "failed to download file: NoSuchKey" 203)
    (Or.inl ⟨"2024/01/15/7/invoice.pdf", by rw [lostUpdate_calls]; simp⟩)
    (by rw [lostUpdate_calls]; simp) rfl).2.2

/-- C16: when the step from pending to processing fails, `ProcessTask`
returns an error and stores nothing. If the fetched record is already in
processing, the fetch is the only call of the run. If the `Update` carrying
the processing record is refused, the run is the fetch and that one `Update`.
In both cases there is no `Download`, `ConvertFirstPage` or
`RecognizeDocument` and no further `Update`. -/
theorem C16_processing_step_fails (uc : RecognitionUseCase) (h : List Call) (taskID : UUID)
    (task : Task) (hget : uc.GetByID h taskID = .ok task) :
    (task.Status = TaskStatusProcessing →
      (ProcessTask uc h taskID).err =
        some (.wrap "failed to mark task as processing: " ErrInvalidTaskStatus) ∧
      (ProcessTask uc h taskID).calls = [Call.GetByID taskID (.ok task)] ∧
      (ProcessTask uc h taskID).task = some task) ∧
    (∀ rec e, Call.Update rec (some e) ∈ (ProcessTask uc h taskID).calls →
      rec.Status = TaskStatusProcessing →
      (ProcessTask uc h taskID).err = some (.wrap "failed to update task status: " e) ∧
      (ProcessTask uc h taskID).calls =
        [Call.GetByID taskID (.ok task), Call.Update rec (some e)]) ∧
    ((task.Status = TaskStatusProcessing ∨
        ∃ rec e, Call.Update rec (some e) ∈ (ProcessTask uc h taskID).calls ∧
          rec.Status = TaskStatusProcessing) →
      (ProcessTask uc h taskID).err ≠ none ∧
      (∀ c ∈ (ProcessTask uc h taskID).calls,
        c.isDownload = false ∧ c.isConvertFirstPage = false ∧
        c.isRecognizeDocument = false) ∧
      (updates (ProcessTask uc h taskID).calls).length ≤ 1 ∧
      persisted (ProcessTask uc h taskID).calls = []) := by
  have hd := status_distinct
  have hrun := ProcessTask_run uc h taskID
  rw [hget] at hrun
  generalize ProcessTask uc h taskID = out at hrun ⊢
  have hcompleted : ∀ (t : Task) (r : Option GoMap) (n : Time),
      (completedOf t r n).Status ≠ TaskStatusProcessing := fun _ _ _ e => hd.2.2.2.1 e.symm
  have hfailed : ∀ (t : Task) (m : String) (n : Time),
      (failedOf t m n).Status ≠ TaskStatusProcessing := fun _ _ _ e => hd.2.2.2.2.1 e.symm
  cases hrun with
  | skipped _ hfinal =>
    have hnp : task.Status ≠ TaskStatusProcessing := by
      intro hp
      rw [hp] at hfinal
      exact absurd hfinal (by decide)
    refine ⟨fun hp => absurd hp hnp, by simp, ?_⟩
    rintro (hp | ⟨rec, e, hmem, -⟩)
    · exact absurd hp hnp
    · simp at hmem
  | notPending _ hfinal hstatus =>
    refine ⟨fun _ => ⟨rfl, rfl, rfl⟩, by simp, fun _ => ⟨by simp, by simp [Call.isDownload,
      Call.isConvertFirstPage, Call.isRecognizeDocument], by simp [updates], by simp [persisted]⟩⟩
  | firstUpdateFailed _ now1 e1 hstatus =>
    have hnp : task.Status ≠ TaskStatusProcessing := by
      rw [hstatus]
      exact hd.1
    refine ⟨fun hp => absurd hp hnp, ?_, fun _ => ⟨by simp, by simp [Call.isDownload,
      Call.isConvertFirstPage, Call.isRecognizeDocument], by simp [updates], by simp [persisted]⟩⟩
    intro rec e hmem _
    simp at hmem
    obtain ⟨hr, he⟩ := hmem
    subst hr he
    exact ⟨rfl, rfl⟩
  | downloadFailed _ now1 now2 e1 ret hstatus =>
    have hnp : task.Status ≠ TaskStatusProcessing := by
      rw [hstatus]
      exact hd.1
    have hno : ∀ rec e, Call.Update rec (some e) ∈
        [Call.GetByID taskID (.ok task), Call.Update (processingOf task now1) none,
          Call.Download task.FileKey (.error e1),
          Call.Update (failedOf (processingOf task now1)
            ("failed to download file: " ++ e1.Error) now2) ret] →
        rec.Status = TaskStatusProcessing → False := by
      intro rec e hmem hs
      simp at hmem
      rw [hmem.1] at hs
      exact hfailed _ _ _ hs
    refine ⟨fun hp => absurd hp hnp, fun rec e hmem hs => absurd (hno rec e hmem hs) id, ?_⟩
    rintro (hp | ⟨rec, e, hmem, hs⟩)
    · exact absurd hp hnp
    · exact absurd (hno rec e hmem hs) id
  | readFailed _ now1 now2 e1 ret hstatus =>
    have hnp : task.Status ≠ TaskStatusProcessing := by
      rw [hstatus]
      exact hd.1
    have hno : ∀ rec e, Call.Update rec (some e) ∈
        [Call.GetByID taskID (.ok task), Call.Update (processingOf task now1) none,
          Call.Download task.FileKey (.ok (.error e1)),
          Call.Update (failedOf (processingOf task now1)
            ("failed to read file: " ++ e1.Error) now2) ret] →
        rec.Status = TaskStatusProcessing → False := by
      intro rec e hmem hs
      simp at hmem
      rw [hmem.1] at hs
      exact hfailed _ _ _ hs
    refine ⟨fun hp => absurd hp hnp, fun rec e hmem hs => absurd (hno rec e hmem hs) id, ?_⟩
    rintro (hp | ⟨rec, e, hmem, hs⟩)
    · exact absurd hp hnp
    · exact absurd (hno rec e hmem hs) id
  | noConverter _ now1 now2 fileData ret hstatus hpdf hnil =>
    have hnp : task.Status ≠ TaskStatusProcessing := by
      rw [hstatus]
      exact hd.1
    have hno : ∀ rec e, Call.Update rec (some e) ∈
        [Call.GetByID taskID (.ok task), Call.Update (processingOf task now1) none,
          Call.Download task.FileKey (.ok (.ok fileData)),
          Call.Update (failedOf (processingOf task now1)
            ("failed to prepare image: " ++ "PDF converter not available") now2) ret] →
        rec.Status = TaskStatusProcessing → False := by
      intro rec e hmem hs
      simp at hmem
      rw [hmem.1] at hs
      exact hfailed _ _ _ hs
    refine ⟨fun hp => absurd hp hnp, fun rec e hmem hs => absurd (hno rec e hmem hs) id, ?_⟩
    rintro (hp | ⟨rec, e, hmem, hs⟩)
    · exact absurd hp hnp
    · exact absurd (hno rec e hmem hs) id
  | convertFailed _ now1 now2 fileData e1 ret hstatus hpdf =>
    have hnp : task.Status ≠ TaskStatusProcessing := by
      rw [hstatus]
      exact hd.1
    have hno : ∀ rec e, Call.Update rec (some e) ∈
        [Call.GetByID taskID (.ok task), Call.Update (processingOf task now1) none,
          Call.Download task.FileKey (.ok (.ok fileData)),
          Call.ConvertFirstPage fileData (.error e1),
          Call.Update (failedOf (processingOf task now1)
            ("failed to prepare image: " ++ ("failed to convert PDF: " ++ e1.Error)) now2)
            ret] →
        rec.Status = TaskStatusProcessing → False := by
      intro rec e hmem hs
      simp at hmem
      rw [hmem.1] at hs
      exact hfailed _ _ _ hs
    refine ⟨fun hp => absurd hp hnp, fun rec e hmem hs => absurd (hno rec e hmem hs) id, ?_⟩
    rintro (hp | ⟨rec, e, hmem, hs⟩)
    · exact absurd hp hnp
    · exact absurd (hno rec e hmem hs) id
  | recognizeFailed _ now1 now2 fileData imageData made e1 ret hstatus hmade =>
    have hnp : task.Status ≠ TaskStatusProcessing := by
      rw [hstatus]
      exact hd.1
    have hno : ∀ rec e, Call.Update rec (some e) ∈
        [Call.GetByID taskID (.ok task), Call.Update (processingOf task now1) none,
          Call.Download task.FileKey (.ok (.ok fileData))] ++ (made ++
        [Call.RecognizeDocument imageData "image/png" task.Schema (.error e1),
          Call.Update (failedOf (processingOf task now1)
            ("LLM recognition failed: " ++ e1.Error) now2) ret]) →
        rec.Status = TaskStatusProcessing → False := by
      intro rec e hmem hs
      rcases hmade with ⟨-, -, rfl⟩ | ⟨-, rfl⟩
      · simp at hmem
        rw [hmem.1] at hs
        exact hfailed _ _ _ hs
      · simp at hmem
        rw [hmem.1] at hs
        exact hfailed _ _ _ hs
    refine ⟨fun hp => absurd hp hnp, fun rec e hmem hs => absurd (hno rec e hmem hs) id, ?_⟩
    rintro (hp | ⟨rec, e, hmem, hs⟩)
    · exact absurd hp hnp
    · exact absurd (hno rec e hmem hs) id
  | lastUpdateFailed _ now1 now2 fileData imageData made result e1 hstatus hmade =>
    have hnp : task.Status ≠ TaskStatusProcessing := by
      rw [hstatus]
      exact hd.1
    have hno : ∀ rec e, Call.Update rec (some e) ∈
        [Call.GetByID taskID (.ok task), Call.Update (processingOf task now1) none,
          Call.Download task.FileKey (.ok (.ok fileData))] ++ (made ++
        [Call.RecognizeDocument imageData "image/png" task.Schema (.ok result),
          Call.Update (completedOf (processingOf task now1) result now2) (some e1)]) →
        rec.Status = TaskStatusProcessing → False := by
      intro rec e hmem hs
      rcases hmade with ⟨-, -, rfl⟩ | ⟨-, rfl⟩
      · simp at hmem
        rw [hmem.1] at hs
        exact hcompleted _ _ _ hs
      · simp at hmem
        rw [hmem.1] at hs
        exact hcompleted _ _ _ hs
    refine ⟨fun hp => absurd hp hnp, fun rec e hmem hs => absurd (hno rec e hmem hs) id, ?_⟩
    rintro (hp | ⟨rec, e, hmem, hs⟩)
    · exact absurd hp hnp
    · exact absurd (hno rec e hmem hs) id
  | completed _ now1 now2 fileData imageData made result hstatus hmade =>
    have hnp : task.Status ≠ TaskStatusProcessing := by
      rw [hstatus]
      exact hd.1
    have hno : ∀ rec e, Call.Update rec (some e) ∈
        [Call.GetByID taskID (.ok task), Call.Update (processingOf task now1) none,
          Call.Download task.FileKey (.ok (.ok fileData))] ++ (made ++
        [Call.RecognizeDocument imageData "image/png" task.Schema (.ok result),
          Call.Update (completedOf (processingOf task now1) result now2) none]) →
        rec.Status = TaskStatusProcessing → False := by
      intro rec e hmem hs
      rcases hmade with ⟨-, -, rfl⟩ | ⟨-, rfl⟩
      · simp at hmem
      · simp at hmem
    refine ⟨fun hp => absurd hp hnp, fun rec e hmem hs => absurd (hno rec e hmem hs) id, ?_⟩
    rintro (hp | ⟨rec, e, hmem, hs⟩)
    · exact absurd hp hnp
    · exact absurd (hno rec e hmem hs) id

theorem updateRefused_calls :
    (ProcessTask updateRefused [] 7).calls =
      [Call.GetByID 7 (.ok sampleTask),
        Call.Update (processingOf sampleTask 201) (some (.errorsNew "connection refused"))] := by
  rfl

/-- A delivery for a record already in processing, and a delivery for which
the repository refuses the `Update` of the processing record. -/
theorem C16_processing_step_witness :
    ((ProcessTask alreadyProcessing [] 7).err =
        some (.wrap "failed to mark task as processing: " ErrInvalidTaskStatus) ∧
      (ProcessTask alreadyProcessing [] 7).calls =
        [Call.GetByID 7 (.ok (processingOf sampleTask 150))] ∧
      (ProcessTask alreadyProcessing [] 7).task = some (processingOf sampleTask 150)) ∧
    ((ProcessTask updateRefused [] 7).err =
        some (.wrap "failed to update task status: " (.errorsNew "connection refused")) ∧
      (ProcessTask updateRefused [] 7).calls =
        [Call.GetByID 7 (.ok sampleTask),
          Call.Update (processingOf sampleTask 201)
            (some (.errorsNew "connection refused"))]) :=
  ⟨(C16_processing_step_fails alreadyProcessing [] 7 (processingOf sampleTask 150) rfl).1 rfl,
   (C16_processing_step_fails updateRefused [] 7 sampleTask rfl).2.1
     (processingOf sampleTask 201) (.errorsNew "connection refused")
     (by rw [updateRefused_calls]; simp) rfl⟩

end usecase

namespace usecase

open domain

/-- When a run of `ProcessTask` calls the inference client, it calls it
exactly once, with the schema of the fetched task, the content type
"image/png" and an image made from the downloaded bytes: the output of the one
`ConvertFirstPage` call on those bytes when the lower-cased text of the task's
content type contains `pdf`, the downloaded bytes themselves, with no
`ConvertFirstPage` call, otherwise. -/
theorem inference_call_of_run (uc : RecognitionUseCase) (h : List Call) (taskID : UUID)
    (task : Task) (imageData : Bytes) (contentType : String) (schema : List String)
    (ret : Except GoError (Option GoMap))
    (hget : uc.GetByID h taskID = .ok task)
    (hcall : Call.RecognizeDocument imageData contentType schema ret ∈
      (ProcessTask uc h taskID).calls) :
    contentType = "image/png" ∧ schema = task.Schema ∧
    ((ProcessTask uc h taskID).calls.filter Call.isRecognizeDocument).length = 1 ∧
    ∃ fileData, Call.Download task.FileKey (.ok (.ok fileData)) ∈
        (ProcessTask uc h taskID).calls ∧
      (strings.Contains (strings.ToLower task.ContentType) "pdf" = true →
        Call.ConvertFirstPage fileData (.ok imageData) ∈ (ProcessTask uc h taskID).calls ∧
        ((ProcessTask uc h taskID).calls.filter Call.isConvertFirstPage).length = 1) ∧
      (strings.Contains (strings.ToLower task.ContentType) "pdf" = false →
        imageData = fileData ∧
        ∀ c ∈ (ProcessTask uc h taskID).calls, c.isConvertFirstPage = false) := by
  have hrun := ProcessTask_run uc h taskID
  rw [hget] at hrun
  generalize ProcessTask uc h taskID = out at hrun hcall ⊢
  cases hrun with
  | skipped _ hfinal => simp at hcall
  | notPending _ hfinal hstatus => simp at hcall
  | firstUpdateFailed _ now1 e1 hstatus => simp at hcall
  | downloadFailed _ now1 now2 e1 ret1 hstatus => simp at hcall
  | readFailed _ now1 now2 e1 ret1 hstatus => simp at hcall
  | noConverter _ now1 now2 fileData ret1 hstatus hpdf hnil => simp at hcall
  | convertFailed _ now1 now2 fileData e1 ret1 hstatus hpdf => simp at hcall
  | recognizeFailed _ now1 now2 fileData image made e1 ret1 hstatus hmade =>
    rcases hmade with ⟨hpdf, rfl, rfl⟩ | ⟨hpdf, rfl⟩
    · simp at hcall
      obtain ⟨rfl, rfl, rfl, -⟩ := hcall
      refine ⟨rfl, rfl, by simp [Call.isRecognizeDocument], imageData, by simp, ?_, ?_⟩
      · intro hp
        rw [hpdf] at hp
        exact absurd hp (by simp)
      · intro _
        exact ⟨rfl, by simp [Call.isConvertFirstPage]⟩
    · simp at hcall
      obtain ⟨rfl, rfl, rfl, -⟩ := hcall
      refine ⟨rfl, rfl, by simp [Call.isRecognizeDocument], fileData, by simp, ?_, ?_⟩
      · intro _
        exact ⟨by simp, by simp [Call.isConvertFirstPage]⟩
      · intro hp
        rw [hpdf] at hp
        exact absurd hp (by simp)
  | lastUpdateFailed _ now1 now2 fileData image made result e1 hstatus hmade =>
    rcases hmade with ⟨hpdf, rfl, rfl⟩ | ⟨hpdf, rfl⟩
    · simp at hcall
      obtain ⟨rfl, rfl, rfl, -⟩ := hcall
      refine ⟨rfl, rfl, by simp [Call.isRecognizeDocument], imageData, by simp, ?_, ?_⟩
      · intro hp
        rw [hpdf] at hp
        exact absurd hp (by simp)
      · intro _
        exact ⟨rfl, by simp [Call.isConvertFirstPage]⟩
    · simp at hcall
      obtain ⟨rfl, rfl, rfl, -⟩ := hcall
      refine ⟨rfl, rfl, by simp [Call.isRecognizeDocument], fileData, by simp, ?_, ?_⟩
      · intro _
        exact ⟨by simp, by simp [Call.isConvertFirstPage]⟩
      · intro hp
        rw [hpdf] at hp
        exact absurd hp (by simp)
  | completed _ now1 now2 fileData image made result hstatus hmade =>
    rcases hmade with ⟨hpdf, rfl, rfl⟩ | ⟨hpdf, rfl⟩
    · simp at hcall
      obtain ⟨rfl, rfl, rfl, -⟩ := hcall
      refine ⟨rfl, rfl, by simp [Call.isRecognizeDocument], imageData, by simp, ?_, ?_⟩
      · intro hp
        rw [hpdf] at hp
        exact absurd hp (by simp)
      · intro _
        exact ⟨rfl, by simp [Call.isConvertFirstPage]⟩
    · simp at hcall
      obtain ⟨rfl, rfl, rfl, -⟩ := hcall
      refine ⟨rfl, rfl, by simp [Call.isRecognizeDocument], fileData, by simp, ?_, ?_⟩
      · intro _
        exact ⟨by simp, by simp [Call.isConvertFirstPage]⟩
      · intro hp
        rw [hpdf] at hp
        exact absurd hp (by simp)

/-- The run on the sample PDF task: the inference client gets the rasterizer's
output `[1, 2]` for the downloaded bytes. -/
theorem inference_call_sample :
    ((ProcessTask allSucceed [] 7).calls.filter Call.isRecognizeDocument).length = 1 ∧
    ∃ fileData, Call.Download sampleTask.FileKey (.ok (.ok fileData)) ∈
        (ProcessTask allSucceed [] 7).calls ∧
      (strings.Contains (strings.ToLower sampleTask.ContentType) "pdf" = true →
        Call.ConvertFirstPage fileData (.ok [1, 2]) ∈ (ProcessTask allSucceed [] 7).calls ∧
        ((ProcessTask allSucceed [] 7).calls.filter Call.isConvertFirstPage).length = 1) ∧
      (strings.Contains (strings.ToLower sampleTask.ContentType) "pdf" = false →
        [1, 2] = fileData ∧
        ∀ c ∈ (ProcessTask allSucceed [] 7).calls, c.isConvertFirstPage = false) :=
  (inference_call_of_run allSucceed [] 7 sampleTask [1, 2] "image/png"
    ["invoice_number", "total_amount"]
    (.ok (some [("invoice_number", .string "INV-1"), ("total_amount", .null)])) rfl
    (by rw [allSucceed_calls]; simp)).2.2

end usecase

namespace usecase

open domain

/-- The calls of the run on the PNG task. -/
theorem pngWithPdfParameter_calls :
    (ProcessTask pngWithPdfParameter [] 7).calls =
      [Call.GetByID 7 (.ok pngTask),
        Call.Update (processingOf pngTask 201) none,
        Call.Download "2024/01/15/7/x.png" (.ok (.ok [137, 80, 78, 71])),
        Call.ConvertFirstPage [137, 80, 78, 71] (.ok [1, 2]),
        Call.RecognizeDocument [1, 2] "image/png" ["invoice_number", "total_amount"]
          (.ok (some [("invoice_number", .string "INV-1"), ("total_amount", .null)])),
        Call.Update (completedOf (processingOf pngTask 201)
          (some [("invoice_number", .string "INV-1"), ("total_amount", .null)]) 205)
          none] := by
  rfl

/-- C18: for a task whose content type is "image/png; name=x.pdf", a type
that `ValidateContentType` accepts, that `IsImage` takes for an image and
`IsPDF` not for a PDF, the run of `ProcessTask` calls the rasterizer on the
downloaded bytes and hands the inference client the rasterizer's output
`[1, 2]`, not the downloaded bytes `[137, 80, 78, 71]`. The client is called
once, with the content type "image/png" and the schema of the task. -/
theorem C18_image_with_pdf_parameter_rasterized :
    ValidateContentType pngTask.ContentType = none ∧
    IsImage pngTask.ContentType = true ∧
    IsPDF pngTask.ContentType = false ∧
    Call.Download pngTask.FileKey (.ok (.ok [137, 80, 78, 71])) ∈
      (ProcessTask pngWithPdfParameter [] 7).calls ∧
    Call.ConvertFirstPage [137, 80, 78, 71] (.ok [1, 2]) ∈
      (ProcessTask pngWithPdfParameter [] 7).calls ∧
    (ProcessTask pngWithPdfParameter [] 7).calls.filter Call.isRecognizeDocument =
      [Call.RecognizeDocument [1, 2] "image/png" pngTask.Schema
        (.ok (some [("invoice_number", .string "INV-1"), ("total_amount", .null)]))] ∧
    (ProcessTask pngWithPdfParameter [] 7).err = none := by
  refine ⟨by decide, by decide, by decide, ?_, ?_, ?_, rfl⟩
  · rw [pngWithPdfParameter_calls]
    exact List.mem_cons_of_mem _ (List.mem_cons_of_mem _ (List.mem_cons_self _ _))
  · rw [pngWithPdfParameter_calls]
    exact List.mem_cons_of_mem _ (List.mem_cons_of_mem _ (List.mem_cons_of_mem _
      (List.mem_cons_self _ _)))
  · rw [pngWithPdfParameter_calls]
    rfl

/-- The run on a fetched record that is completed or failed. -/
theorem run_of_terminal (uc : RecognitionUseCase) (h : List Call) (taskID : UUID) (task : Task)
    (hget : uc.GetByID h taskID = .ok task)
    (hfinal : task.Status = TaskStatusCompleted ∨ task.Status = TaskStatusFailed) :
    ProcessTask uc h taskID = ⟨none, [Call.GetByID taskID (.ok task)], some task⟩ := by
  have hf : IsFinal task.Status = true := (isFinal_iff _).mpr hfinal
  simp [ProcessTask, hget, hf]

end usecase

namespace usecase

open domain

theorem stored_append_getByID (initial : UUID → Option Task) (hist : List Call)
    (id fetched : UUID) (ret : Except GoError Task) :
    stored initial (hist ++ [Call.GetByID fetched ret]) id = stored initial hist id := by
  simp [stored, persisted_append, persisted]

theorem stored_of_last (initial : UUID → Option Task) (hist front : List Call) (rec : Task) :
    stored initial (hist ++ (front ++ [Call.Update rec none])) rec.ID = some rec := by
  simp [stored, persisted_append, persisted]

/-- C17: over a repository that is a store, when a first run of `ProcessTask`
fails at the download and its `Update` of the failed record is accepted, a
second run for the same id returns success, its only call is the fetch of that
failed record (no `Download`, `ConvertFirstPage`, `RecognizeDocument` or
`Update`), and the stored record is unchanged. -/
theorem C17_redelivery_after_failed_download (uc : RecognitionUseCase)
    (initial : UUID → Option Task) (h : List Call) (taskID : UUID) (e : GoError)
    (rec : Task) (hstore : ReadsStore uc initial)
    (hid : ∀ t, stored initial h taskID = some t → t.ID = taskID)
    (hdownload : ∃ fileKey,
      Call.Download fileKey (.error e) ∈ (ProcessTask uc h taskID).calls)
    (haccepted : Call.Update rec none ∈ (ProcessTask uc h taskID).calls)
    (hrec : rec.Status = TaskStatusFailed) :
    stored initial (h ++ (ProcessTask uc h taskID).calls) taskID = some rec ∧
    (ProcessTask uc (h ++ (ProcessTask uc h taskID).calls) taskID).err = none ∧
    (ProcessTask uc (h ++ (ProcessTask uc h taskID).calls) taskID).calls =
      [Call.GetByID taskID (.ok rec)] ∧
    (∀ c ∈ (ProcessTask uc (h ++ (ProcessTask uc h taskID).calls) taskID).calls,
      c.isDownload = false ∧ c.isConvertFirstPage = false ∧
      c.isRecognizeDocument = false ∧ c.isUpdate = false) ∧
    stored initial (h ++ (ProcessTask uc h taskID).calls ++
      (ProcessTask uc (h ++ (ProcessTask uc h taskID).calls) taskID).calls) taskID =
      some rec := by
  have hd := status_distinct
  have hrun := ProcessTask_run uc h taskID
  have hfetch := hstore h taskID
  generalize uc.GetByID h taskID = fetched at hrun hfetch
  generalize ProcessTask uc h taskID = out at hrun hdownload haccepted ⊢
  obtain ⟨fileKey, hdl⟩ := hdownload
  have key : ∀ front : List Call, out.calls = front ++ [Call.Update rec none] →
      rec.ID = taskID →
      stored initial (h ++ out.calls) taskID = some rec ∧
      (ProcessTask uc (h ++ out.calls) taskID).err = none ∧
      (ProcessTask uc (h ++ out.calls) taskID).calls = [Call.GetByID taskID (.ok rec)] ∧
      (∀ c ∈ (ProcessTask uc (h ++ out.calls) taskID).calls,
        c.isDownload = false ∧ c.isConvertFirstPage = false ∧
        c.isRecognizeDocument = false ∧ c.isUpdate = false) ∧
      stored initial (h ++ out.calls ++ (ProcessTask uc (h ++ out.calls) taskID).calls)
        taskID = some rec := by
    intro front hcalls hrid
    have hst : stored initial (h ++ out.calls) taskID = some rec := by
      rw [hcalls, ← hrid]
      exact stored_of_last initial h front rec
    have hget2 : uc.GetByID (h ++ out.calls) taskID = .ok rec := by
      rw [hstore (h ++ out.calls) taskID, hst]
    have h2 := run_of_terminal uc (h ++ out.calls) taskID rec hget2 (Or.inr hrec)
    rw [h2]
    refine ⟨hst, rfl, rfl, ?_, ?_⟩
    · intro c hc
      simp only [List.mem_singleton] at hc
      subst hc
      exact ⟨rfl, rfl, rfl, rfl⟩
    · rw [stored_append_getByID]
      exact hst
  cases hrun with
  | fetchFailed e1 => simp at hdl
  | skipped task hfinal => simp at hdl
  | notPending task hfinal hstatus => simp at hdl
  | firstUpdateFailed task now1 e1 hstatus => simp at hdl
  | downloadFailed task now1 now2 e1 ret hstatus =>
    have htask : stored initial h taskID = some task := by
      cases hs : stored initial h taskID with
      | none => rw [hs] at hfetch; cases hfetch
      | some t =>
        rw [hs] at hfetch
        injection hfetch with ht
        rw [ht]
    have hid2 := hid task htask
    simp at haccepted
    rcases haccepted with hproc | ⟨hr, hret⟩
    · rw [hproc] at hrec
      exact absurd hrec (fun e => hd.2.2.2.2.1 e)
    · subst hret
      refine key [Call.GetByID taskID (.ok task), Call.Update (processingOf task now1) none,
        Call.Download task.FileKey (.error e1)] ?_ ?_
      · rw [hr]
        rfl
      · rw [hr]
        exact hid2
  | readFailed task now1 now2 e1 ret hstatus => simp at hdl
  | noConverter task now1 now2 fileData ret hstatus hpdf hnil => simp at hdl
  | convertFailed task now1 now2 fileData e1 ret hstatus hpdf => simp at hdl
  | recognizeFailed task now1 now2 fileData imageData made e1 ret hstatus hmade =>
    rcases hmade with ⟨-, rfl, rfl⟩ | ⟨-, rfl⟩ <;> simp at hdl
  | lastUpdateFailed task now1 now2 fileData imageData made result e1 hstatus hmade =>
    rcases hmade with ⟨-, rfl, rfl⟩ | ⟨-, rfl⟩ <;> simp at hdl
  | completed task now1 now2 fileData imageData made result hstatus hmade =>
    rcases hmade with ⟨-, rfl, rfl⟩ | ⟨-, rfl⟩ <;> simp at hdl

end usecase

namespace usecase

open domain

theorem storeBacked_calls :
    (ProcessTask storeBacked [] 7).calls =
      [Call.GetByID 7 (.ok sampleTask),
        Call.Update (processingOf sampleTask 201) none,
        Call.Download "2024/01/15/7/invoice.pdf" (.error (.errorsNew "NoSuchKey")),
        Call.Update (failedOf (processingOf sampleTask 201)
          "failed to download file: NoSuchKey" 203) none] := by
  rfl

/-- Two deliveries of task 7 over the sample store, the first failing at the
download. -/
theorem C17_redelivery_witness :
    stored sampleStore ([] ++ (ProcessTask storeBacked [] 7).calls) 7 =
      some (failedOf (processingOf sampleTask 201) "failed to download file: NoSuchKey" 203) ∧
    (ProcessTask storeBacked ([] ++ (ProcessTask storeBacked [] 7).calls) 7).err = none ∧
    (ProcessTask storeBacked ([] ++ (ProcessTask storeBacked [] 7).calls) 7).calls =
      [Call.GetByID 7 (.ok (failedOf (processingOf sampleTask 201)
        "failed to download file: NoSuchKey" 203))] :=
  ⟨(C17_redelivery_after_failed_download storeBacked sampleStore [] 7
      (.errorsNew "NoSuchKey")
      (failedOf (processingOf sampleTask 201) "failed to download file: NoSuchKey" 203)
      (fun _ _ => rfl)
      (fun t ht => by
        have hs : stored sampleStore [] 7 = some sampleTask := rfl
        rw [hs] at ht
        injection ht with ht
        rw [← ht]
        rfl)
      ⟨"2024/01/15/7/invoice.pdf", by rw [storeBacked_calls]; simp⟩
      (by rw [storeBacked_calls]; simp) rfl).1,
   (C17_redelivery_after_failed_download storeBacked sampleStore [] 7
      (.errorsNew "NoSuchKey")
      (failedOf (processingOf sampleTask 201) "failed to download file: NoSuchKey" 203)
      (fun _ _ => rfl)
      (fun t ht => by
        have hs : stored sampleStore [] 7 = some sampleTask := rfl
        rw [hs] at ht
        injection ht with ht
        rw [← ht]
        rfl)
      ⟨"2024/01/15/7/invoice.pdf", by rw [storeBacked_calls]; simp⟩
      (by rw [storeBacked_calls]; simp) rfl).2.1,
   (C17_redelivery_after_failed_download storeBacked sampleStore [] 7
      (.errorsNew "NoSuchKey")
      (failedOf (processingOf sampleTask 201) "failed to download file: NoSuchKey" 203)
      (fun _ _ => rfl)
      (fun t ht => by
        have hs : stored sampleStore [] 7 = some sampleTask := rfl
        rw [hs] at ht
        injection ht with ht
        rw [← ht]
        rfl)
      ⟨"2024/01/15/7/invoice.pdf", by rw [storeBacked_calls]; simp⟩
      (by rw [storeBacked_calls]; simp) rfl).2.2.1⟩

end usecase

/-! ## Further claims on parsing the model output -/

namespace llm

theorem parseResponse_cleaned (Unmarshal : String → Except GoError GoMap) (response : String)
    (schema : List String) :
    parseResponse Unmarshal response schema =
      if strings.Index (cleaned response) "\x7b" = -1 ∨
          strings.LastIndex (cleaned response) "\x7d" = -1 ∨
          strings.Index (cleaned response) "\x7b" > strings.LastIndex (cleaned response) "\x7d"
      then .error (.errorsNew "no valid JSON found in response")
      else
        match Unmarshal (strings.slice (cleaned response)
          (strings.Index (cleaned response) "\x7b").toNat
          (strings.LastIndex (cleaned response) "\x7d" + 1).toNat) with
        | .error err => .error (.wrap "failed to parse JSON: " err)
        | .ok result => .ok (backfill result schema) := by
  rfl

/-- A successful `parseResponse` returns the map decoded from the text
between the braces of the response, backfilled. -/
theorem parseResponse_ok (Unmarshal : String → Except GoError GoMap) (response : String)
    (schema : List String) (result : GoMap)
    (hok : parseResponse Unmarshal response schema = .ok result) :
    ∃ m, Unmarshal (jsonText response) = .ok m ∧ result = backfill m schema := by
  rw [parseResponse_cleaned] at hok
  split at hok
  · cases hok
  · split at hok
    · cases hok
    · rename_i m hm
      injection hok with hok
      exact ⟨m, hm, hok.symm⟩

/-- C19, as stated, fails: a key of the model output that is not a requested
field stays in the returned map. -/
theorem C19_counterexample :
    parseResponse json.Unmarshal "\x7b\"invoice_number\": \"INV-1\", \"vendor\": \"ACME\"\x7d"
        ["invoice_number"] =
      .ok [("invoice_number", .string "INV-1"), ("vendor", .string "ACME")] ∧
    ¬ (∀ k, k ∈ GoMap.keys [("invoice_number", AnyValue.string "INV-1"),
        ("vendor", AnyValue.string "ACME")] ↔ k ∈ ["invoice_number"]) := by
  refine ⟨rfl, ?_⟩
  intro hall
  exact absurd ((hall "vendor").mp (by decide)) (by decide)

/-- C19, amended: when `parseResponse` succeeds, the decoder has decoded the
text between the first opening and the last closing brace of the cleaned
output into an object; every requested field is a key of the returned map,
and the keys of the returned map are the requested fields together with the
keys of that object; no other key is there when the keys of the object are
all requested fields. -/
theorem C19_result_keys (Unmarshal : String → Except GoError GoMap) (response : String)
    (schema : List String) (result : GoMap)
    (hok : parseResponse Unmarshal response schema = .ok result) :
    (∀ k ∈ schema, k ∈ result.keys) ∧
    ∃ m, Unmarshal (jsonText response) = .ok m ∧ result = backfill m schema ∧
      (∀ k, k ∈ result.keys ↔ k ∈ m.keys ∨ k ∈ schema) ∧
      ((∀ k ∈ m.keys, k ∈ schema) → ∀ k, k ∈ result.keys ↔ k ∈ schema) := by
  obtain ⟨m, hm, hres⟩ := parseResponse_ok Unmarshal response schema result hok
  subst hres
  refine ⟨fun k hk => (mem_keys_backfill schema m k).mpr (Or.inr hk), m, hm, rfl,
    fun k => mem_keys_backfill schema m k, ?_⟩
  intro hsub k
  rw [mem_keys_backfill]
  constructor
  · rintro (hk | hk)
    · exact hsub k hk
    · exact hk
  · exact fun hk => Or.inr hk

/-- The output with `invoice_number` and `vendor`, parsed for the schema
`invoice_number`, `total_amount`. -/
theorem C19_result_keys_witness :
    "invoice_number" ∈ GoMap.keys [("invoice_number", AnyValue.string "INV-1"),
      ("vendor", AnyValue.string "ACME"), ("total_amount", AnyValue.null)] ∧
    "total_amount" ∈ GoMap.keys [("invoice_number", AnyValue.string "INV-1"),
      ("vendor", AnyValue.string "ACME"), ("total_amount", AnyValue.null)] ∧
    ∃ m, json.Unmarshal
        (jsonText "\x7b\"invoice_number\": \"INV-1\", \"vendor\": \"ACME\"\x7d") = .ok m ∧
      [("invoice_number", AnyValue.string "INV-1"), ("vendor", AnyValue.string "ACME"),
        ("total_amount", AnyValue.null)] = backfill m ["invoice_number", "total_amount"] ∧
      (∀ k, k ∈ GoMap.keys [("invoice_number", AnyValue.string "INV-1"),
          ("vendor", AnyValue.string "ACME"), ("total_amount", AnyValue.null)] ↔
        k ∈ m.keys ∨ k ∈ ["invoice_number", "total_amount"]) ∧
      ((∀ k ∈ m.keys, k ∈ ["invoice_number", "total_amount"]) →
        ∀ k, k ∈ GoMap.keys [("invoice_number", AnyValue.string "INV-1"),
          ("vendor", AnyValue.string "ACME"), ("total_amount", AnyValue.null)] ↔
        k ∈ ["invoice_number", "total_amount"]) :=
  ⟨(C19_result_keys json.Unmarshal
      "\x7b\"invoice_number\": \"INV-1\", \"vendor\": \"ACME\"\x7d"
      ["invoice_number", "total_amount"]
      [("invoice_number", .string "INV-1"), ("vendor", .string "ACME"),
        ("total_amount", .null)]
      rfl).1 "invoice_number" (by decide),
   (C19_result_keys json.Unmarshal
      "\x7b\"invoice_number\": \"INV-1\", \"vendor\": \"ACME\"\x7d"
      ["invoice_number", "total_amount"]
      [("invoice_number", .string "INV-1"), ("vendor", .string "ACME"),
        ("total_amount", .null)]
      rfl).1 "total_amount" (by decide),
   (C19_result_keys json.Unmarshal
      "\x7b\"invoice_number\": \"INV-1\", \"vendor\": \"ACME\"\x7d"
      ["invoice_number", "total_amount"]
      [("invoice_number", .string "INV-1"), ("vendor", .string "ACME"),
        ("total_amount", .null)]
      rfl).2⟩

end llm

namespace llm

theorem indexFrom_skip (c : Char) (front rest : List Char) (i : Nat) (h : c ∉ front) :
    strings.indexFrom [c] (front ++ c :: rest) i = some (i + front.length) := by
  induction front generalizing i with
  | nil => simp [indexFrom_head]
  | cons x xs ih =>
    have hx : ¬ c = x := fun e => h (e ▸ List.mem_cons_self _ _)
    have hxs : c ∉ xs := fun hm => h (List.mem_cons_of_mem _ hm)
    have hp : List.isPrefixOf [c] (x :: (xs ++ c :: rest)) = false := by
      simp [List.isPrefixOf, hx]
    rw [List.cons_append, strings.indexFrom, hp, if_neg Bool.false_ne_true, ih (i + 1) hxs,
      List.length_cons]
    congr 1
    omega

/-- C20, amended: when the trimmed text is a JSON object text (`{`, a body,
`}`) preceded by text without `{` and followed by text without `}`, the
substring from the first `{` to the last `}` is that object text, and
`parseResponse` returns what the decoder makes of it: an error when the decoder
rejects it, its fields backfilled with the schema otherwise. -/
theorem C20_object_in_braceless_text (Unmarshal : String → Except GoError GoMap)
    (response : String) (schema : List String) (front body back : List Char)
    (hclean : (cleaned response).data = front ++ ('\x7b' :: (body ++ ['\x7d'])) ++ back)
    (hfront : '\x7b' ∉ front) (hback : '\x7d' ∉ back) :
    parseResponse Unmarshal response schema =
      match Unmarshal ⟨'\x7b' :: (body ++ ['\x7d'])⟩ with
      | .error err => .error (.wrap "failed to parse JSON: " err)
      | .ok result => .ok (backfill result schema) := by
  have hopen : "\x7b".data = ['\x7b'] := rfl
  have hclose : "\x7d".data = ['\x7d'] := rfl
  have hlen : (cleaned response).data.length = front.length + (body.length + 2) + back.length := by
    rw [hclean]
    simp
    omega
  have hidx : strings.Index (cleaned response) "\x7b" = (front.length : Int) := by
    unfold strings.Index
    rw [hopen, hclean]
    simp only [List.append_assoc, List.cons_append]
    rw [indexFrom_skip _ _ _ _ hfront]
    simp
  have hlast : strings.LastIndex (cleaned response) "\x7d" =
      ((cleaned response).data.length : Int) - 1 - (back.length : Int) := by
    unfold strings.LastIndex
    have hrev : (cleaned response).data.reverse =
        back.reverse ++ '\x7d' :: (body.reverse ++ '\x7b' :: front.reverse) := by
      rw [hclean]
      simp
    rw [hclose, List.reverse_singleton, hrev,
      indexFrom_skip _ _ _ _ (fun hm => hback (List.mem_reverse.mp hm))]
    simp
  have hslice : strings.slice (cleaned response) front.length
      (front.length + (body.length + 2)) = ⟨'\x7b' :: (body ++ ['\x7d'])⟩ := by
    apply String.ext
    show (List.take (front.length + (body.length + 2)) (cleaned response).data).drop
      front.length = '\x7b' :: (body ++ ['\x7d'])
    rw [hclean]
    have hl : (front ++ '\x7b' :: (body ++ ['\x7d'])).length =
        front.length + (body.length + 2) := by
      simp
    rw [List.take_left' hl, List.drop_left' rfl]
  rw [parseResponse_cleaned, hidx, hlast, hlen]
  have hcond : ¬ ((front.length : Int) = -1 ∨
      (((front.length + (body.length + 2) + back.length : Nat) : Int) - 1 -
        (back.length : Int)) = -1 ∨
      (front.length : Int) >
        (((front.length + (body.length + 2) + back.length : Nat) : Int) - 1 -
          (back.length : Int))) := by
    clear hidx hlast hslice hlen
    intro hor
    rcases hor with hor | hor | hor
    · omega
    · push_cast at hor
      omega
    · push_cast at hor
      omega
  rw [if_neg hcond]
  have hstart : (front.length : Int).toNat = front.length := by simp
  have hend : ((((front.length + (body.length + 2) + back.length : Nat) : Int) - 1 -
      (back.length : Int)) + 1).toNat = front.length + (body.length + 2) := by
    clear hidx hlast hslice hlen hcond
    push_cast
    omega
  rw [hstart, hend, hslice]

end llm

namespace llm

/-- C20, as stated, fails: on an output with two JSON objects, and on an output
whose prose has braces of its own, the text from the first `{` to the last `}`
is not a JSON object and `parseResponse` returns an error, although the first
well-formed JSON object substring, `{"a": "1"}`, decodes. -/
theorem C20_counterexample :
    json.Unmarshal "\x7b\"a\": \"1\"\x7d" = .ok [("a", .string "1")] ∧
    parseResponse json.Unmarshal "\x7b\"a\": \"1\"\x7d or \x7b\"a\": \"2\"\x7d" ["a"] =
      .error (.wrap "failed to parse JSON: "
        (.errorsNew "invalid character after top-level value")) ∧
    parseResponse json.Unmarshal "\x7b\"a\": \"1\"\x7d as asked in \x7bschema\x7d" ["a"] =
      .error (.wrap "failed to parse JSON: "
        (.errorsNew "invalid character after top-level value")) := by
  refine ⟨rfl, rfl, rfl⟩

/-- An output with prose and a code fence around one object, and an output
that is a fenced object. -/
theorem C20_object_in_braceless_text_witness :
    parseResponse json.Unmarshal "Here is the result:\n```json\n\x7b\"a\": \"1\"\x7d\n```"
        ["a", "b"] = .ok [("a", .string "1"), ("b", .null)] ∧
    parseResponse json.Unmarshal "```json\n\x7b\"a\": \"1\"\x7d\n```" ["a", "b"] =
      .ok [("a", .string "1"), ("b", .null)] :=
  ⟨(C20_object_in_braceless_text json.Unmarshal
      "Here is the result:\n```json\n\x7b\"a\": \"1\"\x7d\n```" ["a", "b"]
      "Here is the result:\n```json\n".data "\"a\": \"1\"".data [] (by decide) (by decide)
      (by decide)).trans rfl,
   (C20_object_in_braceless_text json.Unmarshal "```json\n\x7b\"a\": \"1\"\x7d\n```" ["a", "b"]
      [] "\"a\": \"1\"".data [] (by decide) (by decide) (by decide)).trans rfl⟩

end llm

/-! ## Frame and safety of the recognition pipeline -/

namespace usecase

open domain

/-- The record of `processingOf` keeps the fields set at creation. -/
theorem sameIdentity_processingOf (task : Task) (now1 : Time) :
    sameIdentity (processingOf task now1) task :=
  ⟨rfl, rfl, rfl, rfl, rfl, rfl⟩

/-- The record of `failedOf` keeps the fields set at creation. -/
theorem sameIdentity_failedOf (task : Task) (now1 now2 : Time) (msg : String) :
    sameIdentity (failedOf (processingOf task now1) msg now2) task :=
  ⟨rfl, rfl, rfl, rfl, rfl, rfl⟩

/-- The record of `completedOf` keeps the fields set at creation. -/
theorem sameIdentity_completedOf (task : Task) (now1 now2 : Time) (result : Option GoMap) :
    sameIdentity (completedOf (processingOf task now1) result now2) task :=
  ⟨rfl, rfl, rfl, rfl, rfl, rfl⟩

/-- C24: a transition method, whether it succeeds or not, leaves id, file
key, file name, content type, schema and creation time as they were; and every
record a run of `ProcessTask` hands to the repository's `Update`, so every
record it persists, agrees on these fields with the record it fetched. -/
theorem C24_identity_fields_kept (uc : RecognitionUseCase) (h : List Call) (taskID : UUID)
    (task t : Task) (op : Transition) (hfetch : uc.GetByID h taskID = .ok task) :
    sameIdentity (op.run t).2 t ∧
    (∀ rec ∈ updates (ProcessTask uc h taskID).calls, sameIdentity rec task) ∧
    (∀ rec ∈ persisted (ProcessTask uc h taskID).calls, sameIdentity rec task) := by
  refine ⟨?_, ?_⟩
  · rcases run_cases t op with hr | ⟨now, -, hr⟩ | ⟨result, now, -, -, hr⟩ |
      ⟨errMsg, now, -, -, hr⟩ <;> rw [hr] <;> exact ⟨rfl, rfl, rfl, rfl, rfl, rfl⟩
  · have hrun := ProcessTask_run uc h taskID
    rw [hfetch] at hrun
    generalize ProcessTask uc h taskID = out at hrun ⊢
    cases hrun with
    | skipped _ hfinal => simp [updates, persisted]
    | notPending _ hfinal hstatus => simp [updates, persisted]
    | firstUpdateFailed _ now1 e1 hstatus =>
      simp [updates, persisted, sameIdentity_processingOf, sameIdentity_failedOf,
        sameIdentity_completedOf]
    | downloadFailed _ now1 now2 e1 ret hstatus =>
      cases ret <;> simp [updates, persisted, sameIdentity_processingOf, sameIdentity_failedOf,
        sameIdentity_completedOf]
    | readFailed _ now1 now2 e1 ret hstatus =>
      cases ret <;> simp [updates, persisted, sameIdentity_processingOf, sameIdentity_failedOf,
        sameIdentity_completedOf]
    | noConverter _ now1 now2 fileData ret hstatus hpdf hnil =>
      cases ret <;> simp [updates, persisted, sameIdentity_processingOf, sameIdentity_failedOf,
        sameIdentity_completedOf]
    | convertFailed _ now1 now2 fileData e1 ret hstatus hpdf =>
      cases ret <;> simp [updates, persisted, sameIdentity_processingOf, sameIdentity_failedOf,
        sameIdentity_completedOf]
    | recognizeFailed _ now1 now2 fileData imageData made e1 ret hstatus hmade =>
      rcases hmade with ⟨-, rfl, rfl⟩ | ⟨-, rfl⟩ <;> cases ret <;>
        simp [updates, persisted, sameIdentity_processingOf, sameIdentity_failedOf,
        sameIdentity_completedOf]
    | lastUpdateFailed _ now1 now2 fileData imageData made result e1 hstatus hmade =>
      rcases hmade with ⟨-, rfl, rfl⟩ | ⟨-, rfl⟩ <;>
        simp [updates, persisted, sameIdentity_processingOf, sameIdentity_failedOf,
        sameIdentity_completedOf]
    | completed _ now1 now2 fileData imageData made result hstatus hmade =>
      rcases hmade with ⟨-, rfl, rfl⟩ | ⟨-, rfl⟩ <;>
        simp [updates, persisted, sameIdentity_processingOf, sameIdentity_failedOf,
        sameIdentity_completedOf]

/-- The successful run on the sample task stores two records, both with the
identity fields of the fetched one. -/
theorem C24_identity_fields_witness :
    sameIdentity (Transition.run sampleTask (.markProcessing 200)).2 sampleTask ∧
    (∀ rec ∈ updates (ProcessTask allSucceed [] 7).calls, sameIdentity rec sampleTask) ∧
    (∀ rec ∈ persisted (ProcessTask allSucceed [] 7).calls, sameIdentity rec sampleTask) :=
  C24_identity_fields_kept allSucceed [] 7 sampleTask sampleTask (.markProcessing 200) rfl

/-- C29: in no run does `ProcessTask` return the error of the failing guard of
`MarkCompleted`; whenever it returns the error of a failed download, read,
normalization or inference, the record it holds is the failed one and its last
call is the `Update` of that record, so `markTaskFailed` did not leave through
the failing guard of `MarkFailed`; and on the record left by a successful
`MarkProcessing` both guards hold whatever the arguments. -/
theorem C29_guards_hold_after_processing (uc : RecognitionUseCase) (h : List Call)
    (taskID : UUID) :
    (∀ e, (ProcessTask uc h taskID).err ≠
      some (.wrap "failed to mark task as completed: " e)) ∧
    (∀ pre e, (ProcessTask uc h taskID).err = some (.wrap pre e) →
      pre ∈ ["failed to download file: ", "failed to read file: ",
        "failed to prepare image: ", "LLM recognition failed: "] →
      ∃ rec ret, (ProcessTask uc h taskID).calls.getLast? = some (Call.Update rec ret) ∧
        (ProcessTask uc h taskID).task = some rec ∧ rec.Status = TaskStatusFailed) ∧
    (∀ task now, (MarkProcessing task now).1 = none →
      ∀ (result : Option GoMap) (msg : String) (now2 : Time) (h2 : List Call),
        (MarkCompleted (MarkProcessing task now).2 result now2).1 = none ∧
        (MarkFailed (MarkProcessing task now).2 msg now2).1 = none ∧
        (markTaskFailed uc h2 (MarkProcessing task now).2 msg).2 ≠ []) := by
  have hrun := ProcessTask_run uc h taskID
  generalize uc.GetByID h taskID = fetched at hrun
  generalize ProcessTask uc h taskID = out at hrun ⊢
  refine ⟨?_, ?_, ?_⟩
  · intro e he
    cases hrun <;> simp at he
  · intro pre e he hpre
    cases hrun with
    | fetchFailed e1 =>
      simp only [Option.some.injEq, GoError.wrap.injEq] at he
      obtain ⟨rfl, -⟩ := he
      simp at hpre
    | skipped task hfinal => simp at he
    | notPending task hfinal hstatus =>
      simp only [Option.some.injEq, GoError.wrap.injEq] at he
      obtain ⟨rfl, -⟩ := he
      simp at hpre
    | firstUpdateFailed task now1 e1 hstatus =>
      simp only [Option.some.injEq, GoError.wrap.injEq] at he
      obtain ⟨rfl, -⟩ := he
      simp at hpre
    | downloadFailed task now1 now2 e1 ret hstatus => exact ⟨_, ret, rfl, rfl, rfl⟩
    | readFailed task now1 now2 e1 ret hstatus => exact ⟨_, ret, rfl, rfl, rfl⟩
    | noConverter task now1 now2 fileData ret hstatus hpdf hnil =>
      exact ⟨_, ret, rfl, rfl, rfl⟩
    | convertFailed task now1 now2 fileData e1 ret hstatus hpdf =>
      exact ⟨_, ret, rfl, rfl, rfl⟩
    | recognizeFailed task now1 now2 fileData imageData made e1 ret hstatus hmade =>
      rcases hmade with ⟨-, rfl, rfl⟩ | ⟨-, rfl⟩ <;> exact ⟨_, ret, rfl, rfl, rfl⟩
    | lastUpdateFailed task now1 now2 fileData imageData made result e1 hstatus hmade =>
      simp only [Option.some.injEq, GoError.wrap.injEq] at he
      obtain ⟨rfl, -⟩ := he
      simp at hpre
    | completed task now1 now2 fileData imageData made result hstatus hmade => simp at he
  · intro task now hok result msg now2 h2
    have hs : task.Status = TaskStatusPending := by
      by_cases hs : task.Status = TaskStatusPending
      · exact hs
      · rw [markProcessing_of_not_pending task now hs] at hok
        exact absurd hok (by simp)
    rw [markProcessing_of_pending task now hs]
    refine ⟨?_, ?_, ?_⟩
    · rw [markCompleted_of_processing _ result now2 rfl]
    · rw [markFailed_of_active _ msg now2 (Or.inr rfl)]
    · rw [markTaskFailed_processingOf]
      simp

/-- The run with a failing download ends with the `Update` of the failed
record. -/
theorem C29_guards_hold_witness :
    ∃ rec ret, (ProcessTask missingBlob [] 7).calls.getLast? = some (Call.Update rec ret) ∧
      (ProcessTask missingBlob [] 7).task = some rec ∧ rec.Status = TaskStatusFailed :=
  (C29_guards_hold_after_processing missingBlob [] 7).2.1 "failed to download file: "
    (.errorsNew "NoSuchKey") rfl (by simp)

end usecase

/-! ## Pagination -/

namespace domain

/-- An `int` wraps to itself. -/
theorem wrapInt_of_isInt (x : Int) (h : isInt x) : wrapInt x = x := by
  unfold isInt MinInt MaxInt at h
  unfold wrapInt
  omega

/-- What `NewPagination` returns, by cases on its arguments. -/
theorem newPagination_fields (page pageSize : Int) :
    (NewPagination page pageSize).Page = (if page < 1 then 1 else page) ∧
    (NewPagination page pageSize).PageSize =
      (if pageSize < 1 then 20 else if pageSize > 100 then 100 else pageSize) := by
  refine ⟨rfl, ?_⟩
  simp only [NewPagination, DefaultPageSize, MaxPageSize]
  split_ifs <;> first | rfl | omega

/-- The page is at least 1 and the page size between 1 and 100. -/
theorem newPagination_bounds (page pageSize : Int) :
    1 ≤ (NewPagination page pageSize).Page ∧ 1 ≤ (NewPagination page pageSize).PageSize ∧
      (NewPagination page pageSize).PageSize ≤ 100 := by
  obtain ⟨h1, h2⟩ := newPagination_fields page pageSize
  rw [h1, h2]
  split_ifs <;> omega

/-- The overflow of `Offset`: at the largest page with the largest page size
the offset is `-200`, a negative number that is not the product. -/
theorem C27_counterexample :
    isInt 9223372036854775807 ∧ isInt 100 ∧
    (NewPagination 9223372036854775807 100).Offset = -200 ∧
    (NewPagination 9223372036854775807 100).Offset < 0 ∧
    (NewPagination 9223372036854775807 100).Offset ≠
      ((NewPagination 9223372036854775807 100).Page - 1) *
        (NewPagination 9223372036854775807 100).PageSize := by
  decide

/-- C27, amended: for all `int` arguments the page of `NewPagination` is at
least 1 and the page size between 1 and 100 (the page is kept when at least 1,
the page size kept when between 1 and 100, 20 when below 1, 100 when above);
`Offset` is the product `(Page - 1) * PageSize` reduced to an `int`, and it
equals the product and is non-negative when the product is at most `MaxInt`,
as it is for every page up to 92233720368547759. -/
theorem C27_pagination (page pageSize : Int) (hpage : isInt page) :
    1 ≤ (NewPagination page pageSize).Page ∧
    1 ≤ (NewPagination page pageSize).PageSize ∧
    (NewPagination page pageSize).PageSize ≤ 100 ∧
    isInt (NewPagination page pageSize).Page ∧
    (1 ≤ page → (NewPagination page pageSize).Page = page) ∧
    (page < 1 → (NewPagination page pageSize).Page = 1) ∧
    (1 ≤ pageSize ∧ pageSize ≤ 100 → (NewPagination page pageSize).PageSize = pageSize) ∧
    (pageSize < 1 → (NewPagination page pageSize).PageSize = 20) ∧
    (100 < pageSize → (NewPagination page pageSize).PageSize = 100) ∧
    (NewPagination page pageSize).Offset =
      wrapInt (((NewPagination page pageSize).Page - 1) *
        (NewPagination page pageSize).PageSize) ∧
    (((NewPagination page pageSize).Page - 1) * (NewPagination page pageSize).PageSize ≤
        MaxInt →
      (NewPagination page pageSize).Offset =
        ((NewPagination page pageSize).Page - 1) * (NewPagination page pageSize).PageSize ∧
      0 ≤ (NewPagination page pageSize).Offset) ∧
    (page ≤ 92233720368547759 →
      (NewPagination page pageSize).Offset =
        ((NewPagination page pageSize).Page - 1) * (NewPagination page pageSize).PageSize ∧
      0 ≤ (NewPagination page pageSize).Offset) := by
  obtain ⟨hP, hS⟩ := newPagination_fields page pageSize
  obtain ⟨hb1, hb2, hb3⟩ := newPagination_bounds page pageSize
  have hint : isInt (NewPagination page pageSize).Page := by
    rw [hP]
    unfold isInt MinInt MaxInt at *
    split_ifs <;> omega
  have hsub : wrapInt ((NewPagination page pageSize).Page - 1) =
      (NewPagination page pageSize).Page - 1 := by
    apply wrapInt_of_isInt
    unfold isInt MinInt MaxInt at *
    omega
  have hoff : (NewPagination page pageSize).Offset =
      wrapInt (((NewPagination page pageSize).Page - 1) *
        (NewPagination page pageSize).PageSize) := by
    rw [Pagination.Offset, hsub]
  have hnonneg : 0 ≤ ((NewPagination page pageSize).Page - 1) *
      (NewPagination page pageSize).PageSize :=
    Int.mul_nonneg (by omega) (by omega)
  have hexact : ((NewPagination page pageSize).Page - 1) *
        (NewPagination page pageSize).PageSize ≤ MaxInt →
      (NewPagination page pageSize).Offset =
        ((NewPagination page pageSize).Page - 1) * (NewPagination page pageSize).PageSize ∧
      0 ≤ (NewPagination page pageSize).Offset := by
    intro hle
    have hw := wrapInt_of_isInt _ ⟨by unfold MinInt; omega, hle⟩
    rw [hoff, hw]
    exact ⟨rfl, hnonneg⟩
  refine ⟨hb1, hb2, hb3, hint, ?_, ?_, ?_, ?_, ?_, hoff, hexact, ?_⟩
  · intro h; rw [hP, if_neg (by omega)]
  · intro h; rw [hP, if_pos h]
  · intro h; rw [hS]; split_ifs <;> omega
  · intro h; rw [hS, if_pos h]
  · intro h; rw [hS]; split_ifs <;> omega
  · intro h
    apply hexact
    have hp : (NewPagination page pageSize).Page - 1 ≤ 92233720368547758 := by
      rw [hP]; split_ifs <;> omega
    have hmul : ((NewPagination page pageSize).Page - 1) *
        (NewPagination page pageSize).PageSize ≤ 92233720368547758 * 100 :=
      Int.mul_le_mul hp hb3 (by omega) (by omega)
    unfold MaxInt
    omega

/-- The third page of size 50 starts at offset 100. -/
theorem C27_pagination_witness :
    (NewPagination 3 50).Offset =
      ((NewPagination 3 50).Page - 1) * (NewPagination 3 50).PageSize ∧
    0 ≤ (NewPagination 3 50).Offset :=
  (C27_pagination 3 50 (by decide)).2.2.2.2.2.2.2.2.2.2.2 (by decide)

end domain

namespace dto

open domain

/-- The page count computed by `TaskListFromDomain` for a non-negative total
and a positive page size: no step overflows, and the count `n` is the one
with `(n - 1) * pageSize < total ≤ n * pageSize`. -/
theorem totalPages_spec (total ps : Int) (h0 : 0 ≤ total) (hmax : total ≤ MaxInt)
    (hps : 1 ≤ ps) :
    ((if Int.tmod total ps > 0 then wrapInt (wrapInt (Int.tdiv total ps) + 1)
      else wrapInt (Int.tdiv total ps)) - 1) * ps < total ∧
    total ≤ (if Int.tmod total ps > 0 then wrapInt (wrapInt (Int.tdiv total ps) + 1)
      else wrapInt (Int.tdiv total ps)) * ps := by
  have hps0 : 0 ≤ ps := by omega
  rw [Int.tdiv_eq_ediv h0 hps0, Int.tmod_eq_emod h0 hps0]
  have hdecomp : ps * (total / ps) + total % ps = total := Int.ediv_add_emod total ps
  have hr0 : 0 ≤ total % ps := Int.emod_nonneg total (by omega)
  have hr1 : total % ps < ps := Int.emod_lt_of_pos total (by omega)
  have hq0 : 0 ≤ total / ps := Int.ediv_nonneg h0 hps0
  generalize total / ps = q at hdecomp hq0 ⊢
  generalize total % ps = r at hdecomp hr0 hr1 ⊢
  have hqle : q ≤ ps * q := by nlinarith
  have hwq : wrapInt q = q := by
    unfold MaxInt at hmax
    unfold wrapInt
    omega
  rw [hwq]
  by_cases hr : r > 0
  · have h2 : 2 * q ≤ ps * q := by nlinarith
    have hw1 : wrapInt (q + 1) = q + 1 := by
      unfold MaxInt at hmax
      unfold wrapInt
      omega
    rw [if_pos hr, hw1]
    constructor <;> nlinarith
  · rw [if_neg hr]
    have hr2 : r = 0 := by omega
    subst hr2
    constructor <;> nlinarith

/-- The converted list shows, at each position, the task of the input at that
position. -/
theorem rendered_in_order (tasks : List Task) :
    ∀ (i : Nat) (t : Task), tasks[i]? = some t → ∃ r, (tasks.map TaskFromDomain)[i]? = some r ∧ Renders r t := by
  intro i t ht
  refine ⟨TaskFromDomain t, ?_, rfl, rfl, rfl, rfl, rfl, rfl, rfl, rfl, rfl, rfl⟩
  rw [List.getElem?_map, ht]
  rfl

/-- C30: for a pagination built by `NewPagination` and a total between 0 and
`MaxInt`, `TaskListFromDomain` returns (its division has a non-zero divisor);
`TotalPages` is the least `n` with `n * PageSize ≥ total`, that is the ceiling
of `total / PageSize`, and 0 when the total is 0; and the response has as
many tasks as the input, the one at each position showing the identifier,
status, file name, content type, schema, result, error text and times of the
input task at that position. -/
theorem C30_total_pages (page pageSize total : Int) (tasks : List Task)
    (h0 : 0 ≤ total) (hmax : total ≤ MaxInt) :
    ∃ resp, TaskListFromDomain ⟨tasks, total, NewPagination page pageSize⟩ = some resp ∧
      resp.PageSize = (NewPagination page pageSize).PageSize ∧
      total ≤ resp.TotalPages * resp.PageSize ∧
      (∀ n : Int, total ≤ n * resp.PageSize → resp.TotalPages ≤ n) ∧
      (total = 0 → resp.TotalPages = 0) ∧
      resp.TotalPages = ⌈(total : ℚ) / (resp.PageSize : ℚ)⌉ ∧
      resp.Tasks = tasks.map TaskFromDomain ∧
      resp.Tasks.length = tasks.length ∧
      (∀ (i : Nat) (t : Task), tasks[i]? = some t → ∃ r, resp.Tasks[i]? = some r ∧ Renders r t) ∧
      resp.Total = total ∧ resp.Page = (NewPagination page pageSize).Page := by
  obtain ⟨-, hb2, -⟩ := newPagination_bounds page pageSize
  obtain ⟨hlow, hhigh⟩ := totalPages_spec total _ h0 hmax hb2
  have hne : (NewPagination page pageSize).PageSize ≠ 0 := by omega
  refine ⟨_, by simp only [TaskListFromDomain, if_neg hne]; rfl, rfl, hhigh, ?_, ?_, ?_, rfl,
    by simp, rendered_in_order tasks, rfl, rfl⟩
  · intro n hn
    by_contra hlt
    have hps : 0 < (NewPagination page pageSize).PageSize := by omega
    simp only at hn hlt
    nlinarith
  · intro hz
    have hps : 0 < (NewPagination page pageSize).PageSize := by omega
    simp only
    subst hz
    nlinarith
  · have hps : (0 : ℚ) < ((NewPagination page pageSize).PageSize : ℚ) := by
      exact_mod_cast (by omega : 0 < (NewPagination page pageSize).PageSize)
    symm
    rw [Int.ceil_eq_iff]
    simp only
    constructor
    · rw [lt_div_iff₀ hps]
      exact_mod_cast hlow
    · rw [div_le_iff₀ hps]
      exact_mod_cast hhigh

/-- A total of 41 tasks in pages of 20 makes 3 pages, and the one task of the
page is returned. -/
theorem C30_total_pages_witness :
    ∃ resp, TaskListFromDomain ⟨[sampleTask], 41, NewPagination 1 20⟩ = some resp ∧
      resp.PageSize = (NewPagination 1 20).PageSize ∧
      41 ≤ resp.TotalPages * resp.PageSize ∧
      (∀ n : Int, 41 ≤ n * resp.PageSize → resp.TotalPages ≤ n) ∧
      ((41 : Int) = 0 → resp.TotalPages = 0) ∧
      resp.TotalPages = ⌈((41 : Int) : ℚ) / (resp.PageSize : ℚ)⌉ ∧
      resp.Tasks = [sampleTask].map TaskFromDomain ∧
      resp.Tasks.length = [sampleTask].length ∧
      (∀ (i : Nat) (t : Task), [sampleTask][i]? = some t → ∃ r, resp.Tasks[i]? = some r ∧ Renders r t) ∧
      resp.Total = 41 ∧ resp.Page = (NewPagination 1 20).Page :=
  C30_total_pages 1 20 41 [sampleTask] (by decide) (by decide)

/-- The page count of the witness, evaluated. -/
theorem totalPages_sample :
    (TaskListFromDomain ⟨[sampleTask], 41, NewPagination 1 20⟩).map (fun r => r.TotalPages) =
      some 3 ∧
    (TaskListFromDomain ⟨[], 0, NewPagination 1 20⟩).map (fun r => r.TotalPages) = some 0 ∧
    UUID.String sampleTask.ID = "00000000-0000-0000-0000-000000000007" := by
  decide

end dto

namespace strings

/-- The first segment of a split at a character is the text before the first
instance of that character. -/
theorem splitFrom_head (sep : Char) (s cur : List Char) :
    (splitFrom [sep] s 0 cur).head? = some (cur.reverse ++ s.takeWhile (fun c => c != sep)) := by
  induction s generalizing cur with
  | nil => simp [splitFrom]
  | cons c s ih =>
    by_cases hc : sep = c
    · subst hc
      simp [splitFrom]
    · have hne : (c != sep) = true := by
        simp only [bne_iff_ne, ne_eq]
        exact fun h => hc h.symm
      have hp : List.isPrefixOf [sep] (c :: s) = false := by
        simp [List.isPrefixOf, hc]
      rw [splitFrom, hp, if_neg Bool.false_ne_true, ih, List.takeWhile_cons, hne]
      simp

/-- A text that has `sub` inside is found by `indexFrom`. -/
theorem indexFrom_of_infix (sub s : List Char) (i : Nat) (h : List.IsInfix sub s) :
    (indexFrom sub s i).isSome = true := by
  induction s generalizing i with
  | nil =>
    have hnil : sub = [] := List.infix_nil.1 h
    simp [indexFrom, hnil]
  | cons c s ih =>
    rw [indexFrom]
    by_cases hp : List.isPrefixOf sub (c :: s) = true
    · rw [if_pos hp]; rfl
    · rw [if_neg hp]
      rcases List.infix_cons_iff.1 h with hpre | hin
      · exact absurd ( List.isPrefixOf_iff_prefix.2 hpre) hp
      · exact ih (i + 1) hin

end strings

namespace usecase

open domain

/-- The media type of a content type is found inside its lower-cased text. -/
theorem mediaType_infix (contentType : String) :
    List.IsInfix (mediaType contentType).data (strings.ToLower contentType).data := by
  have hhead : (strings.Split contentType ";").headD "" =
      ⟨contentType.data.takeWhile (fun c => c != ';')⟩ := by
    have hsplit : strings.Split contentType ";" =
        (strings.splitFrom [';'] contentType.data 0 []).map String.mk := rfl
    have hh := strings.splitFrom_head ';' contentType.data []
    rw [hsplit]
    cases hs : strings.splitFrom [';'] contentType.data 0 [] with
    | nil => rw [hs] at hh; simp at hh
    | cons seg rest =>
      rw [hs] at hh
      simp only [List.head?_cons, Option.some.injEq, List.reverse_nil, List.nil_append] at hh
      simp [hh]
  unfold mediaType
  rw [hhead]
  simp only [strings.TrimSpace, strings.ToLower]
  have h1 : List.IsPrefix
      (List.rdropWhile strings.isSpace (List.dropWhile strings.isSpace
        ((contentType.data.takeWhile (fun c => c != ';')).map strings.toLowerRune)))
      (List.dropWhile strings.isSpace
        ((contentType.data.takeWhile (fun c => c != ';')).map strings.toLowerRune)) :=
    List.rdropWhile_prefix _ _
  have h2 : List.IsSuffix
      (List.dropWhile strings.isSpace
        ((contentType.data.takeWhile (fun c => c != ';')).map strings.toLowerRune))
      ((contentType.data.takeWhile (fun c => c != ';')).map strings.toLowerRune) :=
    List.dropWhile_suffix _
  have h3 : List.IsPrefix
      ((contentType.data.takeWhile (fun c => c != ';')).map strings.toLowerRune)
      (contentType.data.map strings.toLowerRune) :=
    List.IsPrefix.map _ ( List.takeWhile_prefix _)
  exact (h1.isInfix.trans h2.isInfix).trans h3.isInfix

/-- A content type that `IsPDF` takes for a PDF passes the test of
`prepareImageData`: its lower-cased text has "pdf" in it. -/
theorem contains_pdf_of_isPDF (contentType : String) (h : IsPDF contentType = true) :
    strings.Contains (strings.ToLower contentType) "pdf" = true := by
  have hmt : mediaType contentType = "application/pdf" := by
    simpa [IsPDF] using h
  have hin := mediaType_infix contentType
  rw [hmt] at hin
  have hpdf : List.IsInfix "pdf".data "application/pdf".data :=
    ⟨"application/".data, [], by decide⟩
  exact strings.indexFrom_of_infix _ _ 0 (hpdf.trans hin)

end usecase

/-! ## The normalization step and the content type -/

namespace usecase

open domain

/-- C28: the content type "image/png; name=x.pdf" is accepted by
`ValidateContentType`, is an image for `IsImage` and not a PDF for `IsPDF`,
and yet `prepareImageData` hands the bytes to the rasterizer, because its own
test looks for the text "pdf" anywhere in the content type, parameters
included; with the plain content type "image/png" the bytes pass through. -/
theorem C28_rasterizer_on_image_with_pdf_parameter :
    ValidateContentType "image/png; name=x.pdf" = none ∧
    IsImage "image/png; name=x.pdf" = true ∧
    IsPDF "image/png; name=x.pdf" = false ∧
    prepareImageData allSucceed [] [137, 80, 78, 71] "image/png; name=x.pdf" =
      (.ok [1, 2], [Call.ConvertFirstPage [137, 80, 78, 71] (.ok [1, 2])]) ∧
    IsPDF "image/png" = false ∧
    prepareImageData allSucceed [] [137, 80, 78, 71] "image/png" =
      (.ok [137, 80, 78, 71], []) ∧
    IsPDF "Application/PDF; charset=binary" = true ∧
    prepareImageData allSucceed [] [37, 80, 68, 70] "Application/PDF; charset=binary" =
      (.ok [1, 2], [Call.ConvertFirstPage [37, 80, 68, 70] (.ok [1, 2])]) := by
  refine ⟨by decide, by decide, by decide, rfl, by decide, rfl, by decide, rfl⟩

end usecase

/-! ## Creating and deleting tasks -/

namespace usecase

open domain

/-- The runs of `TaskUseCase.Create`, one case for each way through the
method. -/
theorem create_cases (uc : TaskUseCase) (h : List TaskCall) (input : CreateTaskInput) :
    (∃ err, ValidateContentType input.ContentType = some err ∧
      uc.Create h input = ⟨none, some (.wrap "validation error: " err), []⟩) ∨
    (ValidateContentType input.ContentType = none ∧ ∃ err,
      uc.Create h input = ⟨none, some (.wrap "failed to upload file: " err),
        [TaskCall.Upload input.FileName input.ContentType input.FileReader input.FileSize
          (.error err)]⟩) ∨
    (ValidateContentType input.ContentType = none ∧ ∃ fileKey id now err ret,
      NewTask id now fileKey input.FileName input.ContentType input.Schema = .error err ∧
      uc.Create h input = ⟨none, some (.wrap "failed to create task: " err),
        [TaskCall.Upload input.FileName input.ContentType input.FileReader input.FileSize
          (.ok fileKey), TaskCall.DeleteFile fileKey ret]⟩) ∨
    (ValidateContentType input.ContentType = none ∧ ∃ fileKey id now task err ret,
      NewTask id now fileKey input.FileName input.ContentType input.Schema = .ok task ∧
      uc.Create h input = ⟨none, some (.wrap "failed to save task: " err),
        [TaskCall.Upload input.FileName input.ContentType input.FileReader input.FileSize
          (.ok fileKey), TaskCall.Create task (some err), TaskCall.DeleteFile fileKey ret]⟩) ∨
    (ValidateContentType input.ContentType = none ∧ ∃ fileKey id now task ret,
      NewTask id now fileKey input.FileName input.ContentType input.Schema = .ok task ∧
      uc.Create h input = ⟨some task, none,
        [TaskCall.Upload input.FileName input.ContentType input.FileReader input.FileSize
          (.ok fileKey), TaskCall.Create task none, TaskCall.Enqueue task.ID ret]⟩) := by
  unfold TaskUseCase.Create
  split
  next err hv => exact Or.inl ⟨err, hv, rfl⟩
  next hv =>
    right
    simp only []
    split
    next err hup => rw [hup]; exact Or.inl ⟨hv, err, rfl⟩
    next fileKey hup =>
      right
      rw [hup]
      split
      next err hnew => exact Or.inl ⟨hv, fileKey, _, _, err, _, hnew, rfl⟩
      next task hnew =>
        right
        split
        next err hcreate =>
          rw [hcreate]
          exact Or.inl ⟨hv, fileKey, _, _, task, err, _, hnew, rfl⟩
        next hcreate =>
          rw [hcreate]
          exact Or.inr ⟨hv, fileKey, _, _, task, _, hnew, rfl⟩

end usecase

namespace usecase

open domain

/-- C21: in every run of `TaskUseCase.Create`, a call of the repository's
`Create` means that the content type was accepted and that `NewTask` built
the record handed over; a call of `Enqueue` comes last, right after a
`Create` of the record with that identifier that returned no error; and when
the content type is not supported or the schema is empty, `Create` returns an
error and no task, and calls neither the repository's `Create` nor
`Enqueue`. -/
theorem C21_create_before_enqueue (uc : TaskUseCase) (h : List TaskCall)
    (input : CreateTaskInput) :
    (∀ task ret, TaskCall.Create task ret ∈ (uc.Create h input).calls →
      ValidateContentType input.ContentType = none ∧
      ∃ id now fileKey,
        NewTask id now fileKey input.FileName input.ContentType input.Schema = .ok task) ∧
    (∀ id ret, TaskCall.Enqueue id ret ∈ (uc.Create h input).calls →
      ∃ front task, task.ID = id ∧
        (uc.Create h input).calls =
          front ++ [TaskCall.Create task none, TaskCall.Enqueue id ret]) ∧
    (ValidateContentType input.ContentType ≠ none ∨ input.Schema = [] →
      (uc.Create h input).err ≠ none ∧ (uc.Create h input).task = none ∧
      ∀ c ∈ (uc.Create h input).calls, c.isCreate = false ∧ c.isEnqueue = false) := by
  have hschema : ∀ id now fileKey task,
      NewTask id now fileKey input.FileName input.ContentType input.Schema = .ok task →
      input.Schema ≠ [] := by
    intro id now fileKey task hnew hs
    rw [hs] at hnew
    by_cases hk : fileKey = "" <;> simp [NewTask, hk] at hnew
  rcases create_cases uc h input with ⟨err, hv, hout⟩ | ⟨hv, err, hout⟩ |
    ⟨hv, fileKey, id, now, err, ret, hnew, hout⟩ |
    ⟨hv, fileKey, id, now, task, err, ret, hnew, hout⟩ |
    ⟨hv, fileKey, id, now, task, ret, hnew, hout⟩ <;> rw [hout]
  · simp [hv]
  · simp [hv, TaskCall.isCreate, TaskCall.isEnqueue]
  · simp [hv, TaskCall.isCreate, TaskCall.isEnqueue]
  · refine ⟨?_, by simp, ?_⟩
    · intro task2 ret2 hmem
      simp at hmem
      obtain ⟨rfl, -⟩ := hmem
      exact ⟨hv, id, now, fileKey, hnew⟩
    · rintro (hbad | hbad)
      · exact absurd hv hbad
      · exact absurd hbad (hschema id now fileKey task hnew)
  · refine ⟨?_, ?_, ?_⟩
    · intro task2 ret2 hmem
      simp at hmem
      obtain ⟨rfl, -⟩ := hmem
      exact ⟨hv, id, now, fileKey, hnew⟩
    · intro id2 ret2 hmem
      simp at hmem
      obtain ⟨rfl, rfl⟩ := hmem
      exact ⟨[TaskCall.Upload input.FileName input.ContentType input.FileReader
        input.FileSize (.ok fileKey)], task, rfl, rfl⟩
    · rintro (hbad | hbad)
      · exact absurd hv hbad
      · exact absurd hbad (hschema id now fileKey task hnew)

/-- An upload with an empty schema: the file is uploaded and deleted again,
no record is created and nothing is enqueued. -/
theorem C21_create_witness :
    (queueDown.Create [] { sampleInput with Schema := [] }).err ≠ none ∧
    (queueDown.Create [] { sampleInput with Schema := [] }).task = none ∧
    ∀ c ∈ (queueDown.Create [] { sampleInput with Schema := [] }).calls,
      c.isCreate = false ∧ c.isEnqueue = false :=
  (C21_create_before_enqueue queueDown [] { sampleInput with Schema := [] }).2.2
    (Or.inr rfl)

/-- C22: when the repository's `Create` returned no error and `Enqueue`
returned an error, `TaskUseCase.Create` returns the created task and no
error; the task is pending, the upload had succeeded, and the run calls
neither the repository's `Delete` nor the blob store's `Delete`. -/
theorem C22_enqueue_failure_keeps_task (uc : TaskUseCase) (h : List TaskCall)
    (input : CreateTaskInput) (task : Task) (id : UUID) (e : GoError)
    (hcreate : TaskCall.Create task none ∈ (uc.Create h input).calls)
    (henqueue : TaskCall.Enqueue id (some e) ∈ (uc.Create h input).calls) :
    (uc.Create h input).err = none ∧ (uc.Create h input).task = some task ∧
    task.Status = TaskStatusPending ∧ id = task.ID ∧
    (∃ fileKey, (uc.Create h input).calls =
      [TaskCall.Upload input.FileName input.ContentType input.FileReader input.FileSize
        (.ok fileKey), TaskCall.Create task none, TaskCall.Enqueue task.ID (some e)]) ∧
    ∀ c ∈ (uc.Create h input).calls, c.isDelete = false := by
  rcases create_cases uc h input with ⟨err, hv, hout⟩ | ⟨hv, err, hout⟩ |
    ⟨hv, fileKey, id1, now, err, ret, hnew, hout⟩ |
    ⟨hv, fileKey, id1, now, task1, err, ret, hnew, hout⟩ |
    ⟨hv, fileKey, id1, now, task1, ret, hnew, hout⟩ <;> rw [hout] at hcreate henqueue ⊢
  · simp at hcreate
  · simp at hcreate
  · simp at hcreate
  · simp at hcreate
  · simp at hcreate henqueue
    obtain ⟨rfl, rfl⟩ := henqueue
    subst hcreate
    have hpending : task.Status = TaskStatusPending := by
      unfold NewTask at hnew
      split_ifs at hnew
      simp only [Except.ok.injEq] at hnew
      rw [← hnew]
    exact ⟨rfl, rfl, hpending, rfl, ⟨fileKey, rfl⟩, by simp [TaskCall.isDelete]⟩

/-- The run in which the queue refuses the identifier: the created task is
returned. -/
theorem C22_enqueue_failure_witness :
    (queueDown.Create [] sampleInput).err = none ∧
    (queueDown.Create [] sampleInput).task = some sampleTask ∧
    sampleTask.Status = TaskStatusPending ∧ 7 = sampleTask.ID ∧
    (∃ fileKey, (queueDown.Create [] sampleInput).calls =
      [TaskCall.Upload sampleInput.FileName sampleInput.ContentType sampleInput.FileReader
        sampleInput.FileSize (.ok fileKey), TaskCall.Create sampleTask none,
        TaskCall.Enqueue sampleTask.ID (some (.errorsNew "redis: connection refused"))]) ∧
    ∀ c ∈ (queueDown.Create [] sampleInput).calls, c.isDelete = false :=
  C22_enqueue_failure_keeps_task queueDown [] sampleInput sampleTask 7
    (.errorsNew "redis: connection refused")
    (by
      have hcalls : (queueDown.Create [] sampleInput).calls =
          [TaskCall.Upload "invoice.pdf" "application/pdf" [37, 80, 68, 70] 4
            (.ok "2024/01/15/7/invoice.pdf"), TaskCall.Create sampleTask none,
            TaskCall.Enqueue 7 (some (.errorsNew "redis: connection refused"))] := rfl
      rw [hcalls]; simp)
    (by
      have hcalls : (queueDown.Create [] sampleInput).calls =
          [TaskCall.Upload "invoice.pdf" "application/pdf" [37, 80, 68, 70] 4
            (.ok "2024/01/15/7/invoice.pdf"), TaskCall.Create sampleTask none,
            TaskCall.Enqueue 7 (some (.errorsNew "redis: connection refused"))] := rfl
      rw [hcalls]; simp)

/-- C23, as stated, fails: when the repository's `Delete` returns an error,
`TaskUseCase.Delete` does not return that error but a new one that wraps it
under the text "failed to delete task: ". -/
theorem C23_counterexample :
    (recordDeleteFails.Delete [] 7).2 = [TaskCall.GetByID 7 (.ok sampleTask),
      TaskCall.DeleteFile "2024/01/15/7/invoice.pdf" none,
      TaskCall.Delete 7 (some (.errorsNew "connection refused"))] ∧
    (recordDeleteFails.Delete [] 7).1 =
      some (.wrap "failed to delete task: " (.errorsNew "connection refused")) ∧
    (recordDeleteFails.Delete [] 7).1 ≠ some (.errorsNew "connection refused") ∧
    ((recordDeleteFails.Delete [] 7).1.map GoError.Error) ≠
      some (GoError.errorsNew "connection refused").Error := by
  refine ⟨rfl, rfl, by decide, by decide⟩

/-- C23, amended: when the repository finds the task, `TaskUseCase.Delete` calls the
blob store's `Delete` with the file key of the task and then the repository's
`Delete` with the identifier, whatever the blob store returned; it returns nil
exactly when the repository's `Delete` does, and otherwise the error of the
repository's `Delete` wrapped under "failed to delete task: ". When the
repository returns an error for the fetch, the not-found error included,
`Delete` returns that error and makes no other call. -/
theorem C23_delete (uc : TaskUseCase) (h : List TaskCall) (id : UUID) :
    (∀ task, uc.taskRepo.GetByID h id = .ok task →
      ∃ blobRet repoRet,
        (uc.Delete h id).2 = [TaskCall.GetByID id (.ok task),
          TaskCall.DeleteFile task.FileKey blobRet, TaskCall.Delete id repoRet] ∧
        ((uc.Delete h id).1 = none ↔ repoRet = none) ∧
        (∀ e, repoRet = some e →
          (uc.Delete h id).1 = some (.wrap "failed to delete task: " e) ∧
          ∀ err, (uc.Delete h id).1 = some err → err.Wraps e)) ∧
    (∀ err, uc.taskRepo.GetByID h id = .error err →
      uc.Delete h id = (some err, [TaskCall.GetByID id (.error err)]) ∧
      ∀ c ∈ (uc.Delete h id).2, c.isDelete = false) := by
  constructor
  · intro task hget
    simp only [TaskUseCase.Delete, hget]
    split
    next err hdel =>
      refine ⟨_, some err, by rw [hdel]; rfl, by simp, ?_⟩
      intro e he
      simp only [Option.some.injEq] at he
      subst he
      refine ⟨rfl, ?_⟩
      intro err2 herr2
      simp only [Option.some.injEq] at herr2
      subst herr2
      exact wraps_wrap _ _ _ (wraps_refl _)
    next hdel =>
      refine ⟨_, none, by rw [hdel]; rfl, by simp, ?_⟩
      intro e he
      simp at he
  · intro err hget
    simp [TaskUseCase.Delete, hget, TaskCall.isDelete]

/-- The deletion of the sample task goes through although the blob store
fails to delete the file. -/
theorem C23_delete_witness :
    ∃ blobRet repoRet,
      (blobDeleteFails.Delete [] 7).2 = [TaskCall.GetByID 7 (.ok sampleTask),
        TaskCall.DeleteFile sampleTask.FileKey blobRet, TaskCall.Delete 7 repoRet] ∧
      ((blobDeleteFails.Delete [] 7).1 = none ↔ repoRet = none) ∧
      (∀ e, repoRet = some e →
        (blobDeleteFails.Delete [] 7).1 = some (.wrap "failed to delete task: " e) ∧
        ∀ err, (blobDeleteFails.Delete [] 7).1 = some err → err.Wraps e) :=
  (C23_delete blobDeleteFails [] 7).1 sampleTask rfl

/-- The two runs of `Delete` evaluated: with a blob store that fails, and
with a repository that knows no task. -/
theorem delete_samples :
    blobDeleteFails.Delete [] 7 = (none, [TaskCall.GetByID 7 (.ok sampleTask),
      TaskCall.DeleteFile "2024/01/15/7/invoice.pdf"
        (some (.errorsNew "failed to delete object: timeout")),
      TaskCall.Delete 7 none]) ∧
    emptyRepository.Delete [] 7 =
      (some ErrTaskNotFound, [TaskCall.GetByID 7 (.error ErrTaskNotFound)]) :=
  ⟨rfl, rfl⟩

end usecase

/-! ## The consumer and an unknown task -/

namespace queue

open domain usecase

/-- The delivery of the identifier 7 to a worker whose repository finds no
row: the handler returns the error of the fetch, which the server of the
queue retries and counts like any other error. -/
theorem C25_counterexample :
    (handleDocumentRecognition decodePayload parseCanonical unknownTask []
      "\x7b\"task_id\": \"00000000-0000-0000-0000-000000000007\"\x7d").1 =
      some (.wrap "failed to get task: " ErrTaskNotFound) ∧
    asynq.dispose (handleDocumentRecognition decodePayload parseCanonical unknownTask []
      "\x7b\"task_id\": \"00000000-0000-0000-0000-000000000007\"\x7d").1 0 MaxRetry =
      .retry ∧
    asynq.dispose (handleDocumentRecognition decodePayload parseCanonical updateRefused []
      "\x7b\"task_id\": \"00000000-0000-0000-0000-000000000007\"\x7d").1 0 MaxRetry =
      .retry := by
  refine ⟨by decide, by decide, by decide⟩

/-- C25, amended: for a delivered identifier that the repository does not
know, the handler returns the error of `ProcessTask` as it is, the text
"failed to get task: " wrapping the not-found sentinel, after the fetch as
its only call. The error can be told from others by `errors.Is` with
`ErrTaskNotFound`, but it does not wrap `asynq.SkipRetry`: the server of the
queue redelivers the task and counts the retry while the ceiling is not
reached, as for every other error of the handler. -/
theorem C25_unknown_task_is_retried
    (Unmarshal : String → Except GoError DocumentRecognitionPayload)
    (Parse : String → Except GoError UUID) (uc : RecognitionUseCase) (h : List Call)
    (payload : String) (decoded : DocumentRecognitionPayload) (taskID : UUID)
    (hdecode : Unmarshal payload = .ok decoded) (hparse : Parse decoded.TaskID = .ok taskID)
    (hunknown : uc.GetByID h taskID = .error ErrTaskNotFound) :
    handleDocumentRecognition Unmarshal Parse uc h payload =
      (some (.wrap "failed to get task: " ErrTaskNotFound),
        [Call.GetByID taskID (.error ErrTaskNotFound)]) ∧
    (GoError.wrap "failed to get task: " ErrTaskNotFound).Is ErrTaskNotFound = true ∧
    (GoError.wrap "failed to get task: " ErrTaskNotFound).Is asynq.SkipRetry = false ∧
    ∀ retried maxRetry, retried < maxRetry →
      asynq.dispose (handleDocumentRecognition Unmarshal Parse uc h payload).1 retried
        maxRetry = .retry := by
  have hout : ProcessTask uc h taskID =
      ⟨some (.wrap "failed to get task: " ErrTaskNotFound),
        [Call.GetByID taskID (.error ErrTaskNotFound)], none⟩ := by
    simp only [ProcessTask, hunknown]
  have hret : handleDocumentRecognition Unmarshal Parse uc h payload =
      (some (.wrap "failed to get task: " ErrTaskNotFound),
        [Call.GetByID taskID (.error ErrTaskNotFound)]) := by
    simp only [handleDocumentRecognition, hdecode, hparse, hout]
  refine ⟨hret, by decide, by decide, ?_⟩
  intro retried maxRetry hlt
  rw [hret]
  have hskip : (GoError.wrap "failed to get task: " ErrTaskNotFound).Is asynq.SkipRetry =
      false := by decide
  simp only [asynq.dispose, hskip, Bool.or_false]
  rw [if_neg]
  simp only [ge_iff_le, decide_eq_true_eq, not_le]
  exact hlt

/-- The delivery of the identifier 7 to a worker whose repository finds no
row, on its first attempt out of three. -/
theorem C25_unknown_task_witness :
    handleDocumentRecognition decodePayload parseCanonical unknownTask []
        "\x7b\"task_id\": \"00000000-0000-0000-0000-000000000007\"\x7d" =
      (some (.wrap "failed to get task: " ErrTaskNotFound),
        [Call.GetByID 7 (.error ErrTaskNotFound)]) ∧
    (GoError.wrap "failed to get task: " ErrTaskNotFound).Is ErrTaskNotFound = true ∧
    (GoError.wrap "failed to get task: " ErrTaskNotFound).Is asynq.SkipRetry = false ∧
    ∀ retried maxRetry, retried < maxRetry →
      asynq.dispose (handleDocumentRecognition decodePayload parseCanonical unknownTask []
        "\x7b\"task_id\": \"00000000-0000-0000-0000-000000000007\"\x7d").1 retried
        maxRetry = .retry :=
  C25_unknown_task_is_retried decodePayload parseCanonical unknownTask []
    "\x7b\"task_id\": \"00000000-0000-0000-0000-000000000007\"\x7d"
    ⟨"00000000-0000-0000-0000-000000000007"⟩ 7 rfl rfl rfl

end queue

/-! ## The key of an uploaded file -/

namespace storage

/-- C26: `path.Join` cleans the key it builds, so a file name that is `..`
removes the identifier from the key: two uploads with the file name `..` on
15 January 2024 with the identifiers 7 and 8 both succeed with the key
"2024/01/15". With the file name "invoice.pdf" the key has the five
segments. -/
theorem C26_key_loses_identifier :
    Upload (fun _ _ _ _ => none) ⟨2024, 1, 15⟩ 7 ".." "application/pdf" [37, 80, 68, 70] 4 =
      .ok "2024/01/15" ∧
    Upload (fun _ _ _ _ => none) ⟨2024, 1, 15⟩ 8 ".." "application/pdf" [37, 80, 68, 70] 4 =
      .ok "2024/01/15" ∧
    UUID.String 7 ≠ UUID.String 8 ∧
    Upload (fun _ _ _ _ => none) ⟨2024, 1, 15⟩ 7 "." "application/pdf" [37, 80, 68, 70] 4 =
      .ok "2024/01/15/00000000-0000-0000-0000-000000000007" ∧
    Upload (fun _ _ _ _ => none) ⟨2024, 1, 15⟩ 7 "invoice.pdf" "application/pdf"
        [37, 80, 68, 70] 4 =
      .ok "2024/01/15/00000000-0000-0000-0000-000000000007/invoice.pdf" := by
  refine ⟨rfl, rfl, by decide, rfl, rfl⟩

end storage

/-! ## The image handed to the inference client for a PDF -/

namespace usecase

open domain

/-- When `IsPDF` holds for the content type of the fetched task and the run
calls the inference client, the image it hands over is the output of the
rasterizer for the downloaded bytes. -/
theorem rasterized_of_isPDF (uc : RecognitionUseCase) (h : List Call) (taskID : UUID)
    (task : Task) (imageData : Bytes) (contentType : String) (schema : List String)
    (ret : Except GoError (Option GoMap))
    (hget : uc.GetByID h taskID = .ok task)
    (hcall : Call.RecognizeDocument imageData contentType schema ret ∈
      (ProcessTask uc h taskID).calls)
    (hpdf : IsPDF task.ContentType = true) :
    ∃ fileData, Call.Download task.FileKey (.ok (.ok fileData)) ∈
        (ProcessTask uc h taskID).calls ∧
      Call.ConvertFirstPage fileData (.ok imageData) ∈ (ProcessTask uc h taskID).calls := by
  obtain ⟨-, -, -, fileData, hdown, hconv, -⟩ :=
    inference_call_of_run uc h taskID task imageData contentType schema ret hget hcall
  exact ⟨fileData, hdown, (hconv (contains_pdf_of_isPDF task.ContentType hpdf)).1⟩

end usecase
